import Mathlib

/-!
USB CDC serial bridge (AT91SAM7S-EK): `main.c` and the peripheral clock functions of `pmc.c`

Shallow embedding of the interrupt handlers, the callbacks and the driver loop of
`packages/usb-device-cdc-serial-project/main.c`, and of `PMC_EnablePeripheral`,
`PMC_DisablePeripheral` and `PMC_IsPeriphEnabled` of `packages/at91lib/peripherals/pmc/pmc.c`.

* C globals and the peripheral registers the handlers touch are fields of `State`.
* Every store to a peripheral register and every call into a collaborator
  (USB CDC driver, USART driver, trace output) is appended to `State.trace`, in program
  order, so that the order of the actions of a handler can be stated.
* The statuses returned by `CDCDSerialDriver_Write` and `USART_WriteBuffer` are scripted in
  `State.writeStatus` / `State.usartWriteStatus`: the n-th call gets the n-th entry.  When the
  script is exhausted the driver never accepts again, so a retry loop does not return
  (`none`).
* Constants coming from headers that are not among the sources are the fields of `Board`.
* `TRACE_WARNING` calls are actions of the trace; `TRACE_DEBUG` output is left out, and so is
  `TRACE_INFO` output except in `pmc.c`, where it is the alternative to a register store.
* `ISR_Timer0` and `ISR_Usart0` are the handlers run with no byte arriving meanwhile.  The
  receive DMA channel goes on storing bytes while a handler executes: `ISR_Timer0_rx` and
  `ISR_Usart0_rx` are the same handlers with bytes arriving inside them, and the events of
  the system (`Event`, `step`) carry those bytes.  The two handlers have the same interrupt
  priority (0 in `AIC_ConfigureIT`), so neither interrupts the other.
* The one interleaving inside the driver loop that is modelled is an interrupt during
  `LowPowerMode()` (`main_power_during`).
-/

namespace CdcSerial

/-- Constants taken from headers outside the sources at hand (`board.h`, the chip header,
`USBD.h`, `CDCDSerialDriver.h`). -/
structure Board where
  /-- Macro `BOARD_USB_ENDPOINTS_MAXPACKETSIZE(CDCDSerialDriverDescriptors_DATAIN)` -/
  DATABUFFERSIZE : Nat
  AT91C_TC_CPCS : Nat
  AT91C_TC_CLKEN : Nat
  AT91C_TC_CLKDIS : Nat
  AT91C_TC_SWTRG : Nat
  AT91C_US_ENDRX : Nat
  AT91C_US_TXBUFE : Nat
  AT91C_US_OVER : Nat
  AT91C_US_FRAME : Nat
  USBD_STATUS_SUCCESS : Nat
  USBD_STATE_CONFIGURED : Nat
  CDCDSerialDriver_STATE_OVERRUN : Nat
  CDCDSerialDriver_STATE_FRAMING : Nat
  USBD_LEDPOWER : Nat
  USBD_LEDUSB : Nat
  deriving DecidableEq, Repr

/-- The values these constants have in the headers of the AT91SAM7S-EK software package;
used for the concrete scenarios only. -/
def at91sam7s_ek : Board :=
  { DATABUFFERSIZE := 64
    AT91C_TC_CPCS := 16
    AT91C_TC_CLKEN := 1
    AT91C_TC_CLKDIS := 2
    AT91C_TC_SWTRG := 4
    AT91C_US_ENDRX := 8
    AT91C_US_TXBUFE := 2048
    AT91C_US_OVER := 32
    AT91C_US_FRAME := 64
    USBD_STATUS_SUCCESS := 0
    USBD_STATE_CONFIGURED := 5
    CDCDSerialDriver_STATE_OVERRUN := 64
    CDCDSerialDriver_STATE_FRAMING := 16
    USBD_LEDPOWER := 0
    USBD_LEDUSB := 1 }

/-- Power state `#define STATE_IDLE 0`. -/
def STATE_IDLE : Nat := 0
/-- Power state `#define STATE_SUSPEND 4`: the USB device is in suspend state. -/
def STATE_SUSPEND : Nat := 4
/-- Power state `#define STATE_RESUME 5`: the USB device is in resume state. -/
def STATE_RESUME : Nat := 5

/-- Messages of the `TRACE_WARNING` calls of `main.c`. -/
inductive Warning where
  | bytesDiscarded (remaining : Nat)
  | transferError
  | overrun
  | framingError
  deriving DecidableEq, Repr

/-- Observable actions: stores to peripheral registers, stores to `usartCurrentBuffer` and
`USBState`, and calls into collaborators, with the value each call returned. -/
inductive Effect where
  /-- Store `AT91C_BASE_TC0->TC_CCR = v`. -/
  | TC_CCR (v : Nat)
  /-- Store `AT91C_BASE_US0->US_RCR = v`. -/
  | US_RCR (v : Nat)
  /-- Store `AT91C_BASE_US0->US_IER = v`. -/
  | US_IER (v : Nat)
  /-- Store `AT91C_BASE_US0->US_IDR = v`. -/
  | US_IDR (v : Nat)
  /-- Call `CDCDSerialDriver_Write(usartBuffers[slot], size, 0, 0)`; `data` is what the first
  `size` bytes of the slot hold at the call, `status` the value returned. -/
  | CDCDSerialDriver_Write (slot size : Nat) (data : List Nat) (status : Nat)
  /-- Call `USART_ReadBuffer(AT91C_BASE_US0, usartBuffers[slot], size)`; the handlers ignore
  its result. -/
  | USART_ReadBuffer (slot size : Nat)
  /-- Store `usartCurrentBuffer = v`. -/
  | usartCurrentBuffer (v : Nat)
  /-- Call `CDCDSerialDriver_Read(usbBuffer, size, UsbDataReceived, 0)` -/
  | CDCDSerialDriver_Read (size : Nat)
  /-- Call `USART_WriteBuffer(AT91C_BASE_US0, usbBuffer, size)` and its result. -/
  | USART_WriteBuffer (size : Nat) (data : List Nat) (result : Nat)
  /-- Call `CDCDSerialDriver_SetSerialState(v)`. -/
  | CDCDSerialDriver_SetSerialState (v : Nat)
  | TRACE_WARNING (w : Warning)
  | LED_Configure (led : Nat)
  | LED_Set (led : Nat)
  | LED_Clear (led : Nat)
  /-- Store `USBState = v`. -/
  | USBState (v : Nat)
  | USBD_Connect
  | LowPowerMode
  | NormalPowerMode
  deriving DecidableEq, Repr

/-- Globals of `main.c`, the registers of USART0 / TC0 the handlers use, the state of the
collaborators they query, the scripted replies and the trace. -/
structure State where
  /-- Variable `static unsigned char usartCurrentBuffer`. -/
  usartCurrentBuffer : Nat
  /-- Variable `unsigned char USBState`. -/
  USBState : Nat
  /-- Variable `static unsigned char usartBuffers[2][DATABUFFERSIZE]`, as laid out in memory: slot `i`
  is the bytes at offsets `i * DATABUFFERSIZE ..< (i + 1) * DATABUFFERSIZE`. -/
  usartBuffers : List Nat
  /-- Variable `static unsigned char usbBuffer[DATABUFFERSIZE]`. -/
  usbBuffer : List Nat
  /-- Register `AT91C_BASE_TC0->TC_SR`. -/
  TC_SR : Nat
  /-- Register `AT91C_BASE_US0->US_CSR`. -/
  US_CSR : Nat
  /-- Register `AT91C_BASE_US0->US_IMR` (set through `US_IER`, cleared through `US_IDR`). -/
  US_IMR : Nat
  /-- Receive pointer of the USART's DMA channel, as an offset into `usartBuffers`. -/
  US_RPR : Nat
  /-- Receive counter: bytes still to be received into the current buffer. -/
  US_RCR : Nat
  /-- Receive next pointer, as an offset into `usartBuffers`. -/
  US_RNPR : Nat
  /-- Receive next counter. -/
  US_RNCR : Nat
  /-- What `USBD_GetState()` returns. -/
  deviceState : Nat
  /-- What `CDCDSerialDriver_GetSerialState()` returns. -/
  serialState : Nat
  /-- Device states seen by the successive polls of the main loop's wait for configuration. -/
  devicePolls : List Nat
  /-- Statuses returned by the successive calls of `CDCDSerialDriver_Write`. -/
  writeStatus : List Nat
  /-- Results returned by the successive calls of `USART_WriteBuffer`. -/
  usartWriteStatus : List Nat
  /-- Actions performed so far, oldest first. -/
  trace : List Effect
  deriving DecidableEq, Repr

/-- Append actions to the trace. -/
def State.emit (s : State) (es : List Effect) : State :=
  { s with trace := s.trace ++ es }

/-- Clear in `x` the bits set in `m` (a write of `m` to an interrupt-disable register, or
the hardware dropping a status flag). -/
def clearBits (x m : Nat) : Nat := x ^^^ (x &&& m)

/-- Offset of `usartBuffers[slot]` in `usartBuffers`. -/
def slotOffset (b : Board) (slot : Nat) : Nat := slot * b.DATABUFFERSIZE

/-- The first `size` bytes of `usartBuffers[slot]`. -/
def slotData (b : Board) (s : State) (slot size : Nat) : List Nat :=
  (s.usartBuffers.drop (slotOffset b slot)).take size

/-! ## The receive DMA channel (PDC) of USART0 -/

/-- Modelled from the spec: the hardware's switch to the pre-armed buffer.  When the
receive counter is zero and a next buffer is armed, the next pointer and counter become the
current ones ("only the other slot index is used for the concurrently live reception that
had been pre-armed"). -/
def pdcReload (s : State) : State :=
  if s.US_RCR = 0 ∧ s.US_RNCR ≠ 0 then
    { s with US_RPR := s.US_RNPR, US_RCR := s.US_RNCR, US_RNPR := 0, US_RNCR := 0 }
  else s

/-- Modelled from the spec: the UART hardware receives one byte.  With a reception armed
the byte is stored at the receive pointer, the pointer advances and the remaining count
drops by one; when the count reaches zero the receive-complete flag (ENDRX) is raised and
the pre-armed buffer, if any, takes over.  With nothing armed the byte is not stored. -/
def pdcReceive (b : Board) (s : State) (byte : Nat) : State :=
  if s.US_RCR = 0 then s
  else
    let s1 := { s with usartBuffers := s.usartBuffers.set s.US_RPR byte,
                       US_RPR := s.US_RPR + 1,
                       US_RCR := s.US_RCR - 1 }
    if s1.US_RCR = 0 then pdcReload { s1 with US_CSR := s1.US_CSR ||| b.AT91C_US_ENDRX }
    else s1

/-- Modelled from the spec: `USART_ReadBuffer` of `at91lib/peripherals/usart/usart.c`, which
is not among the sources (the spec's `StartReceive(buffer, capacity)`).  The buffer becomes
the current reception when none is armed, the pre-armed next one when only the current one
is armed, and is refused (result 0) when both are armed.  Arming with a non-zero size drops
the receive-complete flag. -/
def USART_ReadBuffer (b : Board) (s : State) (slot size : Nat) : State :=
  let csr := if size = 0 then s.US_CSR else clearBits s.US_CSR b.AT91C_US_ENDRX
  if s.US_RCR = 0 ∧ s.US_RNCR = 0 then
    ({ s with US_RPR := slotOffset b slot, US_RCR := size, US_CSR := csr }).emit
      [Effect.USART_ReadBuffer slot size]
  else if s.US_RNCR = 0 then
    ({ s with US_RNPR := slotOffset b slot, US_RNCR := size, US_CSR := csr }).emit
      [Effect.USART_ReadBuffer slot size]
  else s.emit [Effect.USART_ReadBuffer slot size]

/-! ## Retry loops -/

/-- The loop `while (CDCDSerialDriver_Write(usartBuffers[slot], size, 0, 0) !=
USBD_STATUS_SUCCESS);` run against the scripted statuses: the calls made and the statuses
left, or `none` when no call is ever accepted. -/
def writeRetry (b : Board) (slot size : Nat) (data : List Nat) :
    List Nat → Option (List Effect × List Nat)
  | [] => none
  | r :: rs =>
    if r = b.USBD_STATUS_SUCCESS then
      some ([Effect.CDCDSerialDriver_Write slot size data r], rs)
    else
      (writeRetry b slot size data rs).map
        fun p => (Effect.CDCDSerialDriver_Write slot size data r :: p.1, p.2)

/-- The loop `while (!USART_WriteBuffer(AT91C_BASE_US0, usbBuffer, received));` run against
the scripted results. -/
def usartWriteRetry (size : Nat) (data : List Nat) :
    List Nat → Option (List Effect × List Nat)
  | [] => none
  | r :: rs =>
    if r ≠ 0 then some ([Effect.USART_WriteBuffer size data r], rs)
    else
      (usartWriteRetry size data rs).map
        fun p => (Effect.USART_WriteBuffer size data r :: p.1, p.2)

/-- Flush size `size = DATABUFFERSIZE - AT91C_BASE_US0->US_RCR;` with `size` an `unsigned char`: the
32-bit difference truncated to 8 bits. -/
def flushSize (b : Board) (rcr : Nat) : Nat :=
  ((((b.DATABUFFERSIZE : Int) - (rcr : Int)) % 4294967296) % 256).toNat

/-- The value `1 - usartCurrentBuffer`, stored back into an `unsigned char`. -/
def toggled (cur : Nat) : Nat := ((1 - (cur : Int)) % 256).toNat

/-! ## Handlers -/

/-- Hand-off of the current buffer, the statements `ISR_Timer0` (main.c, lines 502-511) and
`ISR_Usart0` (lines 595-606) have in common but for the size: send the buffer through the
USB until the write is accepted, restart the read on the buffer, switch
`usartCurrentBuffer`, restart the timer. -/
def handOff (b : Board) (size : Nat) (s : State) : Option State :=
  -- Send current buffer through the USB
  match writeRetry b s.usartCurrentBuffer size
      (slotData b s s.usartCurrentBuffer size) s.writeStatus with
  | none => none
  | some (calls, rest) =>
    let s2 := { s.emit calls with writeStatus := rest }
    -- Restart read on buffer
    let s3 := USART_ReadBuffer b s2 s2.usartCurrentBuffer b.DATABUFFERSIZE
    let s4 := ({ s3 with usartCurrentBuffer := toggled s3.usartCurrentBuffer }).emit
      [Effect.usartCurrentBuffer (toggled s3.usartCurrentBuffer)]
    -- Restart timer
    some (s4.emit [Effect.TC_CCR (b.AT91C_TC_CLKEN ||| b.AT91C_TC_SWTRG)])

/-- Handler `static void ISR_Timer0()` (main.c, lines 486-513).  The store `US_RCR = 0` ends
the current reception, so the hardware moves on to the pre-armed buffer. -/
def ISR_Timer0 (b : Board) (s : State) : Option State :=
  let status := s.TC_SR
  if status &&& b.AT91C_TC_CPCS ≠ 0 then
    -- Flush PDC buffer
    let size := flushSize b s.US_RCR
    if size = 0 then
      some (s.emit [Effect.TC_CCR (b.AT91C_TC_CLKEN ||| b.AT91C_TC_SWTRG)])
    else
      handOff b size ((pdcReload { s with US_RCR := 0 }).emit [Effect.US_RCR 0])
  else some s

/-- Callback `void USBDCallbacks_Resumed(void)` (main.c, lines 523-531). -/
def USBDCallbacks_Resumed (b : Board) (s : State) : State :=
  ({ s with USBState := STATE_RESUME }).emit
    [Effect.LED_Configure b.USBD_LEDPOWER, Effect.LED_Set b.USBD_LEDPOWER,
     Effect.LED_Configure b.USBD_LEDUSB, Effect.LED_Clear b.USBD_LEDUSB,
     Effect.USBState STATE_RESUME]

/-- Callback `void USBDCallbacks_Suspended(void)` (main.c, lines 536-542). -/
def USBDCallbacks_Suspended (b : Board) (s : State) : State :=
  ({ s with USBState := STATE_SUSPEND }).emit
    [Effect.LED_Clear b.USBD_LEDPOWER, Effect.LED_Clear b.USBD_LEDUSB,
     Effect.USBState STATE_SUSPEND]

/-- Callback `static void UsbDataReceived(void *unused, unsigned char status, unsigned int received,
unsigned int remaining)` (main.c, lines 548-572). -/
def UsbDataReceived (b : Board) (s : State) (status received remaining : Nat) :
    Option State :=
  -- Check that data has been received successfully
  if status = b.USBD_STATUS_SUCCESS then
    -- Send data through USART
    match usartWriteRetry received (s.usbBuffer.take received) s.usartWriteStatus with
    | none => none
    | some (calls, rest) =>
      let s1 := { s.emit calls with usartWriteStatus := rest }
      let s2 := ({ s1 with US_IMR := s1.US_IMR ||| b.AT91C_US_TXBUFE }).emit
        [Effect.US_IER b.AT91C_US_TXBUFE]
      -- Check if bytes have been discarded
      if received = b.DATABUFFERSIZE ∧ remaining > 0 then
        some (s2.emit [Effect.TRACE_WARNING (Warning.bytesDiscarded remaining)])
      else some s2
  else
    some (s.emit [Effect.TRACE_WARNING Warning.transferError])

/-- The block `if ((status & AT91C_US_ENDRX) != 0) { ... }` of `ISR_Usart0`
(main.c, lines 589-607). -/
def ISR_Usart0_endrx (b : Board) (status : Nat) (s : State) : Option State :=
  if status &&& b.AT91C_US_ENDRX ≠ 0 then
    -- Disable timer
    handOff b b.DATABUFFERSIZE (s.emit [Effect.TC_CCR b.AT91C_TC_CLKDIS])
  else some s

/-- The block `if ((status & AT91C_US_TXBUFE) != 0) { ... }` of `ISR_Usart0`
(main.c, lines 609-618). -/
def ISR_Usart0_txbufe (b : Board) (status : Nat) (s : State) : State :=
  if status &&& b.AT91C_US_TXBUFE ≠ 0 then
    -- Restart USB read
    let s1 := s.emit [Effect.CDCDSerialDriver_Read b.DATABUFFERSIZE]
    ({ s1 with US_IMR := clearBits s1.US_IMR b.AT91C_US_TXBUFE }).emit
      [Effect.US_IDR b.AT91C_US_TXBUFE]
  else s

/-- The error part of `ISR_Usart0` (main.c, lines 620-637); `serialState` is an
`unsigned short`. -/
def ISR_Usart0_errors (b : Board) (status : Nat) (s : State) : State :=
  let serialState0 := s.serialState % 65536
  -- Overrun
  let (serialState1, s1) :=
    if status &&& b.AT91C_US_OVER ≠ 0 then
      ((serialState0 ||| b.CDCDSerialDriver_STATE_OVERRUN) % 65536,
        s.emit [Effect.TRACE_WARNING Warning.overrun])
    else (serialState0, s)
  -- Framing error
  let (serialState2, s2) :=
    if status &&& b.AT91C_US_FRAME ≠ 0 then
      ((serialState1 ||| b.CDCDSerialDriver_STATE_FRAMING) % 65536,
        s1.emit [Effect.TRACE_WARNING Warning.framingError])
    else (serialState1, s1)
  ({ s2 with serialState := serialState2 }).emit
    [Effect.CDCDSerialDriver_SetSerialState serialState2]

/-- Handler `static void ISR_Usart0()` (main.c, lines 577-638). -/
def ISR_Usart0 (b : Board) (s : State) : Option State :=
  let status := s.US_CSR
  -- If USB device is not configured, do nothing
  if s.deviceState ≠ b.USBD_STATE_CONFIGURED then
    some (({ s with US_IMR := clearBits s.US_IMR 0xFFFFFFFF }).emit
      [Effect.US_IDR 0xFFFFFFFF])
  else
    match ISR_Usart0_endrx b status s with
    | none => none
    | some s1 => some (ISR_Usart0_errors b status (ISR_Usart0_txbufe b status s1))

/-- The wait `while (USBD_GetState() < USBD_STATE_CONFIGURED);` of `main`: the first polled
state that is configured and the polls left, or `none` when none ever is. -/
def waitConfigured (b : Board) : List Nat → Option (Nat × List Nat)
  | [] => none
  | d :: ds => if d < b.USBD_STATE_CONFIGURED then waitConfigured b ds else some (d, ds)

/-- The start of reception in `main` once the device is configured (main.c, lines 700-713). -/
def main_startReceiving (b : Board) (s : State) : State :=
  -- Start receiving data on the USART
  let s1 := ({ s with usartCurrentBuffer := 0 }).emit [Effect.usartCurrentBuffer 0]
  let s2 := USART_ReadBuffer b s1 0 b.DATABUFFERSIZE
  let s3 := USART_ReadBuffer b s2 1 b.DATABUFFERSIZE
  let ier := b.AT91C_US_ENDRX ||| b.AT91C_US_FRAME ||| b.AT91C_US_OVER
  let s4 := ({ s3 with US_IMR := s3.US_IMR ||| ier }).emit [Effect.US_IER ier]
  let s5 := s4.emit [Effect.TC_CCR (b.AT91C_TC_CLKEN ||| b.AT91C_TC_SWTRG)]
  -- Start receiving data on the USB
  s5.emit [Effect.CDCDSerialDriver_Read b.DATABUFFERSIZE]

/-- The power part of one iteration of the driver loop of `main` (main.c, lines 715-725). -/
def main_power (s : State) : State :=
  let s1 :=
    if s.USBState = STATE_SUSPEND then
      ({ s with USBState := STATE_IDLE }).emit [Effect.LowPowerMode, Effect.USBState STATE_IDLE]
    else s
  if s1.USBState = STATE_RESUME then
    ({ s1 with USBState := STATE_IDLE }).emit
      [Effect.NormalPowerMode, Effect.USBState STATE_IDLE]
  else s1

/-- One iteration of the driver loop `while (1) { ... }` of `main` (main.c, lines 691-726),
run without an interrupt in between. -/
def main_loop (b : Board) (s : State) : Option State :=
  -- Device is not configured
  if s.deviceState < b.USBD_STATE_CONFIGURED then
    -- Connect pull-up, wait for configuration
    let s1 := s.emit [Effect.USBD_Connect]
    match waitConfigured b s1.devicePolls with
    | none => none
    | some (d, polls) =>
      some (main_power (main_startReceiving b { s1 with deviceState := d, devicePolls := polls }))
  else some (main_power s)

/-! ## The bridge as a system: bytes arriving and interrupts -/

/-- The UART receives `bytes`, one after the other. -/
def pdcReceiveAll (b : Board) (s : State) (bytes : List Nat) : State :=
  bytes.foldl (pdcReceive b) s

/-- Handler `ISR_Timer0` (main.c, lines 486-513) with the UART receiving while it executes:
the receive DMA channel stores the bytes `mid` after the read of `US_RCR` (line 494) and
before the store `US_RCR = 0` (line 500), and the bytes `during` after that store and before
the re-arm `USART_ReadBuffer` (line 507), that is while the handler is in the retry loop
(line 503).  On the path that returns at line 498 all of them arrive before the return.
With no byte arriving this is `ISR_Timer0`. -/
def ISR_Timer0_rx (b : Board) (s : State) (mid during : List Nat) : Option State :=
  let status := s.TC_SR
  if status &&& b.AT91C_TC_CPCS ≠ 0 then
    -- Flush PDC buffer
    let size := flushSize b s.US_RCR
    let s1 := pdcReceiveAll b s mid
    if size = 0 then
      some ((pdcReceiveAll b s1 during).emit
        [Effect.TC_CCR (b.AT91C_TC_CLKEN ||| b.AT91C_TC_SWTRG)])
    else
      let s2 := (pdcReload { s1 with US_RCR := 0 }).emit [Effect.US_RCR 0]
      handOff b size (pdcReceiveAll b s2 during)
  else some (pdcReceiveAll b (pdcReceiveAll b s mid) during)

/-- Handler `ISR_Usart0` (main.c, lines 577-638) with the UART receiving while it executes:
the receive DMA channel stores the bytes `during` after the read of `US_CSR` (line 579) and
before the re-arm `USART_ReadBuffer` (line 600), that is while the handler is in the retry
loop (line 596).  With no byte arriving this is `ISR_Usart0`. -/
def ISR_Usart0_rx (b : Board) (s : State) (during : List Nat) : Option State :=
  let status := s.US_CSR
  let s0 := pdcReceiveAll b s during
  -- If USB device is not configured, do nothing
  if s0.deviceState ≠ b.USBD_STATE_CONFIGURED then
    some (({ s0 with US_IMR := clearBits s0.US_IMR 0xFFFFFFFF }).emit
      [Effect.US_IDR 0xFFFFFFFF])
  else
    match ISR_Usart0_endrx b status s0 with
    | none => none
    | some s1 => some (ISR_Usart0_errors b status (ISR_Usart0_txbufe b status s1))

/-- What can happen once reception has been started: the UART receives a byte between two
handler runs, the USART0 interrupt handler runs, or timer 0 reaches its compare value and
its handler runs.  The two handlers have the same interrupt priority and do not interrupt
each other, but the UART goes on receiving while one executes: `mid` and `during` are the
bytes that arrive inside the handler, at the places `ISR_Timer0_rx` and `ISR_Usart0_rx`
name.  A byte that arrives after the handler has re-armed the reception is a `rx` event
after the handler. -/
inductive Event where
  | rx (byte : Nat)
  | usart (during : List Nat)
  | timer (mid during : List Nat)
  deriving DecidableEq, Repr

/-- One event.  A timer event raises the compare flag in `TC_SR` and runs `ISR_Timer0`; a
USART event runs `ISR_Usart0` on the status the hardware holds; both with the bytes of the
event arriving meanwhile. -/
def step (b : Board) (s : State) : Event → Option State
  | Event.rx byte => some (pdcReceive b s byte)
  | Event.usart during => ISR_Usart0_rx b s during
  | Event.timer mid during =>
    ISR_Timer0_rx b { s with TC_SR := s.TC_SR ||| b.AT91C_TC_CPCS } mid during

/-- A sequence of events; `none` when a handler never returns. -/
def run (b : Board) : State → List Event → Option State
  | s, [] => some s
  | s, e :: es => (step b s e).bind fun s1 => run b s1 es

/-- The UART input stream: the bytes received between and inside the handler runs, in
order. -/
def received : List Event → List Nat
  | [] => []
  | Event.rx byte :: es => byte :: received es
  | Event.usart during :: es => during ++ received es
  | Event.timer mid during :: es => mid ++ (during ++ received es)

/-- The payloads of the accepted `CDCDSerialDriver_Write` calls of a trace, concatenated in
call order. -/
def delivered (b : Board) : List Effect → List Nat
  | [] => []
  | Effect.CDCDSerialDriver_Write _ _ data status :: es =>
    if status = b.USBD_STATUS_SUCCESS then data ++ delivered b es else delivered b es
  | _ :: es => delivered b es

/-- The slots of the accepted `CDCDSerialDriver_Write` calls of a trace, in call order. -/
def handedSlots (b : Board) : List Effect → List Nat
  | [] => []
  | Effect.CDCDSerialDriver_Write slot _ _ status :: es =>
    if status = b.USBD_STATUS_SUCCESS then slot :: handedSlots b es else handedSlots b es
  | _ :: es => handedSlots b es

/-- The receive-complete flag is up: a slot has been filled and `ISR_Usart0` has not yet
handed it off. -/
def completionPending (b : Board) (s : State) : Bool :=
  s.US_CSR &&& b.AT91C_US_ENDRX != 0

/-- The received bytes not yet handed off.  With no completion pending, what the hardware
has stored so far in the slot `usartCurrentBuffer` names.  With a completion pending, that
whole slot followed by what the hardware has stored so far in the other slot. -/
def pending (b : Board) (s : State) : List Nat :=
  if completionPending b s then
    slotData b s s.usartCurrentBuffer b.DATABUFFERSIZE ++
      slotData b s (1 - s.usartCurrentBuffer) (b.DATABUFFERSIZE - s.US_RCR)
  else slotData b s s.usartCurrentBuffer (b.DATABUFFERSIZE - s.US_RCR)

/-- One more byte would leave no reception armed: the buffer the hardware fills has room for
one byte at most and no buffer is pre-armed. -/
def lastByte (s : State) : Bool := decide (s.US_RCR ≤ 1) && decide (s.US_RNCR = 0)

/-- The bytes arrive without overrunning the armed buffers: each of them leaves a reception
armed. -/
def noOverrun (b : Board) : State → List Nat → Bool
  | _, [] => true
  | s, x :: xs => !lastByte s && noOverrun b (pdcReceive b s x) xs

/-- An event that the hand-offs keep up with.  Bytes do not overrun the armed buffers,
between the handlers or inside one.  A timer fire that finds bytes to flush (non-zero flush
size) finds no completion pending, and no byte arrives between its read of `US_RCR` and its
store `US_RCR = 0`. -/
def inTimeEvent (b : Board) (s : State) : Event → Bool
  | Event.rx byte => noOverrun b s [byte]
  | Event.usart during => noOverrun b s during
  | Event.timer mid during =>
    if flushSize b s.US_RCR = 0 then noOverrun b s (mid ++ during)
    else !completionPending b s && mid.isEmpty &&
      noOverrun b (pdcReload { s with US_RCR := 0 }) during

/-- A run that the hand-offs keep up with: every event is in time in the state it finds. -/
def inTime (b : Board) : State → List Event → Bool
  | _, [] => true
  | s, e :: es =>
    inTimeEvent b s e &&
      match step b s e with
      | none => true
      | some s1 => inTime b s1 es

/-- The hardware is receiving into `usartBuffers[slot]`: a reception is armed and the
receive pointer lies inside the slot. -/
def receivingInto (b : Board) (s : State) (slot : Nat) : Bool :=
  s.US_RCR != 0 && decide (slotOffset b slot ≤ s.US_RPR) &&
    decide (s.US_RPR < slotOffset b (slot + 1))

/-- States the program can be in: `main` starts with `usartCurrentBuffer` at its
initialiser 0; the handlers, the callbacks and the driver loop run to completion one after
the other; between two of them the hardware and the USB stack may change anything but the
program's own variable `usartCurrentBuffer`. -/
inductive Reachable (b : Board) : State → Prop where
  | start (s : State) : s.usartCurrentBuffer = 0 → Reachable b s
  | environment (s s' : State) :
      Reachable b s → s'.usartCurrentBuffer = s.usartCurrentBuffer → Reachable b s'
  | timer (s s' : State) : Reachable b s → ISR_Timer0 b s = some s' → Reachable b s'
  | usart (s s' : State) : Reachable b s → ISR_Usart0 b s = some s' → Reachable b s'
  | usbData (s s' : State) (status received remaining : Nat) :
      Reachable b s → UsbDataReceived b s status received remaining = some s' →
      Reachable b s'
  | suspended (s : State) : Reachable b s → Reachable b (USBDCallbacks_Suspended b s)
  | resumed (s : State) : Reachable b s → Reachable b (USBDCallbacks_Resumed b s)
  | driverLoop (s s' : State) : Reachable b s → main_loop b s = some s' → Reachable b s'

/-! ## Power requests -/

/-- The two notifications of the USB stack that record a power request. -/
inductive Notification where
  | suspended
  | resumed
  deriving DecidableEq, Repr

/-- The callback a notification runs. -/
def deliver (b : Board) (s : State) : Notification → State
  | Notification.suspended => USBDCallbacks_Suspended b s
  | Notification.resumed => USBDCallbacks_Resumed b s

/-- A sequence of notifications delivered one after the other. -/
def notify (b : Board) (s : State) (ns : List Notification) : State :=
  ns.foldl (deliver b) s

/-- The power part of one iteration of the driver loop of `main` (main.c, lines 715-725),
with the interrupt handlers `irq` running while `LowPowerMode()` executes: on this chip
`LowPowerMode` ends by stopping the processor clock, which an interrupt restarts. -/
def main_power_during (irq : State → State) (s : State) : State :=
  let s1 :=
    if s.USBState = STATE_SUSPEND then
      let s0 := irq (s.emit [Effect.LowPowerMode])
      ({ s0 with USBState := STATE_IDLE }).emit [Effect.USBState STATE_IDLE]
    else s
  if s1.USBState = STATE_RESUME then
    ({ s1 with USBState := STATE_IDLE }).emit
      [Effect.NormalPowerMode, Effect.USBState STATE_IDLE]
  else s1

/-! ## Invariants of the reception -/

/-- Nothing the reception depends on differs between `s` and `s'`. -/
def SameReception (s s' : State) : Prop :=
  s'.usartCurrentBuffer = s.usartCurrentBuffer ∧ s'.usartBuffers = s.usartBuffers ∧
  s'.deviceState = s.deviceState ∧ s'.US_RPR = s.US_RPR ∧ s'.US_RCR = s.US_RCR ∧
  s'.US_RNPR = s.US_RNPR ∧ s'.US_RNCR = s.US_RNCR ∧ s'.US_CSR = s.US_CSR

/-- The hardware fills the slot `usartCurrentBuffer` names, the other slot is pre-armed and
no completion is pending. -/
def Tracking (b : Board) (s : State) : Prop :=
  s.US_CSR &&& b.AT91C_US_ENDRX = 0 ∧ 0 < s.US_RCR ∧ s.US_RCR ≤ b.DATABUFFERSIZE ∧
  s.US_RPR = slotOffset b s.usartCurrentBuffer + (b.DATABUFFERSIZE - s.US_RCR) ∧
  s.US_RNCR = b.DATABUFFERSIZE ∧ s.US_RNPR = slotOffset b (1 - s.usartCurrentBuffer)

/-- The hardware fills the other slot and nothing is pre-armed. -/
def Ahead (b : Board) (s : State) : Prop :=
  0 < s.US_RCR ∧ s.US_RCR ≤ b.DATABUFFERSIZE ∧
  s.US_RPR = slotOffset b (1 - s.usartCurrentBuffer) + (b.DATABUFFERSIZE - s.US_RCR) ∧
  s.US_RNCR = 0

/-- No reception is armed. -/
def Idle (s : State) : Prop := s.US_RCR = 0 ∧ s.US_RNCR = 0

/-- Invariant of every run: the index is 0 or 1 and the hardware is in one of the three
situations above. -/
def PdcInv (b : Board) (s : State) : Prop :=
  s.usartCurrentBuffer ≤ 1 ∧ (Tracking b s ∨ Ahead b s ∨ Idle s)

/-- Invariant of the runs the hand-offs keep up with: the link is configured, the index is 0
or 1, and the payloads handed off since the trace `t0`, followed by the bytes waiting, are
the bytes `input` received so far.  Either the hardware fills the current slot and what
waits is what it has stored there; or the current slot is full, its completion is pending,
the hardware fills the other slot, and what waits is the current slot followed by what is
stored in the other one. -/
def StreamInv (b : Board) (t0 : List Effect) (input : List Nat) (s : State) : Prop :=
  s.deviceState = b.USBD_STATE_CONFIGURED ∧
  s.usartBuffers.length = 2 * b.DATABUFFERSIZE ∧
  s.usartCurrentBuffer ≤ 1 ∧
  ∃ new, s.trace = t0 ++ new ∧
    ((Tracking b s ∧
        delivered b new ++
          slotData b s s.usartCurrentBuffer (b.DATABUFFERSIZE - s.US_RCR) = input) ∨
      (s.US_CSR &&& b.AT91C_US_ENDRX ≠ 0 ∧ Ahead b s ∧
        delivered b new ++ (slotData b s s.usartCurrentBuffer b.DATABUFFERSIZE ++
          slotData b s (1 - s.usartCurrentBuffer) (b.DATABUFFERSIZE - s.US_RCR)) = input))

/-- What the peripheral-clock functions of `pmc.c` do to the outside: a store to the
peripheral clock enable register, a store to the disable register, a trace message. -/
inductive PmcEffect where
  | PMC_PCER (v : Nat)
  | PMC_PCDR (v : Nat)
  | TRACE_INFO
  deriving DecidableEq, Repr

/-- The controller as the functions see it: the peripheral clock status register and the
stores and messages made so far, in program order. -/
structure Pmc where
  PMC_PCSR : Nat
  trace : List PmcEffect
  deriving DecidableEq, Repr

/-- The controller's reaction to a store: a store to `PMC_PCER` sets the status bits
written as 1, a store to `PMC_PCDR` clears them; a message leaves the register alone. -/
def Pmc.store (p : Pmc) (e : PmcEffect) : Pmc :=
  match e with
  | PmcEffect.PMC_PCER v => { PMC_PCSR := p.PMC_PCSR ||| v, trace := p.trace ++ [e] }
  | PmcEffect.PMC_PCDR v => { PMC_PCSR := clearBits p.PMC_PCSR v, trace := p.trace ++ [e] }
  | PmcEffect.TRACE_INFO => { p with trace := p.trace ++ [e] }

/-- The 32-bit value of `1U << id` (and the bit pattern of `1 << id`). -/
def idBit (id : Nat) : Nat := (1 <<< id) % 4294967296

/-- `PMC_EnablePeripheral(id)`.  `SANITY_CHECK(id < 32)` is a guard: the call has no result
when it fails. -/
def PMC_EnablePeripheral (p : Pmc) (id : Nat) : Option Pmc :=
  if id < 32 then
    if p.PMC_PCSR &&& idBit id = idBit id then
      some (p.store PmcEffect.TRACE_INFO)
    else
      some (p.store (PmcEffect.PMC_PCER (idBit id)))
  else none

/-- `PMC_DisablePeripheral(id)`. -/
def PMC_DisablePeripheral (p : Pmc) (id : Nat) : Option Pmc :=
  if id < 32 then
    if p.PMC_PCSR &&& idBit id ≠ idBit id then
      some (p.store PmcEffect.TRACE_INFO)
    else
      some (p.store (PmcEffect.PMC_PCDR (idBit id)))
  else none

/-- `PMC_IsPeriphEnabled(id)`: the status register masked with the peripheral's bit. -/
def PMC_IsPeriphEnabled (p : Pmc) (id : Nat) : Nat := p.PMC_PCSR &&& idBit id

/-! ## Ownership of usbBuffer -/

/-- A call that arms a USB receive on `usbBuffer`: `CDCDSerialDriver_Read(usbBuffer, ...)`. -/
def Effect.armsUsbReceive : Effect → Bool
  | Effect.CDCDSerialDriver_Read _ => true
  | _ => false

/-- A call that starts a UART transmission of `usbBuffer`: a `USART_WriteBuffer(AT91C_BASE_US0,
usbBuffer, ...)` that returns non-zero, which is when the loop around it ends. -/
def Effect.startsUartTransmit : Effect → Bool
  | Effect.USART_WriteBuffer _ _ result => decide (result ≠ 0)
  | _ => false

/-- Modelled from the spec: the two holders of `usbBuffer`, next to the state of the program.
The USB driver behind `CDCDSerialDriver_Read` and the transmit DMA channel behind
`USART_WriteBuffer` (usart.c) are not among the sources.  `usbArmed`: a USB receive armed on
`usbBuffer` has not completed, the buffer is "owned by the USB receive path".  `uartSending`:
a transmission of `usbBuffer` has been accepted and has not finished, the buffer is "handed
to the UART transmit path until transmission completes". -/
structure Bridge where
  core : State
  usbArmed : Bool
  uartSending : Bool
  deriving DecidableEq, Repr

/-- Modelled from the spec: the ownership after the program has run from `l.core` to `s`.
A `CDCDSerialDriver_Read` call arms a receive (with one armed already it stays armed); an
accepted `USART_WriteBuffer` starts a transmission. -/
def Bridge.after (l : Bridge) (s : State) : Bridge :=
  let calls := s.trace.drop l.core.trace.length
  { core := s
    usbArmed := l.usbArmed || calls.any Effect.armsUsbReceive
    uartSending := l.uartSending || calls.any Effect.startsUartTransmit }

/-- Modelled from the spec: the USART status as the hardware presents it, with the
transmit-buffer-empty flag (TXBUFE) set exactly when no transmission is in progress. -/
def Bridge.status (b : Board) (l : Bridge) : State :=
  { l.core with
    US_CSR := if l.uartSending then clearBits l.core.US_CSR b.AT91C_US_TXBUFE
              else l.core.US_CSR ||| b.AT91C_US_TXBUFE }

/-- What can happen to the bridge: an event of the reception (a byte arrives, `ISR_Usart0`
or `ISR_Timer0` runs), the armed USB receive completes with `data` in `usbBuffer`, the UART
transmission finishes, the USB device state changes, a suspend or resume notification, an
iteration of the driver loop. -/
inductive BridgeEvent where
  | irq (e : Event)
  | usbReceived (status : Nat) (data : List Nat) (remaining : Nat)
  | uartSent
  | linkState (d : Nat)
  | notified (n : Notification)
  | driverLoop
  deriving DecidableEq, Repr

/-- Modelled from the spec: one event of the bridge; `none` when the event cannot happen in
this state or the program never returns from it.  The USB driver invokes the callback
`UsbDataReceived` when the armed receive completes, and only then. -/
def Bridge.step (b : Board) (l : Bridge) : BridgeEvent → Option Bridge
  | BridgeEvent.irq e => (CdcSerial.step b (l.status b) e).map l.after
  | BridgeEvent.usbReceived status data remaining =>
    if l.usbArmed then
      (UsbDataReceived b
        { l.core with usbBuffer := data ++ l.core.usbBuffer.drop data.length }
        status data.length remaining).map ({ l with usbArmed := false }).after
    else none
  | BridgeEvent.uartSent =>
    if l.uartSending then some { l with uartSending := false } else none
  | BridgeEvent.linkState d => some { l with core := { l.core with deviceState := d } }
  | BridgeEvent.notified n => some { l with core := deliver b l.core n }
  | BridgeEvent.driverLoop => (main_loop b l.core).map l.after

/-- A sequence of events of the bridge. -/
def Bridge.run (b : Board) : Bridge → List BridgeEvent → Option Bridge
  | l, [] => some l
  | l, e :: es => (l.step b e).bind fun l1 => Bridge.run b l1 es

/-- The buffer `usbBuffer` has at most one holder. -/
def Bridge.singleOwner (l : Bridge) : Bool := !(l.usbArmed && l.uartSending)

/-- The driver loop does not run its setup during a transmission: at every `driverLoop`
event of the run the device is configured already or no transmission is in progress. -/
def setupWhileIdle (b : Board) : Bridge → List BridgeEvent → Bool
  | _, [] => true
  | l, e :: es =>
    (match e with
      | BridgeEvent.driverLoop =>
        decide (¬ l.core.deviceState < b.USBD_STATE_CONFIGURED) || !l.uartSending
      | _ => true) &&
    match l.step b e with
    | some l1 => setupWhileIdle b l1 es
    | none => true

/-! ## States used in the scenarios -/

/-- The state at the start of `main`: the statics hold their initialisers
(`usartCurrentBuffer = 0`, `USBState = STATE_IDLE`, zeroed buffers), the registers their
reset value 0, the device is not attached, nothing is scripted and nothing has happened. -/
def boot (b : Board) : State :=
  { usartCurrentBuffer := 0
    USBState := STATE_IDLE
    usartBuffers := List.replicate (2 * b.DATABUFFERSIZE) 0
    usbBuffer := List.replicate b.DATABUFFERSIZE 0
    TC_SR := 0
    US_CSR := 0
    US_IMR := 0
    US_RPR := 0
    US_RCR := 0
    US_RNPR := 0
    US_RNCR := 0
    deviceState := 0
    serialState := 0
    devicePolls := []
    writeStatus := []
    usartWriteStatus := []
    trace := [] }

/-- The device is configured and reception has been started; the USB driver will accept the
next `n` writes. -/
def started (b : Board) (n : Nat) : State :=
  main_startReceiving b
    { boot b with deviceState := b.USBD_STATE_CONFIGURED
                  writeStatus := List.replicate n b.USBD_STATUS_SUCCESS }

/-- Scenario: after the start of reception the UART has delivered the 37 bytes 1, ..., 37
and then pauses; the timer reaches its compare value. -/
def pause37 : State :=
  { (List.range' 1 37).foldl (pdcReceive at91sam7s_ek) (started at91sam7s_ek 1) with
    TC_SR := at91sam7s_ek.AT91C_TC_CPCS }

/-- Scenario: after the start of reception the UART has delivered the 64 bytes 1, ..., 64
without pause; the write of the full slot is refused twice (status 1) and then accepted. -/
def full64 : State :=
  { (List.range' 1 64).foldl (pdcReceive at91sam7s_ek) (started at91sam7s_ek 0) with
    writeStatus := [1, 1, 0] }

/-- Scenario: the UART delivers the 65 bytes 1, ..., 65 before the completion of slot 0 is
serviced; the timer handler runs first, then the USART handler; one more byte arrives and
both handlers run again. -/
def lateService : List Event :=
  (List.range' 1 65).map Event.rx ++
    [Event.timer [] [], Event.usart [], Event.rx 66, Event.timer [] [], Event.usart []]

/-- Scenario: the link was configured and reception started, then the bus was suspended
(`USBD_GetState()` returns `USBD_STATE_SUSPENDED`, 0); the UART has delivered 37 bytes and
the timer reaches its compare value. -/
def suspended37 : State := { pause37 with deviceState := 0 }

/-- The bridge at the start of `main`, nobody holding `usbBuffer`; the device will be seen
configured by the next two waits and the UART accepts the next two buffers. -/
def bootBridge : Bridge :=
  { core := { boot at91sam7s_ek with devicePolls := [5, 5], usartWriteStatus := [1, 1] }
    usbArmed := false
    uartSending := false }

/-- Scenario: the device is configured and two bytes arrive from the host; while the UART
still sends them the bus is suspended and resumed, and the driver loop runs its setup
again. -/
def setupDuringSend : List BridgeEvent :=
  [BridgeEvent.driverLoop, BridgeEvent.usbReceived 0 [104, 105] 0, BridgeEvent.linkState 0,
   BridgeEvent.notified Notification.suspended, BridgeEvent.notified Notification.resumed,
   BridgeEvent.driverLoop]

/-- Scenario: the device is configured, two bytes arrive from the host, the UART sends them,
and the transmit-buffer-empty interrupt arms the next USB receive. -/
def pingPong : List BridgeEvent :=
  [BridgeEvent.driverLoop, BridgeEvent.usbReceived 0 [104, 105] 0,
   BridgeEvent.irq (Event.usart []), BridgeEvent.uartSent, BridgeEvent.irq (Event.usart [])]

/-- Scenario: after the start of reception one byte arrives and the timer flushes it. -/
def afterFlush : State :=
  (run at91sam7s_ek (started at91sam7s_ek 2) [Event.rx 1, Event.timer [] []]).getD
    (boot at91sam7s_ek)

/-- Scenario: the driver loop runs its setup a second time, in the state `afterFlush` (the
link has left the configured state and come back), with both receptions still armed. -/
def secondSetup : State := main_startReceiving at91sam7s_ek afterFlush

/-- Scenario: one byte waits when the timer fires, and a second byte arrives between the
handler's read of `US_RCR` and its store `US_RCR = 0`; two more bytes and a second flush
follow. -/
def raceRun : List Event :=
  [Event.rx 1, Event.timer [2] [], Event.rx 3, Event.rx 4, Event.timer [] []]

/-- Scenario: one byte waits when the timer fires, and the 64 bytes 2, ..., 65 arrive while
the handler is in its retry loop, filling the only buffer armed; one more byte and a second
flush follow. -/
def overrunRun : List Event :=
  [Event.rx 1, Event.timer [] (List.range' 2 64), Event.rx 66, Event.timer [] []]

/-! ## Lemmas -/

theorem flushSize_eq (b : Board) (r : Nat) (h1 : r ≤ b.DATABUFFERSIZE)
    (h2 : b.DATABUFFERSIZE - r < 256) : flushSize b r = b.DATABUFFERSIZE - r := by
  unfold flushSize
  omega

theorem toggled_eq (c : Nat) (h : c ≤ 1) : toggled c = 1 - c := by
  unfold toggled
  omega

theorem writeRetry_accept (b : Board) (slot size : Nat) (data : List Nat) (busy rest : List Nat)
    (hbusy : ∀ r ∈ busy, r ≠ b.USBD_STATUS_SUCCESS) :
    writeRetry b slot size data (busy ++ b.USBD_STATUS_SUCCESS :: rest) =
      some (busy.map (Effect.CDCDSerialDriver_Write slot size data) ++
        [Effect.CDCDSerialDriver_Write slot size data b.USBD_STATUS_SUCCESS], rest) := by
  induction busy with
  | nil => simp [writeRetry]
  | cons r rs ih =>
    have hr : r ≠ b.USBD_STATUS_SUCCESS := hbusy r (by simp)
    have ih1 := ih (fun x hx => hbusy x (by simp [hx]))
    simp [writeRetry, hr, ih1]

theorem writeRetry_none (b : Board) (slot size : Nat) (data : List Nat) (replies : List Nat)
    (h : ∀ r ∈ replies, r ≠ b.USBD_STATUS_SUCCESS) :
    writeRetry b slot size data replies = none := by
  induction replies with
  | nil => rfl
  | cons r rs ih =>
    have hr : r ≠ b.USBD_STATUS_SUCCESS := h r (by simp)
    simp [writeRetry, hr, ih (fun x hx => h x (by simp [hx]))]

/-- What `USART_ReadBuffer` leaves untouched, and the call it logs. -/
theorem USART_ReadBuffer_frame (b : Board) (s : State) (slot size : Nat) :
    (USART_ReadBuffer b s slot size).trace =
        s.trace ++ [Effect.USART_ReadBuffer slot size] ∧
      (USART_ReadBuffer b s slot size).usartCurrentBuffer = s.usartCurrentBuffer ∧
      (USART_ReadBuffer b s slot size).writeStatus = s.writeStatus ∧
      (USART_ReadBuffer b s slot size).usartBuffers = s.usartBuffers ∧
      (USART_ReadBuffer b s slot size).serialState = s.serialState ∧
      (USART_ReadBuffer b s slot size).deviceState = s.deviceState ∧
      (USART_ReadBuffer b s slot size).US_IMR = s.US_IMR ∧
      (USART_ReadBuffer b s slot size).USBState = s.USBState := by
  unfold USART_ReadBuffer State.emit
  by_cases h1 : s.US_RNCR = 0 <;> by_cases h2 : s.US_RCR = 0 <;> simp [h1, h2]

theorem handOff_accept (b : Board) (size : Nat) (s : State) (busy rest : List Nat)
    (hbusy : ∀ r ∈ busy, r ≠ b.USBD_STATUS_SUCCESS)
    (hw : s.writeStatus = busy ++ b.USBD_STATUS_SUCCESS :: rest) :
    ∃ s', handOff b size s = some s' ∧
      s'.trace = s.trace ++
        busy.map (Effect.CDCDSerialDriver_Write s.usartCurrentBuffer size
          (slotData b s s.usartCurrentBuffer size)) ++
        [Effect.CDCDSerialDriver_Write s.usartCurrentBuffer size
            (slotData b s s.usartCurrentBuffer size) b.USBD_STATUS_SUCCESS,
          Effect.USART_ReadBuffer s.usartCurrentBuffer b.DATABUFFERSIZE,
          Effect.usartCurrentBuffer (toggled s.usartCurrentBuffer),
          Effect.TC_CCR (b.AT91C_TC_CLKEN ||| b.AT91C_TC_SWTRG)] ∧
      s'.usartCurrentBuffer = toggled s.usartCurrentBuffer ∧
      s'.writeStatus = rest ∧
      s'.usartBuffers = s.usartBuffers ∧
      s'.serialState = s.serialState ∧
      s'.deviceState = s.deviceState ∧
      s'.US_IMR = s.US_IMR ∧
      s'.USBState = s.USBState := by
  have hr := writeRetry_accept b s.usartCurrentBuffer size
    (slotData b s s.usartCurrentBuffer size) busy rest hbusy
  unfold handOff
  rw [hw, hr]
  refine ⟨_, rfl, ?_⟩
  have hf := USART_ReadBuffer_frame b
    ({ s.emit (busy.map (Effect.CDCDSerialDriver_Write s.usartCurrentBuffer size
          (slotData b s s.usartCurrentBuffer size)) ++
        [Effect.CDCDSerialDriver_Write s.usartCurrentBuffer size
            (slotData b s s.usartCurrentBuffer size) b.USBD_STATUS_SUCCESS]) with
        writeStatus := rest }) s.usartCurrentBuffer b.DATABUFFERSIZE
  obtain ⟨h1, h2, h3, h4, h5, h6, h7, h8⟩ := hf
  simp only [State.emit] at *
  simp [h1, h2, h3, h4, h5, h6, h7, h8]

theorem usart_tail (b : Board) (status : Nat) (s1 : State) :
    (ISR_Usart0_errors b status (ISR_Usart0_txbufe b status s1)).trace =
        s1.trace ++
          ((if status &&& b.AT91C_US_TXBUFE ≠ 0 then
            [Effect.CDCDSerialDriver_Read b.DATABUFFERSIZE, Effect.US_IDR b.AT91C_US_TXBUFE]
           else []) ++
          (if status &&& b.AT91C_US_OVER ≠ 0 then [Effect.TRACE_WARNING Warning.overrun]
           else []) ++
          (if status &&& b.AT91C_US_FRAME ≠ 0 then [Effect.TRACE_WARNING Warning.framingError]
           else []) ++
          [Effect.CDCDSerialDriver_SetSerialState
            (ISR_Usart0_errors b status (ISR_Usart0_txbufe b status s1)).serialState]) ∧
      (ISR_Usart0_errors b status (ISR_Usart0_txbufe b status s1)).serialState =
        (if status &&& b.AT91C_US_FRAME ≠ 0 then
          ((if status &&& b.AT91C_US_OVER ≠ 0 then
              (s1.serialState % 65536 ||| b.CDCDSerialDriver_STATE_OVERRUN) % 65536
            else s1.serialState % 65536) ||| b.CDCDSerialDriver_STATE_FRAMING) % 65536
         else
          (if status &&& b.AT91C_US_OVER ≠ 0 then
              (s1.serialState % 65536 ||| b.CDCDSerialDriver_STATE_OVERRUN) % 65536
            else s1.serialState % 65536)) ∧
      (ISR_Usart0_errors b status (ISR_Usart0_txbufe b status s1)).usartCurrentBuffer =
        s1.usartCurrentBuffer ∧
      (ISR_Usart0_errors b status (ISR_Usart0_txbufe b status s1)).US_IMR =
        (if status &&& b.AT91C_US_TXBUFE ≠ 0 then clearBits s1.US_IMR b.AT91C_US_TXBUFE
         else s1.US_IMR) ∧
      (ISR_Usart0_errors b status (ISR_Usart0_txbufe b status s1)).USBState = s1.USBState := by
  unfold ISR_Usart0_errors ISR_Usart0_txbufe State.emit
  by_cases h1 : status &&& b.AT91C_US_TXBUFE = 0 <;>
    by_cases h2 : status &&& b.AT91C_US_OVER = 0 <;>
    by_cases h3 : status &&& b.AT91C_US_FRAME = 0 <;>
    simp [h1, h2, h3]

/-- The receive-complete path of `ISR_Usart0`, action by action. -/
theorem ISR_Usart0_handOff (b : Board) (s : State) (busy rest : List Nat)
    (hcfg : s.deviceState = b.USBD_STATE_CONFIGURED)
    (hflag : s.US_CSR &&& b.AT91C_US_ENDRX ≠ 0)
    (hbusy : ∀ r ∈ busy, r ≠ b.USBD_STATUS_SUCCESS)
    (hw : s.writeStatus = busy ++ b.USBD_STATUS_SUCCESS :: rest) :
    ∃ s' tail, ISR_Usart0 b s = some s' ∧
      s'.trace = s.trace ++ [Effect.TC_CCR b.AT91C_TC_CLKDIS] ++
        busy.map (Effect.CDCDSerialDriver_Write s.usartCurrentBuffer b.DATABUFFERSIZE
          (slotData b s s.usartCurrentBuffer b.DATABUFFERSIZE)) ++
        [Effect.CDCDSerialDriver_Write s.usartCurrentBuffer b.DATABUFFERSIZE
            (slotData b s s.usartCurrentBuffer b.DATABUFFERSIZE) b.USBD_STATUS_SUCCESS,
          Effect.USART_ReadBuffer s.usartCurrentBuffer b.DATABUFFERSIZE,
          Effect.usartCurrentBuffer (toggled s.usartCurrentBuffer),
          Effect.TC_CCR (b.AT91C_TC_CLKEN ||| b.AT91C_TC_SWTRG)] ++ tail ∧
      (∀ e ∈ tail, (∀ v, e ≠ Effect.TC_CCR v) ∧ (∀ v, e ≠ Effect.US_RCR v) ∧
        (∀ slot size data st, e ≠ Effect.CDCDSerialDriver_Write slot size data st) ∧
        (∀ slot size, e ≠ Effect.USART_ReadBuffer slot size) ∧
        (∀ v, e ≠ Effect.usartCurrentBuffer v)) ∧
      s'.usartCurrentBuffer = toggled s.usartCurrentBuffer ∧
      (s.usartCurrentBuffer ≤ 1 → s'.usartCurrentBuffer = 1 - s.usartCurrentBuffer) ∧
      s'.writeStatus = rest := by
  obtain ⟨s1, h1, ht, hc, hws, -, hss, -, -, -⟩ :=
    handOff_accept b b.DATABUFFERSIZE (s.emit [Effect.TC_CCR b.AT91C_TC_CLKDIS]) busy rest hbusy
      (by simpa [State.emit] using hw)
  obtain ⟨t1, -, t3, -, -⟩ := usart_tail b s.US_CSR s1
  refine ⟨ISR_Usart0_errors b s.US_CSR (ISR_Usart0_txbufe b s.US_CSR s1),
    (if s.US_CSR &&& b.AT91C_US_TXBUFE ≠ 0 then
        [Effect.CDCDSerialDriver_Read b.DATABUFFERSIZE, Effect.US_IDR b.AT91C_US_TXBUFE]
      else []) ++
    (if s.US_CSR &&& b.AT91C_US_OVER ≠ 0 then [Effect.TRACE_WARNING Warning.overrun]
      else []) ++
    (if s.US_CSR &&& b.AT91C_US_FRAME ≠ 0 then [Effect.TRACE_WARNING Warning.framingError]
      else []) ++
    [Effect.CDCDSerialDriver_SetSerialState
      (ISR_Usart0_errors b s.US_CSR (ISR_Usart0_txbufe b s.US_CSR s1)).serialState],
    ?_, ?_, ?_, ?_, ?_, ?_⟩
  · unfold ISR_Usart0
    simp only [hcfg, ne_eq, not_true_eq_false, if_false, ISR_Usart0_endrx, hflag,
      not_false_eq_true, if_true, h1]
  · rw [t1, ht]
    simp only [State.emit, slotData, List.append_assoc]
  · intro e he
    simp only [List.mem_append, List.mem_singleton] at he
    rcases he with ((he | he) | he) | he
    · split at he <;> simp at he
      rcases he with rfl | rfl <;> simp
    · split at he <;> simp at he
      subst he
      simp
    · split at he <;> simp at he
      subst he
      simp
    · subst he
      simp
  · rw [t3, hc]
    rfl
  · intro hle
    rw [t3, hc]
    exact toggled_eq _ hle
  · simp only [ISR_Usart0_errors, ISR_Usart0_txbufe, State.emit]
    split <;> split <;> split <;> simp [hws]

theorem first_accept (x : Nat) (l : List Nat) (h : x ∈ l) :
    ∃ busy rest, (∀ r ∈ busy, r ≠ x) ∧ l = busy ++ x :: rest := by
  induction l with
  | nil => simp at h
  | cons a as ih =>
    by_cases ha : a = x
    · exact ⟨[], as, by simp, by simp [ha]⟩
    · have hx : x ∈ as := by
        rcases List.mem_cons.mp h with h1 | h1
        · exact absurd h1.symm ha
        · exact h1
      obtain ⟨busy, rest, hb, he⟩ := ih hx
      refine ⟨a :: busy, rest, ?_, by simp [he]⟩
      intro r hr
      rcases List.mem_cons.mp hr with rfl | hr
      · exact ha
      · exact hb r hr

/-- The receive-complete block of `ISR_Usart0` returns when the flag is clear or some write
is accepted; it touches neither the serial state nor the interrupt mask and performs no USB
read, interrupt disable, warning or serial-state call. -/
theorem endrx_run (b : Board) (s : State)
    (hterm : s.US_CSR &&& b.AT91C_US_ENDRX = 0 ∨ b.USBD_STATUS_SUCCESS ∈ s.writeStatus) :
    ∃ s1 pre, ISR_Usart0_endrx b s.US_CSR s = some s1 ∧ s1.trace = s.trace ++ pre ∧
      s1.serialState = s.serialState ∧ s1.US_IMR = s.US_IMR ∧
      ∀ e ∈ pre, (∀ n, e ≠ Effect.CDCDSerialDriver_Read n) ∧ (∀ v, e ≠ Effect.US_IDR v) ∧
        (∀ v, e ≠ Effect.CDCDSerialDriver_SetSerialState v) ∧
        (∀ w, e ≠ Effect.TRACE_WARNING w) := by
  by_cases hflag : s.US_CSR &&& b.AT91C_US_ENDRX = 0
  · exact ⟨s, [], by simp [ISR_Usart0_endrx, hflag], by simp, rfl, rfl, by simp⟩
  · have hmem : b.USBD_STATUS_SUCCESS ∈ s.writeStatus := by
      rcases hterm with h | h
      · exact absurd h hflag
      · exact h
    obtain ⟨busy, rest, hb, he⟩ := first_accept _ _ hmem
    obtain ⟨s1, h1, ht, -, -, -, hss, -, himr, -⟩ :=
      handOff_accept b b.DATABUFFERSIZE (s.emit [Effect.TC_CCR b.AT91C_TC_CLKDIS]) busy rest hb
        (by simpa [State.emit] using he)
    refine ⟨s1, [Effect.TC_CCR b.AT91C_TC_CLKDIS] ++
        busy.map (Effect.CDCDSerialDriver_Write s.usartCurrentBuffer b.DATABUFFERSIZE
          (slotData b s s.usartCurrentBuffer b.DATABUFFERSIZE)) ++
        [Effect.CDCDSerialDriver_Write s.usartCurrentBuffer b.DATABUFFERSIZE
            (slotData b s s.usartCurrentBuffer b.DATABUFFERSIZE) b.USBD_STATUS_SUCCESS,
          Effect.USART_ReadBuffer s.usartCurrentBuffer b.DATABUFFERSIZE,
          Effect.usartCurrentBuffer (toggled s.usartCurrentBuffer),
          Effect.TC_CCR (b.AT91C_TC_CLKEN ||| b.AT91C_TC_SWTRG)],
      by simp [ISR_Usart0_endrx, hflag, h1], ?_, hss, himr, ?_⟩
    · rw [ht]
      simp only [State.emit, slotData, List.append_assoc]
    · intro e he
      simp only [List.mem_append, List.mem_cons, List.mem_map, List.mem_singleton,
        List.not_mem_nil, or_false] at he
      rcases he with (rfl | ⟨r, -, rfl⟩) | rfl | rfl | rfl | rfl <;> simp

/-- The flush path of `ISR_Timer0`, action by action. -/
theorem ISR_Timer0_handOff (b : Board) (s : State) (busy rest : List Nat)
    (hflag : s.TC_SR &&& b.AT91C_TC_CPCS ≠ 0)
    (hsize : flushSize b s.US_RCR ≠ 0)
    (hbusy : ∀ r ∈ busy, r ≠ b.USBD_STATUS_SUCCESS)
    (hw : s.writeStatus = busy ++ b.USBD_STATUS_SUCCESS :: rest) :
    ∃ s', ISR_Timer0 b s = some s' ∧
      s'.trace = s.trace ++ [Effect.US_RCR 0] ++
        busy.map (Effect.CDCDSerialDriver_Write s.usartCurrentBuffer (flushSize b s.US_RCR)
          (slotData b s s.usartCurrentBuffer (flushSize b s.US_RCR))) ++
        [Effect.CDCDSerialDriver_Write s.usartCurrentBuffer (flushSize b s.US_RCR)
            (slotData b s s.usartCurrentBuffer (flushSize b s.US_RCR)) b.USBD_STATUS_SUCCESS,
          Effect.USART_ReadBuffer s.usartCurrentBuffer b.DATABUFFERSIZE,
          Effect.usartCurrentBuffer (toggled s.usartCurrentBuffer),
          Effect.TC_CCR (b.AT91C_TC_CLKEN ||| b.AT91C_TC_SWTRG)] ∧
      s'.usartCurrentBuffer = toggled s.usartCurrentBuffer ∧
      s'.writeStatus = rest ∧
      s'.USBState = s.USBState := by
  have hn : (pdcReload { s with US_RCR := 0 }).US_RNCR = 0 := by
    unfold pdcReload
    by_cases h : s.US_RNCR = 0 <;> simp [h]
  have hcur : (pdcReload { s with US_RCR := 0 }).usartCurrentBuffer = s.usartCurrentBuffer := by
    unfold pdcReload
    split <;> rfl
  have hbuf : (pdcReload { s with US_RCR := 0 }).usartBuffers = s.usartBuffers := by
    unfold pdcReload
    split <;> rfl
  have htr : (pdcReload { s with US_RCR := 0 }).trace = s.trace := by
    unfold pdcReload
    split <;> rfl
  have hws : (pdcReload { s with US_RCR := 0 }).writeStatus = s.writeStatus := by
    unfold pdcReload
    split <;> rfl
  have hus : (pdcReload { s with US_RCR := 0 }).USBState = s.USBState := by
    unfold pdcReload
    split <;> rfl
  obtain ⟨s1, h1, ht, hc, hw1, -, -, -, -, hu⟩ :=
    handOff_accept b (flushSize b s.US_RCR)
      ((pdcReload { s with US_RCR := 0 }).emit [Effect.US_RCR 0]) busy rest hbusy
      (by simpa [State.emit, hws] using hw)
  refine ⟨s1, ?_, ?_, ?_, hw1, ?_⟩
  · unfold ISR_Timer0
    simp only [hflag, hsize, ne_eq, not_false_eq_true, if_true, if_false, h1]
  · rw [ht]
    simp only [State.emit, slotData, hn, hcur, hbuf, htr, if_true, List.append_assoc]
  · rw [hc]
    simp only [State.emit, hcur]
  · rw [hu]
    simp only [State.emit, hus]

theorem lor_lt_65536 (a c : Nat) (ha : a < 65536) (hc : c < 65536) : a ||| c < 65536 := by
  have h : (65536 : Nat) = 2 ^ 16 := by norm_num
  rw [h] at ha hc ⊢
  exact Nat.or_lt_two_pow ha hc

theorem usartWriteRetry_accept (size : Nat) (data : List Nat) (busy : List Nat) (r : Nat)
    (rest : List Nat) (hbusy : ∀ x ∈ busy, x = 0) (hr : r ≠ 0) :
    usartWriteRetry size data (busy ++ r :: rest) =
      some (busy.map (Effect.USART_WriteBuffer size data) ++
        [Effect.USART_WriteBuffer size data r], rest) := by
  induction busy with
  | nil => simp [usartWriteRetry, hr]
  | cons x xs ih =>
    have hx : x = 0 := hbusy x (by simp)
    have ih1 := ih (fun y hy => hbusy y (by simp [hy]))
    simp [usartWriteRetry, hx, ih1]

theorem usartWriteRetry_none (size : Nat) (data : List Nat) (replies : List Nat)
    (h : ∀ x ∈ replies, x = 0) : usartWriteRetry size data replies = none := by
  induction replies with
  | nil => rfl
  | cons x xs ih =>
    have hx : x = 0 := h x (by simp)
    simp [usartWriteRetry, hx, ih (fun y hy => h y (by simp [hy]))]

theorem first_nonzero (l : List Nat) :
    (∀ x ∈ l, x = 0) ∨
      ∃ busy r rest, (∀ x ∈ busy, x = 0) ∧ r ≠ 0 ∧ l = busy ++ r :: rest := by
  induction l with
  | nil => left; simp
  | cons a as ih =>
    by_cases ha : a = 0
    · rcases ih with h | ⟨busy, r, rest, hb, hr, he⟩
      · left
        intro x hx
        rcases List.mem_cons.mp hx with rfl | hx
        · exact ha
        · exact h x hx
      · right
        refine ⟨a :: busy, r, rest, ?_, hr, by simp [he]⟩
        intro x hx
        rcases List.mem_cons.mp hx with rfl | hx
        · exact ha
        · exact hb x hx
    · right
      exact ⟨[], a, as, by simp, ha, by simp⟩

theorem clearBits_testBit (x m i : Nat) :
    (clearBits x m).testBit i = (x.testBit i && !m.testBit i) := by
  unfold clearBits
  rw [Nat.testBit_xor, Nat.testBit_and]
  cases x.testBit i <;> cases m.testBit i <;> rfl

theorem handedSlots_append (b : Board) (l1 l2 : List Effect) :
    handedSlots b (l1 ++ l2) = handedSlots b l1 ++ handedSlots b l2 := by
  induction l1 with
  | nil => rfl
  | cons e es ih =>
    cases e <;> simp [handedSlots, ih]
    split <;> simp

theorem delivered_append (b : Board) (l1 l2 : List Effect) :
    delivered b (l1 ++ l2) = delivered b l1 ++ delivered b l2 := by
  induction l1 with
  | nil => rfl
  | cons e es ih =>
    cases e <;> simp [delivered, ih]
    split <;> simp

theorem handedSlots_busy (b : Board) (slot size : Nat) (data : List Nat) (busy : List Nat)
    (hbusy : ∀ r ∈ busy, r ≠ b.USBD_STATUS_SUCCESS) :
    handedSlots b (busy.map (Effect.CDCDSerialDriver_Write slot size data)) = [] := by
  induction busy with
  | nil => rfl
  | cons r rs ih =>
    have hr : r ≠ b.USBD_STATUS_SUCCESS := hbusy r (by simp)
    simp [handedSlots, hr, ih (fun x hx => hbusy x (by simp [hx]))]

theorem delivered_busy (b : Board) (slot size : Nat) (data : List Nat) (busy : List Nat)
    (hbusy : ∀ r ∈ busy, r ≠ b.USBD_STATUS_SUCCESS) :
    delivered b (busy.map (Effect.CDCDSerialDriver_Write slot size data)) = [] := by
  induction busy with
  | nil => rfl
  | cons r rs ih =>
    have hr : r ≠ b.USBD_STATUS_SUCCESS := hbusy r (by simp)
    simp [delivered, hr, ih (fun x hx => hbusy x (by simp [hx]))]

theorem accept_or_refuse (x : Nat) (l : List Nat) :
    (∀ r ∈ l, r ≠ x) ∨ ∃ busy rest, (∀ r ∈ busy, r ≠ x) ∧ l = busy ++ x :: rest := by
  by_cases h : x ∈ l
  · exact Or.inr (first_accept x l h)
  · left
    intro r hr he
    exact h (he ▸ hr)

theorem ISR_Timer0_refused (b : Board) (s : State)
    (hnone : ∀ r ∈ s.writeStatus, r ≠ b.USBD_STATUS_SUCCESS)
    (hflag : s.TC_SR &&& b.AT91C_TC_CPCS ≠ 0) (hsize : flushSize b s.US_RCR ≠ 0) :
    ISR_Timer0 b s = none := by
  have hws : (pdcReload { s with US_RCR := 0 }).writeStatus = s.writeStatus := by
    unfold pdcReload
    split <;> rfl
  unfold ISR_Timer0 handOff
  simp only [hflag, hsize, ne_eq, not_false_eq_true, if_true, if_false, State.emit, hws]
  rw [writeRetry_none b _ _ _ _ hnone]

theorem ISR_Usart0_refused (b : Board) (s : State)
    (hnone : ∀ r ∈ s.writeStatus, r ≠ b.USBD_STATUS_SUCCESS)
    (hcfg : s.deviceState = b.USBD_STATE_CONFIGURED)
    (hflag : s.US_CSR &&& b.AT91C_US_ENDRX ≠ 0) :
    ISR_Usart0 b s = none := by
  unfold ISR_Usart0 ISR_Usart0_endrx handOff
  simp only [hcfg, hflag, ne_eq, not_true_eq_false, not_false_eq_true, if_true, if_false,
    State.emit]
  rw [writeRetry_none b _ _ _ _ hnone]

/-- What one run of `ISR_Timer0` does to the trace and to `usartCurrentBuffer`: either no
hand-off and the index kept, or one hand-off of the current slot and the index switched. -/
theorem timer_cases (b : Board) (s s' : State) (h : ISR_Timer0 b s = some s') :
    ∃ new, s'.trace = s.trace ++ new ∧
      ((handedSlots b new = [] ∧ s'.usartCurrentBuffer = s.usartCurrentBuffer ∧
          (s.TC_SR &&& b.AT91C_TC_CPCS = 0 ∨ flushSize b s.US_RCR = 0)) ∨
        (handedSlots b new = [s.usartCurrentBuffer] ∧
          s'.usartCurrentBuffer = toggled s.usartCurrentBuffer ∧
          s.TC_SR &&& b.AT91C_TC_CPCS ≠ 0 ∧ flushSize b s.US_RCR ≠ 0)) := by
  by_cases hflag : s.TC_SR &&& b.AT91C_TC_CPCS = 0
  · unfold ISR_Timer0 at h
    simp [hflag] at h
    subst h
    exact ⟨[], by simp, Or.inl ⟨rfl, rfl, Or.inl hflag⟩⟩
  · by_cases hsize : flushSize b s.US_RCR = 0
    · unfold ISR_Timer0 at h
      simp [hflag, hsize] at h
      subst h
      exact ⟨[Effect.TC_CCR (b.AT91C_TC_CLKEN ||| b.AT91C_TC_SWTRG)], rfl,
        Or.inl ⟨rfl, rfl, Or.inr hsize⟩⟩
    · rcases accept_or_refuse b.USBD_STATUS_SUCCESS s.writeStatus with hn | ⟨busy, rest, hb, hw⟩
      · have := ISR_Timer0_refused b s hn hflag hsize
        rw [this] at h
        cases h
      · obtain ⟨s1, h1, h2, h3, -, -⟩ := ISR_Timer0_handOff b s busy rest hflag hsize hb hw
        rw [h1] at h
        cases h
        refine ⟨[Effect.US_RCR 0] ++
          busy.map (Effect.CDCDSerialDriver_Write s.usartCurrentBuffer (flushSize b s.US_RCR)
            (slotData b s s.usartCurrentBuffer (flushSize b s.US_RCR))) ++
          [Effect.CDCDSerialDriver_Write s.usartCurrentBuffer (flushSize b s.US_RCR)
              (slotData b s s.usartCurrentBuffer (flushSize b s.US_RCR)) b.USBD_STATUS_SUCCESS,
            Effect.USART_ReadBuffer s.usartCurrentBuffer b.DATABUFFERSIZE,
            Effect.usartCurrentBuffer (toggled s.usartCurrentBuffer),
            Effect.TC_CCR (b.AT91C_TC_CLKEN ||| b.AT91C_TC_SWTRG)],
          by rw [h2]; simp only [List.append_assoc], Or.inr ⟨?_, h3, hflag, hsize⟩⟩
        simp [handedSlots_append, handedSlots_busy b _ _ _ _ hb, handedSlots]

/-- What one run of `ISR_Usart0` does to the trace and to `usartCurrentBuffer`. -/
theorem usart_cases (b : Board) (s s' : State) (h : ISR_Usart0 b s = some s') :
    ∃ new, s'.trace = s.trace ++ new ∧
      ((handedSlots b new = [] ∧ s'.usartCurrentBuffer = s.usartCurrentBuffer ∧
          (s.deviceState ≠ b.USBD_STATE_CONFIGURED ∨ s.US_CSR &&& b.AT91C_US_ENDRX = 0)) ∨
        (handedSlots b new = [s.usartCurrentBuffer] ∧
          s'.usartCurrentBuffer = toggled s.usartCurrentBuffer ∧
          s.deviceState = b.USBD_STATE_CONFIGURED ∧ s.US_CSR &&& b.AT91C_US_ENDRX ≠ 0)) := by
  by_cases hcfg : s.deviceState = b.USBD_STATE_CONFIGURED
  · by_cases hflag : s.US_CSR &&& b.AT91C_US_ENDRX = 0
    · obtain ⟨t1, -, t3, -, -⟩ := usart_tail b s.US_CSR s
      unfold ISR_Usart0 at h
      simp [hcfg, ISR_Usart0_endrx, hflag] at h
      subst h
      refine ⟨_, t1, Or.inl ⟨?_, t3, Or.inr hflag⟩⟩
      simp only [handedSlots_append]
      split <;> split <;> split <;> simp [handedSlots]
    · rcases accept_or_refuse b.USBD_STATUS_SUCCESS s.writeStatus with hn | ⟨busy, rest, hb, hw⟩
      · rw [ISR_Usart0_refused b s hn hcfg hflag] at h
        cases h
      · obtain ⟨s1, tail, h1, h2, h3, h4, -, -⟩ :=
          ISR_Usart0_handOff b s busy rest hcfg hflag hb hw
        rw [h1] at h
        cases h
        refine ⟨[Effect.TC_CCR b.AT91C_TC_CLKDIS] ++
          busy.map (Effect.CDCDSerialDriver_Write s.usartCurrentBuffer b.DATABUFFERSIZE
            (slotData b s s.usartCurrentBuffer b.DATABUFFERSIZE)) ++
          [Effect.CDCDSerialDriver_Write s.usartCurrentBuffer b.DATABUFFERSIZE
              (slotData b s s.usartCurrentBuffer b.DATABUFFERSIZE) b.USBD_STATUS_SUCCESS,
            Effect.USART_ReadBuffer s.usartCurrentBuffer b.DATABUFFERSIZE,
            Effect.usartCurrentBuffer (toggled s.usartCurrentBuffer),
            Effect.TC_CCR (b.AT91C_TC_CLKEN ||| b.AT91C_TC_SWTRG)] ++ tail,
          by rw [h2]; simp only [List.append_assoc], Or.inr ⟨?_, h4, hcfg, hflag⟩⟩
        have htail : handedSlots b tail = [] := by
          clear h2
          induction tail with
          | nil => rfl
          | cons e es ih =>
            have he := (h3 e (by simp)).2.2.1
            have ih1 := ih (fun x hx => h3 x (by simp [hx]))
            cases e <;> simp [handedSlots, ih1]
            exact absurd rfl (he _ _ _ _)
        simp [handedSlots_append, handedSlots_busy b _ _ _ _ hb, handedSlots, htail]
  · unfold ISR_Usart0 at h
    simp [hcfg, State.emit] at h
    subst h
    exact ⟨[Effect.US_IDR 4294967295], rfl, Or.inl ⟨rfl, rfl, Or.inl hcfg⟩⟩

theorem main_power_index (s : State) :
    (main_power s).usartCurrentBuffer = s.usartCurrentBuffer := by
  unfold main_power State.emit
  have hne : STATE_RESUME ≠ STATE_SUSPEND := by decide
  have hne2 : STATE_IDLE ≠ STATE_RESUME := by decide
  by_cases h1 : s.USBState = STATE_SUSPEND
  · simp [h1, hne2]
  · by_cases h2 : s.USBState = STATE_RESUME
    · simp [h2, hne]
    · simp [h1, h2]

theorem main_startReceiving_index (b : Board) (s : State) :
    (main_startReceiving b s).usartCurrentBuffer = 0 := by
  simp [main_startReceiving, State.emit, (USART_ReadBuffer_frame b _ _ _).2.1]

theorem UsbDataReceived_index (b : Board) (s s' : State) (status received remaining : Nat)
    (h : UsbDataReceived b s status received remaining = some s') :
    s'.usartCurrentBuffer = s.usartCurrentBuffer := by
  unfold UsbDataReceived at h
  split at h
  · split at h
    · cases h
    · split at h <;> (cases h; rfl)
  · cases h
    rfl

theorem reachable_index (b : Board) (s : State) (h : Reachable b s) :
    s.usartCurrentBuffer ≤ 1 := by
  induction h with
  | start s h0 => omega
  | environment s s' _ he ih => omega
  | timer s s' _ ht ih =>
    obtain ⟨new, -, ⟨-, hc, -⟩ | ⟨-, hc, -, -⟩⟩ := timer_cases b s s' ht
    · omega
    · rw [hc, toggled_eq _ ih]
      omega
  | usart s s' _ hu ih =>
    obtain ⟨new, -, ⟨-, hc, -⟩ | ⟨-, hc, -, -⟩⟩ := usart_cases b s s' hu
    · omega
    · rw [hc, toggled_eq _ ih]
      omega
  | usbData s s' status received remaining _ hd ih =>
    rw [UsbDataReceived_index b s s' status received remaining hd]
    exact ih
  | suspended s _ ih => exact ih
  | resumed s _ ih => exact ih
  | driverLoop s s' _ hm ih =>
    unfold main_loop at hm
    by_cases hd : s.deviceState < b.USBD_STATE_CONFIGURED
    · simp only [hd, if_true] at hm
      cases hw : waitConfigured b (s.emit [Effect.USBD_Connect]).devicePolls with
      | none => simp [hw] at hm
      | some p =>
        simp only [hw, Option.some.injEq] at hm
        subst hm
        rw [main_power_index, main_startReceiving_index]
        omega
    · simp only [hd, if_false, Option.some.injEq] at hm
      subst hm
      rw [main_power_index]
      exact ih

/-- The hand-off block, seen from the hardware: the trace gains one accepted write of the
current slot, the index is switched, and the re-arm lands in the free bank. -/
theorem handOff_spec (b : Board) (size : Nat) (s s' : State) (h : handOff b size s = some s') :
    (∃ new, s'.trace = s.trace ++ new ∧
      delivered b new = slotData b s s.usartCurrentBuffer size ∧
      handedSlots b new = [s.usartCurrentBuffer]) ∧
    s'.usartCurrentBuffer = toggled s.usartCurrentBuffer ∧
    s'.usartBuffers = s.usartBuffers ∧ s'.deviceState = s.deviceState ∧
    ((s.US_RCR = 0 ∧ s.US_RNCR = 0 ∧ s'.US_RPR = slotOffset b s.usartCurrentBuffer ∧
        s'.US_RCR = b.DATABUFFERSIZE ∧ s'.US_RNPR = s.US_RNPR ∧ s'.US_RNCR = 0 ∧
        s'.US_CSR = (if b.DATABUFFERSIZE = 0 then s.US_CSR
          else clearBits s.US_CSR b.AT91C_US_ENDRX)) ∨
      (s.US_RCR ≠ 0 ∧ s.US_RNCR = 0 ∧ s'.US_RPR = s.US_RPR ∧ s'.US_RCR = s.US_RCR ∧
        s'.US_RNPR = slotOffset b s.usartCurrentBuffer ∧ s'.US_RNCR = b.DATABUFFERSIZE ∧
        s'.US_CSR = (if b.DATABUFFERSIZE = 0 then s.US_CSR
          else clearBits s.US_CSR b.AT91C_US_ENDRX)) ∨
      (s.US_RNCR ≠ 0 ∧ s'.US_RPR = s.US_RPR ∧ s'.US_RCR = s.US_RCR ∧
        s'.US_RNPR = s.US_RNPR ∧ s'.US_RNCR = s.US_RNCR ∧ s'.US_CSR = s.US_CSR)) := by
  rcases accept_or_refuse b.USBD_STATUS_SUCCESS s.writeStatus with hn | ⟨busy, rest, hb, hw⟩
  · unfold handOff at h
    rw [writeRetry_none b _ _ _ _ hn] at h
    cases h
  · have hr := writeRetry_accept b s.usartCurrentBuffer size
      (slotData b s s.usartCurrentBuffer size) busy rest hb
    unfold handOff at h
    rw [hw, hr] at h
    simp only [Option.some.injEq] at h
    subst h
    refine ⟨?_, ?_, ?_, ?_, ?_⟩
    · refine ⟨busy.map (Effect.CDCDSerialDriver_Write s.usartCurrentBuffer size
          (slotData b s s.usartCurrentBuffer size)) ++
        [Effect.CDCDSerialDriver_Write s.usartCurrentBuffer size
            (slotData b s s.usartCurrentBuffer size) b.USBD_STATUS_SUCCESS,
          Effect.USART_ReadBuffer s.usartCurrentBuffer b.DATABUFFERSIZE,
          Effect.usartCurrentBuffer (toggled s.usartCurrentBuffer),
          Effect.TC_CCR (b.AT91C_TC_CLKEN ||| b.AT91C_TC_SWTRG)], ?_, ?_, ?_⟩
      · simp only [State.emit, USART_ReadBuffer]
        by_cases h1 : s.US_RNCR = 0 <;> by_cases h2 : s.US_RCR = 0 <;> simp [h1, h2]
      · simp [delivered_append, delivered_busy b _ _ _ _ hb, delivered]
      · simp [handedSlots_append, handedSlots_busy b _ _ _ _ hb, handedSlots]
    · simp only [State.emit, USART_ReadBuffer]
      by_cases h1 : s.US_RNCR = 0 <;> by_cases h2 : s.US_RCR = 0 <;> simp [h1, h2]
    · simp only [State.emit, USART_ReadBuffer]
      by_cases h1 : s.US_RNCR = 0 <;> by_cases h2 : s.US_RCR = 0 <;> simp [h1, h2]
    · simp only [State.emit, USART_ReadBuffer]
      by_cases h1 : s.US_RNCR = 0 <;> by_cases h2 : s.US_RCR = 0 <;> simp [h1, h2]
    · simp only [State.emit, USART_ReadBuffer]
      by_cases h1 : s.US_RNCR = 0 <;> by_cases h2 : s.US_RCR = 0 <;> simp [h1, h2]

theorem clearBits_land (x m : Nat) : clearBits x m &&& m = 0 := by
  apply Nat.eq_of_testBit_eq
  intro i
  rw [Nat.testBit_and, clearBits_testBit]
  cases x.testBit i <;> cases m.testBit i <;> simp

theorem lor_land_self (x m : Nat) : (x ||| m) &&& m = m := by
  apply Nat.eq_of_testBit_eq
  intro i
  rw [Nat.testBit_and, Nat.testBit_or]
  cases x.testBit i <;> cases m.testBit i <;> simp

theorem SameReception.refl (s : State) : SameReception s s :=
  ⟨rfl, rfl, rfl, rfl, rfl, rfl, rfl, rfl⟩

/-- The part of `ISR_Usart0` after the receive-complete block leaves the reception alone
and hands nothing off. -/
theorem usart_tail_same (b : Board) (status : Nat) (s1 : State) :
    SameReception s1 (ISR_Usart0_errors b status (ISR_Usart0_txbufe b status s1)) ∧
    ∃ new, (ISR_Usart0_errors b status (ISR_Usart0_txbufe b status s1)).trace =
        s1.trace ++ new ∧ delivered b new = [] ∧ handedSlots b new = [] := by
  constructor
  · unfold SameReception ISR_Usart0_errors ISR_Usart0_txbufe State.emit
    by_cases h1 : status &&& b.AT91C_US_TXBUFE = 0 <;>
      by_cases h2 : status &&& b.AT91C_US_OVER = 0 <;>
      by_cases h3 : status &&& b.AT91C_US_FRAME = 0 <;>
      simp [h1, h2, h3]
  · refine ⟨_, (usart_tail b status s1).1, ?_, ?_⟩
    · simp only [delivered_append]
      split <;> split <;> split <;> simp [delivered]
    · simp only [handedSlots_append]
      split <;> split <;> split <;> simp [handedSlots]

theorem pdcInv_of_same (b : Board) (s s' : State) (h : SameReception s s')
    (hinv : PdcInv b s) : PdcInv b s' := by
  obtain ⟨h1, -, -, h4, h5, h6, h7, h8⟩ := h
  unfold PdcInv Tracking Ahead Idle at *
  rw [h1, h4, h5, h6, h7, h8]
  exact hinv

theorem pdcInv_receive (b : Board) (s : State) (byte : Nat) (hinv : PdcInv b s) :
    PdcInv b (pdcReceive b s byte) := by
  obtain ⟨hcur, hT | hA | hI⟩ := hinv
  · obtain ⟨h1, h2, h3, h4, h5, h6⟩ := hT
    unfold pdcReceive
    have hne : s.US_RCR ≠ 0 := by omega
    simp only [hne, if_false]
    by_cases hz : s.US_RCR - 1 = 0
    · have hC : b.DATABUFFERSIZE ≠ 0 := by omega
      refine ⟨?_, Or.inr (Or.inl ?_)⟩
      · simp [pdcReload, hz, h5, hC, hcur]
      · simp [Ahead, pdcReload, hz, h5, hC, h6]
        omega
    · refine ⟨?_, Or.inl ?_⟩
      · simp [hz, hcur]
      · simp [Tracking, hz, h1, h5, h6, h4]
        omega
  · obtain ⟨h1, h2, h3, h4⟩ := hA
    unfold pdcReceive
    have hne : s.US_RCR ≠ 0 := by omega
    simp only [hne, if_false]
    by_cases hz : s.US_RCR - 1 = 0
    · refine ⟨?_, Or.inr (Or.inr ?_)⟩
      · simp [pdcReload, hz, h4, hcur]
      · simp [Idle, pdcReload, hz, h4]
    · refine ⟨?_, Or.inr (Or.inl ?_)⟩
      · simp [hz, hcur]
      · simp [Ahead, hz, h4, h3]
        omega
  · unfold pdcReceive
    simp only [hI.1, if_true]
    exact ⟨hcur, Or.inr (Or.inr hI)⟩

/-- At a write call made with the hardware ahead or idle, the hardware is not receiving into
the slot handed off. -/
theorem not_receiving (b : Board) (s : State)
    (hcur : s.usartCurrentBuffer ≤ 1) (h : Ahead b s ∨ Idle s) :
    receivingInto b s s.usartCurrentBuffer = false := by
  unfold receivingInto
  rcases h with ⟨h1, h2, h3, -⟩ | ⟨h1, -⟩
  · have hc : s.usartCurrentBuffer = 0 ∨ s.usartCurrentBuffer = 1 := by omega
    rcases hc with hc | hc
    · simp [hc, slotOffset] at h3 ⊢
      intro _
      omega
    · simp [hc, slotOffset] at h3 ⊢
      intro _ _
      omega
  · simp [h1]

/-- A hand-off made with the hardware ahead or idle re-establishes the invariant. -/
theorem pdcInv_handOff (b : Board) (size : Nat) (s s1 : State) (hC : 0 < b.DATABUFFERSIZE)
    (hcur : s.usartCurrentBuffer ≤ 1) (h : Ahead b s ∨ Idle s)
    (hh : handOff b size s = some s1) : PdcInv b s1 := by
  obtain ⟨-, hc1, -, -, hregs⟩ := handOff_spec b size s s1 hh
  have hC0 : b.DATABUFFERSIZE ≠ 0 := by omega
  have ht : toggled s.usartCurrentBuffer = 1 - s.usartCurrentBuffer := toggled_eq _ hcur
  have hc : s.usartCurrentBuffer = 0 ∨ s.usartCurrentBuffer = 1 := by omega
  rw [ht] at hc1
  refine ⟨by omega, ?_⟩
  rcases h with ⟨a1, a2, a3, a4⟩ | ⟨i1, i2⟩
  · rcases hregs with ⟨r1, -⟩ | ⟨-, -, r3, r4, r5, r6, r7⟩ | ⟨r1, -⟩
    · omega
    · left
      simp only [hC0, if_false] at r7
      refine ⟨by rw [r7]; exact clearBits_land _ _, by omega, by omega, ?_, r6, ?_⟩
      · rw [r3, r4, a3, hc1]
      · rw [r5, hc1]
        rcases hc with hc | hc <;> simp [hc]
    · omega
  · rcases hregs with ⟨-, -, r3, r4, r5, r6, r7⟩ | ⟨r1, -⟩ | ⟨r1, -⟩
    · right
      left
      refine ⟨by omega, by omega, ?_, r6⟩
      rw [r3, r4, hc1]
      rcases hc with hc | hc <;> simp [hc]
    · omega
    · omega

/-- After the store `US_RCR = 0` the hardware is ahead or idle. -/
theorem ahead_after_stop (b : Board) (s : State) (hC : 0 < b.DATABUFFERSIZE)
    (hinv : PdcInv b s) :
    Ahead b (pdcReload { s with US_RCR := 0 }) ∨ Idle (pdcReload { s with US_RCR := 0 }) := by
  obtain ⟨hcur, hT | hA | hI⟩ := hinv
  · obtain ⟨h1, h2, h3, h4, h5, h6⟩ := hT
    have hC0 : b.DATABUFFERSIZE ≠ 0 := by omega
    left
    simp [Ahead, pdcReload, h5, hC0, h6, hC]
  · right
    simp [Idle, pdcReload, hA.2.2.2]
  · right
    simp [Idle, pdcReload, hI.2]

theorem pdcInv_start (b : Board) (s0 : State) (hC : 0 < b.DATABUFFERSIZE)
    (h0 : s0.US_RCR = 0) (h1 : s0.US_RNCR = 0) :
    Tracking b (main_startReceiving b s0) ∧ (main_startReceiving b s0).usartCurrentBuffer = 0 ∧
      (main_startReceiving b s0).usartBuffers = s0.usartBuffers ∧
      (main_startReceiving b s0).deviceState = s0.deviceState ∧
      (main_startReceiving b s0).US_RCR = b.DATABUFFERSIZE := by
  have hC0 : b.DATABUFFERSIZE ≠ 0 := by omega
  simp [Tracking, main_startReceiving, USART_ReadBuffer, State.emit, h0, h1, hC0, slotOffset,
    clearBits_land]
  exact hC

theorem chain_alternates (l : List Nat) :
    ∀ a, a ≤ 1 → List.Chain (fun x y => y = 1 - x) a l →
      ∀ i, i < l.length → l[i]? = some ((a + 1 + i) % 2) := by
  induction l with
  | nil => intro a _ _ i hi; simp at hi
  | cons x xs ih =>
    intro a ha hch i hi
    rw [List.chain_cons] at hch
    obtain ⟨hx, hrest⟩ := hch
    cases i with
    | zero =>
      simp only [List.getElem?_cons_zero, Option.some.injEq]
      omega
    | succ j =>
      simp only [List.getElem?_cons_succ]
      rw [ih x (by omega) hrest j (by simpa using hi)]
      congr 1
      omega

theorem take_set_same (l : List Nat) (k x : Nat) : (l.set k x).take k = l.take k := by
  apply List.ext_getElem?
  intro i
  rw [List.getElem?_take, List.getElem?_take]
  split
  · rw [List.getElem?_set_ne (by omega)]
  · rfl

theorem take_drop_set (l : List Nat) (o k x : Nat) (h : o + k < l.length) :
    ((l.set (o + k) x).drop o).take (k + 1) = (l.drop o).take k ++ [x] := by
  rw [← List.set_drop, List.take_succ, take_set_same]
  rw [List.getElem?_set_self (by rw [List.length_drop]; omega)]
  rfl

theorem main_power_during_id (s : State) : main_power_during id s = main_power s := by
  unfold main_power_during main_power State.emit
  by_cases h : s.USBState = STATE_SUSPEND <;> simp [h]

/-- What the power part does, by the request it finds. -/
theorem main_power_spec (s : State) :
    (s.USBState = STATE_SUSPEND →
      main_power s = ({ s with USBState := STATE_IDLE }).emit
        [Effect.LowPowerMode, Effect.USBState STATE_IDLE]) ∧
    (s.USBState = STATE_RESUME →
      main_power s = ({ s with USBState := STATE_IDLE }).emit
        [Effect.NormalPowerMode, Effect.USBState STATE_IDLE]) ∧
    (s.USBState ≠ STATE_SUSPEND → s.USBState ≠ STATE_RESUME → main_power s = s) := by
  have hne : STATE_RESUME ≠ STATE_SUSPEND := by decide
  have hne2 : STATE_IDLE ≠ STATE_RESUME := by decide
  refine ⟨fun h => ?_, fun h => ?_, fun h1 h2 => ?_⟩
  · simp [main_power, State.emit, h, hne2]
  · simp [main_power, State.emit, h, hne]
  · simp [main_power, h1, h2]

theorem notify_append (b : Board) (s : State) (ns : List Notification) (n : Notification) :
    notify b s (ns ++ [n]) = deliver b (notify b s ns) n := by
  simp [notify, List.foldl_append]

/-- The driver loop, split at the power part: the state the power part starts from, and what
was done before it. -/
theorem main_loop_spec (b : Board) (s : State) :
    (¬ s.deviceState < b.USBD_STATE_CONFIGURED → main_loop b s = some (main_power s)) ∧
    (s.deviceState < b.USBD_STATE_CONFIGURED →
      (∀ skipped d polls, (∀ x ∈ skipped, x < b.USBD_STATE_CONFIGURED) →
        ¬ d < b.USBD_STATE_CONFIGURED → s.devicePolls = skipped ++ d :: polls →
        ∃ s0, main_loop b s = some (main_power s0) ∧
          s0.trace = s.trace ++
            [Effect.USBD_Connect, Effect.usartCurrentBuffer 0,
              Effect.USART_ReadBuffer 0 b.DATABUFFERSIZE,
              Effect.USART_ReadBuffer 1 b.DATABUFFERSIZE,
              Effect.US_IER (b.AT91C_US_ENDRX ||| b.AT91C_US_FRAME ||| b.AT91C_US_OVER),
              Effect.TC_CCR (b.AT91C_TC_CLKEN ||| b.AT91C_TC_SWTRG),
              Effect.CDCDSerialDriver_Read b.DATABUFFERSIZE] ∧
          s0.USBState = s.USBState ∧ s0.usartCurrentBuffer = 0 ∧ s0.deviceState = d) ∧
      ((∀ x ∈ s.devicePolls, x < b.USBD_STATE_CONFIGURED) → main_loop b s = none)) := by
  have hwait : ∀ skipped d polls, (∀ x ∈ skipped, x < b.USBD_STATE_CONFIGURED) →
      ¬ d < b.USBD_STATE_CONFIGURED →
      waitConfigured b (skipped ++ d :: polls) = some (d, polls) := by
    intro skipped
    induction skipped with
    | nil => intro d polls _ hd; simp [waitConfigured, hd]
    | cons x xs ih =>
      intro d polls hs hd
      have hx : x < b.USBD_STATE_CONFIGURED := hs x (by simp)
      simp [waitConfigured, hx, ih d polls (fun y hy => hs y (by simp [hy])) hd]
  have hnever : ∀ l : List Nat, (∀ x ∈ l, x < b.USBD_STATE_CONFIGURED) →
      waitConfigured b l = none := by
    intro l
    induction l with
    | nil => intro _; rfl
    | cons x xs ih =>
      intro hs
      have hx : x < b.USBD_STATE_CONFIGURED := hs x (by simp)
      simp [waitConfigured, hx, ih (fun y hy => hs y (by simp [hy]))]
  refine ⟨fun h => by simp [main_loop, h], fun h => ⟨fun skipped d polls hs hd hp => ?_,
    fun hall => ?_⟩⟩
  · refine ⟨main_startReceiving b
      { s.emit [Effect.USBD_Connect] with deviceState := d, devicePolls := polls }, ?_, ?_, ?_,
      ?_, ?_⟩
    · simp [main_loop, h, State.emit, hp, hwait skipped d polls hs hd]
    · simp [main_startReceiving, State.emit, (USART_ReadBuffer_frame b _ _ _).1]
    · simp [main_startReceiving, State.emit, (USART_ReadBuffer_frame b _ _ _).2.2.2.2.2.2.2]
    · simp [main_startReceiving, State.emit, (USART_ReadBuffer_frame b _ _ _).2.1]
    · simp [main_startReceiving, State.emit, (USART_ReadBuffer_frame b _ _ _).2.2.2.2.2.1]
  · simp [main_loop, h, State.emit, hnever _ hall]

theorem waitConfigured_some (b : Board) (l : List Nat) (d : Nat) (polls : List Nat)
    (h : waitConfigured b l = some (d, polls)) : ¬ d < b.USBD_STATE_CONFIGURED := by
  induction l with
  | nil => simp [waitConfigured] at h
  | cons x xs ih =>
    by_cases hx : x < b.USBD_STATE_CONFIGURED
    · simp only [waitConfigured, hx, if_true] at h
      exact ih h
    · simp only [waitConfigured, hx, if_false, Option.some.injEq, Prod.mk.injEq] at h
      rw [← h.1]
      exact hx

/-- An iteration of the driver loop that returns is the power part run on a state holding the
request the iteration found, reached either directly or through the wait and the start of
reception. -/
theorem main_loop_cases (b : Board) (s s' : State) (h : main_loop b s = some s') :
    ∃ s0, s' = main_power s0 ∧ s0.USBState = s.USBState ∧
      ((¬ s.deviceState < b.USBD_STATE_CONFIGURED ∧ s0 = s) ∨
        (s.deviceState < b.USBD_STATE_CONFIGURED ∧
          s0.trace = s.trace ++
            [Effect.USBD_Connect, Effect.usartCurrentBuffer 0,
              Effect.USART_ReadBuffer 0 b.DATABUFFERSIZE,
              Effect.USART_ReadBuffer 1 b.DATABUFFERSIZE,
              Effect.US_IER (b.AT91C_US_ENDRX ||| b.AT91C_US_FRAME ||| b.AT91C_US_OVER),
              Effect.TC_CCR (b.AT91C_TC_CLKEN ||| b.AT91C_TC_SWTRG),
              Effect.CDCDSerialDriver_Read b.DATABUFFERSIZE] ∧
          s0.usartCurrentBuffer = 0 ∧ ¬ s0.deviceState < b.USBD_STATE_CONFIGURED)) := by
  unfold main_loop at h
  by_cases hd : s.deviceState < b.USBD_STATE_CONFIGURED
  · simp only [hd, if_true] at h
    cases hw : waitConfigured b (s.emit [Effect.USBD_Connect]).devicePolls with
    | none => simp [hw] at h
    | some p =>
      obtain ⟨d, polls⟩ := p
      simp only [hw, Option.some.injEq] at h
      refine ⟨_, h.symm, ?_, Or.inr ⟨hd, ?_, ?_, ?_⟩⟩
      · simp [main_startReceiving, State.emit, (USART_ReadBuffer_frame b _ _ _).2.2.2.2.2.2.2]
      · simp [main_startReceiving, State.emit, (USART_ReadBuffer_frame b _ _ _).1]
      · simp [main_startReceiving, State.emit, (USART_ReadBuffer_frame b _ _ _).2.1]
      · have := waitConfigured_some b _ d polls hw
        simpa [main_startReceiving, State.emit,
          (USART_ReadBuffer_frame b _ _ _).2.2.2.2.2.1] using this
  · simp only [hd, if_false, Option.some.injEq] at h
    exact ⟨s, h.symm, rfl, Or.inl ⟨hd, rfl⟩⟩

/-- With the link not configured `ISR_Usart0` only disables the USART interrupts. -/
theorem ISR_Usart0_unconfigured (b : Board) (s : State)
    (hcfg : s.deviceState ≠ b.USBD_STATE_CONFIGURED) :
    ISR_Usart0 b s = some (({ s with US_IMR := clearBits s.US_IMR 0xFFFFFFFF }).emit
      [Effect.US_IDR 0xFFFFFFFF]) := by
  simp [ISR_Usart0, hcfg]

/-- The `CDCDSerialDriver_Write` calls of one `ISR_Timer0` invocation that returns: all of
them pass the current slot, the flush size (which is not zero) and the first bytes of the
slot. -/
theorem ISR_Timer0_writes (b : Board) (s s' : State) (h : ISR_Timer0 b s = some s')
    (slot size : Nat) (data : List Nat) (st : Nat)
    (hmem : Effect.CDCDSerialDriver_Write slot size data st ∈ s'.trace.drop s.trace.length) :
    slot = s.usartCurrentBuffer ∧ size = flushSize b s.US_RCR ∧ size ≠ 0 ∧
      data = slotData b s slot size := by
  by_cases hflag : s.TC_SR &&& b.AT91C_TC_CPCS = 0
  · have h0 : ISR_Timer0 b s = some s := by
      unfold ISR_Timer0
      simp [hflag]
    rw [h0] at h
    cases h
    simp at hmem
  · by_cases hsize : flushSize b s.US_RCR = 0
    · have h0 : ISR_Timer0 b s =
          some (s.emit [Effect.TC_CCR (b.AT91C_TC_CLKEN ||| b.AT91C_TC_SWTRG)]) := by
        unfold ISR_Timer0
        simp [hflag, hsize]
      rw [h0] at h
      cases h
      simp [State.emit] at hmem
    · rcases accept_or_refuse b.USBD_STATUS_SUCCESS s.writeStatus with hno | ⟨busy, rest, hbusy, hw⟩
      · rw [ISR_Timer0_refused b s hno hflag hsize] at h
        cases h
      · obtain ⟨t, h1, h2, -⟩ := ISR_Timer0_handOff b s busy rest hflag hsize hbusy hw
        rw [h1] at h
        cases h
        rw [h2] at hmem
        simp at hmem
        rcases hmem with ⟨r, -, h3, h4, h5, h6⟩ | ⟨h3, h4, h5, h6⟩
        · subst h3 h4 h5
          exact ⟨rfl, rfl, hsize, rfl⟩
        · subst h3 h4 h5
          exact ⟨rfl, rfl, hsize, rfl⟩

theorem idBit_eq (id : Nat) (h : id < 32) : idBit id = 2 ^ id := by
  unfold idBit
  rw [Nat.one_shiftLeft]
  exact Nat.mod_eq_of_lt (Nat.pow_lt_pow_right (by decide) h)

/-- Masking with a single bit gives the bit back exactly when it is set. -/
theorem land_two_pow (x i : Nat) : x &&& 2 ^ i = 2 ^ i ↔ x.testBit i = true := by
  constructor
  · intro h
    have := congrArg (fun n => n.testBit i) h
    simpa [Nat.testBit_and, Nat.testBit_two_pow_self] using this
  · intro h
    apply Nat.eq_of_testBit_eq
    intro j
    rw [Nat.testBit_and, Nat.testBit_two_pow]
    by_cases hj : i = j
    · subst hj
      simp [h]
    · simp [hj]

theorem handOff_refused (b : Board) (size : Nat) (s : State)
    (hnone : ∀ r ∈ s.writeStatus, r ≠ b.USBD_STATUS_SUCCESS) : handOff b size s = none := by
  unfold handOff
  rw [writeRetry_none b _ _ _ _ hnone]

/-- The calls of a hand-off that returns: none arms a USB receive, none starts a UART
transmission. -/
theorem handOff_calls (b : Board) (size : Nat) (s s' : State) (h : handOff b size s = some s') :
    ∃ new, s'.trace = s.trace ++ new ∧ new.any Effect.armsUsbReceive = false ∧
      new.any Effect.startsUartTransmit = false := by
  rcases accept_or_refuse b.USBD_STATUS_SUCCESS s.writeStatus with hno | ⟨busy, rest, hbusy, hw⟩
  · rw [handOff_refused b size s hno] at h
    cases h
  · obtain ⟨t, h1, h2, -⟩ := handOff_accept b size s busy rest hbusy hw
    rw [h1] at h
    cases h
    refine ⟨_, by rw [h2, List.append_assoc], ?_, ?_⟩
    · simp [Effect.armsUsbReceive]
    · simp [Effect.startsUartTransmit]

theorem usartWriteRetry_calls (size : Nat) (data : List Nat) (l : List Nat)
    (calls : List Effect) (rest : List Nat)
    (h : usartWriteRetry size data l = some (calls, rest)) :
    calls.any Effect.armsUsbReceive = false := by
  induction l generalizing calls rest with
  | nil => simp [usartWriteRetry] at h
  | cons r rs ih =>
    by_cases hr : r = 0
    · simp only [usartWriteRetry, hr, ne_eq, not_true_eq_false, if_false, Option.map_eq_some',
        Prod.mk.injEq] at h
      obtain ⟨p, hp, h1, -⟩ := h
      rw [← h1]
      have := ih p.1 p.2 hp
      simpa [Effect.armsUsbReceive] using this
    · simp only [usartWriteRetry, hr, ne_eq, not_false_eq_true, if_true, Option.some.injEq,
        Prod.mk.injEq] at h
      rw [← h.1]
      simp [Effect.armsUsbReceive]

/-- The calls of `UsbDataReceived`: none arms a USB receive. -/
theorem UsbDataReceived_calls (b : Board) (s s' : State) (status received remaining : Nat)
    (h : UsbDataReceived b s status received remaining = some s') :
    ∃ new, s'.trace = s.trace ++ new ∧ new.any Effect.armsUsbReceive = false := by
  unfold UsbDataReceived at h
  by_cases hst : status = b.USBD_STATUS_SUCCESS
  · simp only [hst, if_true] at h
    cases hw : usartWriteRetry received (s.usbBuffer.take received) s.usartWriteStatus with
    | none => simp [hw] at h
    | some p =>
      obtain ⟨calls, rest⟩ := p
      have hc := usartWriteRetry_calls _ _ _ calls rest hw
      simp only [hw] at h
      by_cases hd : received = b.DATABUFFERSIZE ∧ remaining > 0
      · simp only [hd, and_self, if_true, Option.some.injEq] at h
        subst h
        refine ⟨calls ++ [Effect.US_IER b.AT91C_US_TXBUFE,
          Effect.TRACE_WARNING (Warning.bytesDiscarded remaining)], by simp [State.emit], ?_⟩
        rw [List.any_append, hc]
        rfl
      · simp only [hd, if_false, Option.some.injEq] at h
        subst h
        refine ⟨calls ++ [Effect.US_IER b.AT91C_US_TXBUFE], by simp [State.emit], ?_⟩
        rw [List.any_append, hc]
        rfl
  · simp only [hst, if_false, Option.some.injEq] at h
    subst h
    exact ⟨_, rfl, rfl⟩

/-- The calls of the power part of the driver loop: none arms a USB receive, none starts a
UART transmission. -/
theorem main_power_calls (s : State) :
    ∃ new, (main_power s).trace = s.trace ++ new ∧ new.any Effect.armsUsbReceive = false ∧
      new.any Effect.startsUartTransmit = false := by
  by_cases h1 : s.USBState = STATE_SUSPEND
  · rw [(main_power_spec s).1 h1]
    exact ⟨_, rfl, rfl, rfl⟩
  · by_cases h2 : s.USBState = STATE_RESUME
    · rw [(main_power_spec s).2.1 h2]
      exact ⟨_, rfl, rfl, rfl⟩
    · rw [(main_power_spec s).2.2 h1 h2]
      exact ⟨[], by simp, rfl, rfl⟩

/-- The calls of an iteration of the driver loop that returns: none starts a UART
transmission; one arms a USB receive exactly when the iteration started with the device
below configured. -/
theorem main_loop_calls (b : Board) (s s' : State) (h : main_loop b s = some s') :
    ∃ new, s'.trace = s.trace ++ new ∧ new.any Effect.startsUartTransmit = false ∧
      new.any Effect.armsUsbReceive = decide (s.deviceState < b.USBD_STATE_CONFIGURED) := by
  obtain ⟨s0, h1, -, ⟨hd, h3⟩ | ⟨hd, h3, -, -⟩⟩ := main_loop_cases b s s' h
  · obtain ⟨new, p1, p2, p3⟩ := main_power_calls s0
    subst h3
    exact ⟨new, by rw [h1, p1], p3, by rw [p2]; simp [hd]⟩
  · obtain ⟨new, p1, p2, p3⟩ := main_power_calls s0
    refine ⟨_, by rw [h1, p1, h3, List.append_assoc], ?_, ?_⟩
    · rw [List.any_append, p3]
      rfl
    · rw [List.any_append, p2]
      simp [hd, Effect.armsUsbReceive]

theorem pdcReceive_trace (b : Board) (s : State) (byte : Nat) :
    (pdcReceive b s byte).trace = s.trace := by
  unfold pdcReceive pdcReload
  by_cases h : s.US_RCR = 0
  · simp [h]
  · simp only [h, if_false]
    split
    · split <;> rfl
    · rfl

/-- The ownership after the program has appended the calls `new` to the trace. -/
theorem after_append (l : Bridge) (s : State) (new : List Effect)
    (h : s.trace = l.core.trace ++ new) :
    l.after s =
      { core := s, usbArmed := l.usbArmed || new.any Effect.armsUsbReceive,
        uartSending := l.uartSending || new.any Effect.startsUartTransmit } := by
  unfold Bridge.after
  simp [h]

theorem pdcReceiveAll_nil (b : Board) (s : State) : pdcReceiveAll b s [] = s := rfl

theorem pdcReceiveAll_cons (b : Board) (s : State) (x : Nat) (xs : List Nat) :
    pdcReceiveAll b s (x :: xs) = pdcReceiveAll b (pdcReceive b s x) xs := rfl

theorem pdcReceiveAll_append (b : Board) (s : State) (xs ys : List Nat) :
    pdcReceiveAll b s (xs ++ ys) = pdcReceiveAll b (pdcReceiveAll b s xs) ys := by
  unfold pdcReceiveAll
  rw [List.foldl_append]

/-- Receiving a byte changes the buffers and the registers of the receive channel only. -/
theorem pdcReceive_frame (b : Board) (s : State) (byte : Nat) :
    (pdcReceive b s byte).trace = s.trace ∧
    (pdcReceive b s byte).usartCurrentBuffer = s.usartCurrentBuffer ∧
    (pdcReceive b s byte).deviceState = s.deviceState ∧
    (pdcReceive b s byte).writeStatus = s.writeStatus ∧
    (pdcReceive b s byte).usartBuffers.length = s.usartBuffers.length := by
  unfold pdcReceive pdcReload
  by_cases h : s.US_RCR = 0
  · simp [h]
  · simp only [h, if_false]
    split
    · split <;> simp
    · simp

theorem pdcReceiveAll_frame (b : Board) (bytes : List Nat) :
    ∀ s : State, (pdcReceiveAll b s bytes).trace = s.trace ∧
      (pdcReceiveAll b s bytes).usartCurrentBuffer = s.usartCurrentBuffer ∧
      (pdcReceiveAll b s bytes).deviceState = s.deviceState ∧
      (pdcReceiveAll b s bytes).writeStatus = s.writeStatus ∧
      (pdcReceiveAll b s bytes).usartBuffers.length = s.usartBuffers.length := by
  induction bytes with
  | nil => intro s; exact ⟨rfl, rfl, rfl, rfl, rfl⟩
  | cons x xs ih =>
    intro s
    rw [pdcReceiveAll_cons]
    obtain ⟨h1, h2, h3, h4, h5⟩ := ih (pdcReceive b s x)
    obtain ⟨g1, g2, g3, g4, g5⟩ := pdcReceive_frame b s x
    exact ⟨h1.trans g1, h2.trans g2, h3.trans g3, h4.trans g4, h5.trans g5⟩

theorem ISR_Timer0_rx_nil (b : Board) (s : State) : ISR_Timer0_rx b s [] [] = ISR_Timer0 b s :=
  rfl

theorem ISR_Usart0_rx_nil (b : Board) (s : State) : ISR_Usart0_rx b s [] = ISR_Usart0 b s :=
  rfl

theorem pdcInv_receiveAll (b : Board) (bytes : List Nat) :
    ∀ s : State, PdcInv b s → PdcInv b (pdcReceiveAll b s bytes) := by
  induction bytes with
  | nil => intro s h; exact h
  | cons x xs ih =>
    intro s h
    rw [pdcReceiveAll_cons]
    exact ih _ (pdcInv_receive b s x h)

/-- With the hardware ahead or idle it stays so while bytes arrive. -/
theorem aheadIdle_receive (b : Board) (s : State) (byte : Nat) (h : Ahead b s ∨ Idle s) :
    Ahead b (pdcReceive b s byte) ∨ Idle (pdcReceive b s byte) := by
  rcases h with hA | hI
  · obtain ⟨h1, h2, h3, h4⟩ := hA
    have hcur := (pdcReceive_frame b s byte).2.1
    unfold pdcReceive at hcur ⊢
    have hne : s.US_RCR ≠ 0 := by omega
    simp only [hne, if_false] at hcur ⊢
    by_cases hz : s.US_RCR - 1 = 0
    · right
      simp [Idle, pdcReload, hz, h4]
    · left
      simp [Ahead, hz, h4, h3]
      omega
  · right
    unfold pdcReceive
    simp only [hI.1, if_true]
    exact hI

theorem aheadIdle_receiveAll (b : Board) (bytes : List Nat) :
    ∀ s : State, Ahead b s ∨ Idle s →
      Ahead b (pdcReceiveAll b s bytes) ∨ Idle (pdcReceiveAll b s bytes) := by
  induction bytes with
  | nil => intro s h; exact h
  | cons x xs ih =>
    intro s h
    rw [pdcReceiveAll_cons]
    exact ih _ (aheadIdle_receive b s x h)

/-- The ways `ISR_Timer0_rx` can run. -/
theorem timer_rx_spec (b : Board) (s s' : State) (mid during : List Nat)
    (h : ISR_Timer0_rx b s mid during = some s') :
    ((s.TC_SR &&& b.AT91C_TC_CPCS = 0 ∨ flushSize b s.US_RCR = 0) ∧
      SameReception (pdcReceiveAll b s (mid ++ during)) s' ∧
      ∃ new, s'.trace = s.trace ++ new ∧ delivered b new = [] ∧ handedSlots b new = []) ∨
    (s.TC_SR &&& b.AT91C_TC_CPCS ≠ 0 ∧ flushSize b s.US_RCR ≠ 0 ∧
      handOff b (flushSize b s.US_RCR)
        (pdcReceiveAll b
          ((pdcReload { pdcReceiveAll b s mid with US_RCR := 0 }).emit [Effect.US_RCR 0])
          during) = some s') := by
  have htr := (pdcReceiveAll_frame b (mid ++ during) s).1
  by_cases hflag : s.TC_SR &&& b.AT91C_TC_CPCS = 0
  · unfold ISR_Timer0_rx at h
    simp only [hflag, ne_eq, not_true_eq_false, if_false, Option.some.injEq] at h
    subst h
    rw [← pdcReceiveAll_append]
    exact Or.inl ⟨Or.inl hflag, SameReception.refl _, [], by simp [htr], rfl, rfl⟩
  · by_cases hsize : flushSize b s.US_RCR = 0
    · unfold ISR_Timer0_rx at h
      simp only [hflag, hsize, ne_eq, not_false_eq_true, if_true, Option.some.injEq] at h
      subst h
      rw [← pdcReceiveAll_append]
      exact Or.inl ⟨Or.inr hsize, ⟨rfl, rfl, rfl, rfl, rfl, rfl, rfl, rfl⟩,
        [Effect.TC_CCR (b.AT91C_TC_CLKEN ||| b.AT91C_TC_SWTRG)],
        by simp [State.emit, htr], rfl, rfl⟩
    · unfold ISR_Timer0_rx at h
      simp only [hflag, hsize, ne_eq, not_false_eq_true, if_true, if_false] at h
      exact Or.inr ⟨hflag, hsize, h⟩

/-- The ways `ISR_Usart0_rx` can run. -/
theorem usart_rx_spec (b : Board) (s s' : State) (during : List Nat)
    (h : ISR_Usart0_rx b s during = some s') :
    ((s.deviceState ≠ b.USBD_STATE_CONFIGURED ∨ s.US_CSR &&& b.AT91C_US_ENDRX = 0) ∧
      SameReception (pdcReceiveAll b s during) s' ∧
      ∃ new, s'.trace = s.trace ++ new ∧ delivered b new = [] ∧ handedSlots b new = []) ∨
    (s.deviceState = b.USBD_STATE_CONFIGURED ∧ s.US_CSR &&& b.AT91C_US_ENDRX ≠ 0 ∧
      ∃ s1, handOff b b.DATABUFFERSIZE
          ((pdcReceiveAll b s during).emit [Effect.TC_CCR b.AT91C_TC_CLKDIS]) = some s1 ∧
        SameReception s1 s' ∧
        ∃ new, s'.trace = s1.trace ++ new ∧ delivered b new = [] ∧ handedSlots b new = []) := by
  obtain ⟨htr, -, hdev, -, -⟩ := pdcReceiveAll_frame b during s
  by_cases hcfg : s.deviceState = b.USBD_STATE_CONFIGURED
  · have hcfg0 : (pdcReceiveAll b s during).deviceState = b.USBD_STATE_CONFIGURED := by
      rw [hdev, hcfg]
    by_cases hflag : s.US_CSR &&& b.AT91C_US_ENDRX = 0
    · unfold ISR_Usart0_rx at h
      simp [hcfg0, ISR_Usart0_endrx, hflag] at h
      subst h
      refine Or.inl ⟨Or.inr hflag, (usart_tail_same b s.US_CSR _).1, ?_⟩
      rw [← htr]
      exact (usart_tail_same b s.US_CSR _).2
    · unfold ISR_Usart0_rx at h
      simp only [hcfg0, ne_eq, not_true_eq_false, if_false, ISR_Usart0_endrx, hflag,
        not_false_eq_true, if_true] at h
      cases hh : handOff b b.DATABUFFERSIZE
          ((pdcReceiveAll b s during).emit [Effect.TC_CCR b.AT91C_TC_CLKDIS]) with
      | none => simp [hh] at h
      | some s1 =>
        simp only [hh, Option.some.injEq] at h
        subst h
        exact Or.inr ⟨hcfg, hflag, s1, rfl, (usart_tail_same b s.US_CSR s1).1,
          (usart_tail_same b s.US_CSR s1).2⟩
  · have hcfg0 : (pdcReceiveAll b s during).deviceState ≠ b.USBD_STATE_CONFIGURED := by
      rw [hdev]
      exact hcfg
    unfold ISR_Usart0_rx at h
    simp only [hcfg0, ne_eq, not_false_eq_true, if_true, Option.some.injEq] at h
    subst h
    exact Or.inl ⟨Or.inl hcfg, ⟨rfl, rfl, rfl, rfl, rfl, rfl, rfl, rfl⟩,
      [Effect.US_IDR 4294967295], by simp [State.emit, htr], rfl, rfl⟩

/-- The store `US_RCR = 0` and the switch of the hardware to the pre-armed buffer change the
registers of the receive channel only. -/
theorem stop_frame (s : State) :
    (pdcReload { s with US_RCR := 0 }).trace = s.trace ∧
    (pdcReload { s with US_RCR := 0 }).usartCurrentBuffer = s.usartCurrentBuffer ∧
    (pdcReload { s with US_RCR := 0 }).deviceState = s.deviceState ∧
    (pdcReload { s with US_RCR := 0 }).usartBuffers = s.usartBuffers ∧
    (pdcReload { s with US_RCR := 0 }).US_CSR = s.US_CSR := by
  unfold pdcReload
  split <;> exact ⟨rfl, rfl, rfl, rfl, rfl⟩

/-- The state in which `ISR_Timer0_rx` starts its hand-off. -/
theorem flush_frame (b : Board) (s : State) (mid during : List Nat) :
    (pdcReceiveAll b
      ((pdcReload { pdcReceiveAll b s mid with US_RCR := 0 }).emit [Effect.US_RCR 0])
      during).trace = s.trace ++ [Effect.US_RCR 0] ∧
    (pdcReceiveAll b
      ((pdcReload { pdcReceiveAll b s mid with US_RCR := 0 }).emit [Effect.US_RCR 0])
      during).usartCurrentBuffer = s.usartCurrentBuffer ∧
    (pdcReceiveAll b
      ((pdcReload { pdcReceiveAll b s mid with US_RCR := 0 }).emit [Effect.US_RCR 0])
      during).deviceState = s.deviceState := by
  obtain ⟨h1, h2, h3, -, -⟩ := pdcReceiveAll_frame b during
    ((pdcReload { pdcReceiveAll b s mid with US_RCR := 0 }).emit [Effect.US_RCR 0])
  obtain ⟨g1, g2, g3, -, -⟩ := stop_frame (pdcReceiveAll b s mid)
  obtain ⟨f1, f2, f3, -, -⟩ := pdcReceiveAll_frame b mid s
  refine ⟨?_, ?_, ?_⟩
  · rw [h1]
    show (pdcReload _).trace ++ _ = _
    rw [g1, f1]
  · rw [h2]
    show (pdcReload _).usartCurrentBuffer = _
    rw [g2, f2]
  · rw [h3]
    show (pdcReload _).deviceState = _
    rw [g3, f3]

/-- Receiving does not move the hardware state across `emit`. -/
theorem pdcReceiveAll_emit (b : Board) (bytes : List Nat) (es : List Effect) :
    ∀ s : State, pdcReceiveAll b (s.emit es) bytes = (pdcReceiveAll b s bytes).emit es := by
  induction bytes with
  | nil => intro s; rfl
  | cons x xs ih =>
    intro s
    rw [pdcReceiveAll_cons, pdcReceiveAll_cons, ← ih]
    congr 1
    unfold pdcReceive pdcReload State.emit
    by_cases h : s.US_RCR = 0
    · simp [h]
    · simp only [h, if_false]
      split
      · split <;> rfl
      · rfl

/-- One event either hands nothing off and keeps the index, or hands the current slot off
once and switches the index. -/
theorem step_trace (b : Board) (s s1 : State) (e : Event) (hcur : s.usartCurrentBuffer ≤ 1)
    (h : step b s e = some s1) :
    ∃ new, s1.trace = s.trace ++ new ∧
      ((handedSlots b new = [] ∧ s1.usartCurrentBuffer = s.usartCurrentBuffer) ∨
        (handedSlots b new = [s.usartCurrentBuffer] ∧
          s1.usartCurrentBuffer = 1 - s.usartCurrentBuffer)) := by
  cases e with
  | rx byte =>
    simp only [step, Option.some.injEq] at h
    subst h
    obtain ⟨h1, h2, -⟩ := pdcReceive_frame b s byte
    exact ⟨[], by rw [h1]; simp, Or.inl ⟨rfl, h2⟩⟩
  | usart during =>
    simp only [step] at h
    have hc0 := (pdcReceiveAll_frame b during s).2.1
    rcases usart_rx_spec b s s1 during h with
      ⟨-, hsame, new, hn, -, hh⟩ | ⟨-, -, s2, hh, hsame, new2, hn2, -, hh2⟩
    · exact ⟨new, hn, Or.inl ⟨hh, by rw [hsame.1, hc0]⟩⟩
    · obtain ⟨⟨new1, hn1, -, hh1⟩, hc1, -⟩ := handOff_spec b _ _ s2 hh
      have ht0 : ((pdcReceiveAll b s during).emit [Effect.TC_CCR b.AT91C_TC_CLKDIS]).trace =
          s.trace ++ [Effect.TC_CCR b.AT91C_TC_CLKDIS] := by
        simp [State.emit, (pdcReceiveAll_frame b during s).1]
      have hcc : ((pdcReceiveAll b s during).emit
          [Effect.TC_CCR b.AT91C_TC_CLKDIS]).usartCurrentBuffer = s.usartCurrentBuffer := hc0
      rw [hcc] at hh1 hc1
      rw [toggled_eq _ hcur] at hc1
      refine ⟨[Effect.TC_CCR b.AT91C_TC_CLKDIS] ++ new1 ++ new2,
        by rw [hn2, hn1, ht0]; simp, Or.inr ⟨?_, by rw [hsame.1, hc1]⟩⟩
      simp [handedSlots_append, hh1, hh2, handedSlots]
  | timer mid during =>
    simp only [step] at h
    rcases timer_rx_spec b _ s1 mid during h with ⟨-, hsame, new, hn, -, hh⟩ | ⟨-, -, hh⟩
    · refine ⟨new, hn, Or.inl ⟨hh, ?_⟩⟩
      rw [hsame.1]
      exact (pdcReceiveAll_frame b (mid ++ during) _).2.1
    · obtain ⟨⟨new1, hn1, -, hh1⟩, hc1, -⟩ := handOff_spec b _ _ s1 hh
      obtain ⟨f1, f2, -⟩ := flush_frame b { s with TC_SR := s.TC_SR ||| b.AT91C_TC_CPCS }
        mid during
      rw [f2] at hh1 hc1
      rw [f1] at hn1
      simp only [] at hh1 hc1 hn1
      rw [toggled_eq _ hcur] at hc1
      refine ⟨[Effect.US_RCR 0] ++ new1, by rw [hn1]; simp, Or.inr ⟨?_, hc1⟩⟩
      simp [handedSlots_append, hh1, handedSlots]

/-- The invariant is kept by every event. -/
theorem pdcInv_step (b : Board) (s s1 : State) (e : Event) (hC : 0 < b.DATABUFFERSIZE)
    (hinv : PdcInv b s) (h : step b s e = some s1) : PdcInv b s1 := by
  cases e with
  | rx byte =>
    simp only [step, Option.some.injEq] at h
    subst h
    exact pdcInv_receive b s byte hinv
  | usart during =>
    simp only [step] at h
    have hinv0 := pdcInv_receiveAll b during s hinv
    rcases usart_rx_spec b s s1 during h with ⟨-, hsame, -⟩ | ⟨-, hflag, s2, hh, hsame, -⟩
    · exact pdcInv_of_same b _ s1 hsame hinv0
    · apply pdcInv_of_same b s2 s1 hsame
      apply pdcInv_handOff b _ _ s2 hC (by exact hinv0.1) _ hh
      have : Ahead b s ∨ Idle s := by
        rcases hinv.2 with hT | hA | hI
        · exact absurd hT.1 hflag
        · exact Or.inl hA
        · exact Or.inr hI
      exact aheadIdle_receiveAll b during s this
  | timer mid during =>
    simp only [step] at h
    have hinv' : PdcInv b { s with TC_SR := s.TC_SR ||| b.AT91C_TC_CPCS } := hinv
    rcases timer_rx_spec b _ s1 mid during h with ⟨-, hsame, -⟩ | ⟨-, -, hh⟩
    · exact pdcInv_of_same b _ s1 hsame (pdcInv_receiveAll b _ _ hinv')
    · have hinv1 := pdcInv_receiveAll b mid _ hinv'
      apply pdcInv_handOff b _ _ s1 hC _ _ hh
      · rw [(flush_frame b _ mid during).2.1]
        exact hinv.1
      · rw [pdcReceiveAll_emit]
        exact aheadIdle_receiveAll b during _ (ahead_after_stop b _ hC hinv1)

/-- Along every run the slots handed off alternate, beginning with the current one. -/
theorem run_alternates (b : Board) (evs : List Event) :
    ∀ s s', s.usartCurrentBuffer ≤ 1 → run b s evs = some s' →
      s'.usartCurrentBuffer ≤ 1 ∧ ∃ new, s'.trace = s.trace ++ new ∧
        List.Chain (fun x y => y = 1 - x) (1 - s.usartCurrentBuffer) (handedSlots b new) := by
  induction evs with
  | nil =>
    intro s s' hcur h
    simp only [run, Option.some.injEq] at h
    subst h
    exact ⟨hcur, [], by simp, List.Chain.nil⟩
  | cons e es ih =>
    intro s s' hcur h
    simp only [run] at h
    cases hs : step b s e with
    | none => simp [hs] at h
    | some s1 =>
      simp only [hs, Option.some_bind] at h
      obtain ⟨new1, ht1, ⟨hh, hc⟩ | ⟨hh, hc⟩⟩ := step_trace b s s1 e hcur hs
      · obtain ⟨hcur', new2, ht2, hch⟩ := ih s1 s' (by omega) h
        refine ⟨hcur', new1 ++ new2, by rw [ht2, ht1, List.append_assoc], ?_⟩
        rw [handedSlots_append, hh, List.nil_append, ← hc]
        exact hch
      · obtain ⟨hcur', new2, ht2, hch⟩ := ih s1 s' (by omega) h
        refine ⟨hcur', new1 ++ new2, by rw [ht2, ht1, List.append_assoc], ?_⟩
        rw [handedSlots_append, hh, List.singleton_append]
        refine List.Chain.cons (by omega) ?_
        rw [hc] at hch
        have h2 : 1 - (1 - s.usartCurrentBuffer) = s.usartCurrentBuffer := by omega
        rw [h2] at hch
        exact hch

theorem run_pdcInv (b : Board) (hC : 0 < b.DATABUFFERSIZE) (evs : List Event) :
    ∀ s s', PdcInv b s → run b s evs = some s' → PdcInv b s' := by
  induction evs with
  | nil =>
    intro s s' hinv h
    simp only [run, Option.some.injEq] at h
    subst h
    exact hinv
  | cons e es ih =>
    intro s s' hinv h
    simp only [run] at h
    cases hs : step b s e with
    | none => simp [hs] at h
    | some s1 =>
      simp only [hs, Option.some_bind] at h
      exact ih s1 s' (pdcInv_step b s s1 e hC hinv hs) h

theorem drop_take_set_outside (l : List Nat) (o n i x : Nat) (h : i < o ∨ o + n ≤ i) :
    ((l.set i x).drop o).take n = (l.drop o).take n := by
  apply List.ext_getElem?
  intro j
  rw [List.getElem?_take, List.getElem?_take]
  split
  · rw [List.getElem?_drop, List.getElem?_drop, List.getElem?_set_ne (by omega)]
  · rfl

/-- A byte that arrives with room left in the buffer being filled is stored, and nothing
else happens. -/
theorem pdcReceive_room (b : Board) (s : State) (byte : Nat) (h : 1 < s.US_RCR) :
    pdcReceive b s byte =
      { s with usartBuffers := s.usartBuffers.set s.US_RPR byte,
               US_RPR := s.US_RPR + 1,
               US_RCR := s.US_RCR - 1 } := by
  unfold pdcReceive
  have h1 : s.US_RCR ≠ 0 := by omega
  have h2 : s.US_RCR - 1 ≠ 0 := by omega
  simp [h1, h2]

/-- A byte received while the hardware fills the other slot, with room for more than one:
it is appended to what the other slot holds, and the current slot is untouched. -/
theorem ahead_receive_data (b : Board) (s : State) (byte : Nat)
    (hcur : s.usartCurrentBuffer ≤ 1) (hlen : s.usartBuffers.length = 2 * b.DATABUFFERSIZE)
    (hA : Ahead b s) (hroom : lastByte s = false) :
    Ahead b (pdcReceive b s byte) ∧
    (pdcReceive b s byte).US_CSR = s.US_CSR ∧
    (∀ n, n ≤ b.DATABUFFERSIZE →
      slotData b (pdcReceive b s byte) s.usartCurrentBuffer n =
        slotData b s s.usartCurrentBuffer n) ∧
    slotData b (pdcReceive b s byte) (1 - s.usartCurrentBuffer)
        (b.DATABUFFERSIZE - (pdcReceive b s byte).US_RCR) =
      slotData b s (1 - s.usartCurrentBuffer) (b.DATABUFFERSIZE - s.US_RCR) ++ [byte] := by
  obtain ⟨h1, h2, h3, h4⟩ := hA
  have hr : 1 < s.US_RCR := by
    simp only [lastByte, h4, decide_True, Bool.and_true, decide_eq_false_iff_not] at hroom
    omega
  rw [pdcReceive_room b s byte hr]
  have hc : s.usartCurrentBuffer = 0 ∨ s.usartCurrentBuffer = 1 := by omega
  refine ⟨?_, rfl, ?_, ?_⟩
  · simp [Ahead, h4, h3]
    omega
  · intro n hn
    unfold slotData
    simp only []
    apply drop_take_set_outside
    rw [h3]
    rcases hc with hc | hc <;> simp [hc, slotOffset] <;> omega
  · unfold slotData
    simp only []
    have hk : b.DATABUFFERSIZE - (s.US_RCR - 1) = b.DATABUFFERSIZE - s.US_RCR + 1 := by omega
    rw [hk, h3]
    apply take_drop_set
    rw [hlen]
    rcases hc with hc | hc <;> simp [hc, slotOffset] <;> omega

/-- Bytes received while the hardware fills the other slot, without overrun: they are
appended to what the other slot holds, and the current slot is untouched. -/
theorem ahead_receiveAll_data (b : Board) (bytes : List Nat) :
    ∀ s : State, s.usartCurrentBuffer ≤ 1 → s.usartBuffers.length = 2 * b.DATABUFFERSIZE →
      Ahead b s → noOverrun b s bytes = true →
      Ahead b (pdcReceiveAll b s bytes) ∧
      (pdcReceiveAll b s bytes).US_CSR = s.US_CSR ∧
      (∀ n, n ≤ b.DATABUFFERSIZE →
        slotData b (pdcReceiveAll b s bytes) s.usartCurrentBuffer n =
          slotData b s s.usartCurrentBuffer n) ∧
      slotData b (pdcReceiveAll b s bytes) (1 - s.usartCurrentBuffer)
          (b.DATABUFFERSIZE - (pdcReceiveAll b s bytes).US_RCR) =
        slotData b s (1 - s.usartCurrentBuffer) (b.DATABUFFERSIZE - s.US_RCR) ++ bytes := by
  induction bytes with
  | nil =>
    intro s _ _ hA _
    exact ⟨hA, rfl, fun _ _ => rfl, by simp [pdcReceiveAll_nil]⟩
  | cons x xs ih =>
    intro s hcur hlen hA hno
    simp only [noOverrun, Bool.and_eq_true, Bool.not_eq_true'] at hno
    obtain ⟨a1, a2, a3, a4⟩ := ahead_receive_data b s x hcur hlen hA hno.1
    obtain ⟨-, f2, -, -, f5⟩ := pdcReceive_frame b s x
    obtain ⟨i1, i2, i3, i4⟩ := ih (pdcReceive b s x) (by rw [f2]; exact hcur)
      (by rw [f5]; exact hlen) a1 hno.2
    rw [f2] at i3 i4
    rw [pdcReceiveAll_cons]
    refine ⟨i1, by rw [i2, a2], fun n hn => by rw [i3 n hn, a3 n hn], ?_⟩
    rw [i4, a4, List.append_assoc]
    rfl

theorem streamInv_of_same (b : Board) (t0 : List Effect) (input : List Nat) (s s' : State)
    (hsame : SameReception s s')
    (htr : ∃ new, s'.trace = s.trace ++ new ∧ delivered b new = [] ∧ handedSlots b new = [])
    (hinv : StreamInv b t0 input s) : StreamInv b t0 input s' := by
  obtain ⟨h1, h2, h3, h4, h5, h6, h7, h8⟩ := hsame
  obtain ⟨new1, ht1, hd1, -⟩ := htr
  obtain ⟨i1, i2, i3, new, ht, hcase⟩ := hinv
  refine ⟨by rw [h3]; exact i1, by rw [h2]; exact i2, by rw [h1]; exact i3, new ++ new1,
    by rw [ht1, ht, List.append_assoc], ?_⟩
  unfold Tracking Ahead slotData at *
  rw [h1, h2, h4, h5, h6, h7, h8, delivered_append, hd1, List.append_nil]
  exact hcase

/-- A byte received without overrun extends the stream invariant. -/
theorem streamInv_receive (b : Board) (t0 : List Effect) (input : List Nat) (s : State)
    (byte : Nat) (hE : b.AT91C_US_ENDRX ≠ 0) (hinv : StreamInv b t0 input s)
    (hroom : lastByte s = false) :
    StreamInv b t0 (input ++ [byte]) (pdcReceive b s byte) := by
  obtain ⟨i1, i2, i3, new, ht, ⟨hT, hdata⟩ | ⟨hf, hA, hdata⟩⟩ := hinv
  · obtain ⟨h1, h2, h3, h4, h5, h6⟩ := hT
    have hne : s.US_RCR ≠ 0 := by omega
    have hoff : slotOffset b s.usartCurrentBuffer + (b.DATABUFFERSIZE - s.US_RCR) <
        s.usartBuffers.length := by
      rw [i2]
      have hc : s.usartCurrentBuffer = 0 ∨ s.usartCurrentBuffer = 1 := by omega
      rcases hc with hc | hc <;> simp [hc, slotOffset] <;> omega
    have hmem : slotData b { s with usartBuffers := s.usartBuffers.set s.US_RPR byte }
        s.usartCurrentBuffer (b.DATABUFFERSIZE - s.US_RCR + 1) =
        slotData b s s.usartCurrentBuffer (b.DATABUFFERSIZE - s.US_RCR) ++ [byte] := by
      unfold slotData
      simp only []
      rw [h4]
      exact take_drop_set _ _ _ _ hoff
    unfold pdcReceive
    simp only [hne, if_false]
    by_cases hz : s.US_RCR - 1 = 0
    · have hC : b.DATABUFFERSIZE ≠ 0 := by omega
      have hk : b.DATABUFFERSIZE - s.US_RCR + 1 = b.DATABUFFERSIZE := by omega
      refine ⟨?_, ?_, ?_, new, ?_, Or.inr ⟨?_, ?_, ?_⟩⟩
      · simp [pdcReload, hz, h5, hC, i1]
      · simp [pdcReload, hz, h5, hC, i2]
      · simp [pdcReload, hz, h5, hC, i3]
      · simp [pdcReload, hz, h5, hC, ht]
      · simp only [pdcReload, hz, h5, hC, ne_eq, not_false_eq_true, and_self, if_true]
        rw [lor_land_self]
        exact hE
      · simp [Ahead, pdcReload, hz, h5, hC, h6]
        omega
      · rw [← hdata, List.append_assoc, ← hmem, hk]
        simp [slotData, pdcReload, hz, h5, hC]
    · have hk : b.DATABUFFERSIZE - (s.US_RCR - 1) = b.DATABUFFERSIZE - s.US_RCR + 1 := by
        omega
      refine ⟨?_, ?_, ?_, new, ?_, Or.inl ⟨?_, ?_⟩⟩
      · simp [hz, i1]
      · simp [hz, i2]
      · simp [hz, i3]
      · simp [hz, ht]
      · simp [Tracking, hz, h1, h5, h6, h4]
        omega
      · rw [← hdata, List.append_assoc, ← hmem]
        simp only [hz, if_false, hk]
        rfl
  · obtain ⟨a1, a2, a3, a4⟩ := ahead_receive_data b s byte i3 i2 hA hroom
    obtain ⟨f1, f2, f3, -, f5⟩ := pdcReceive_frame b s byte
    refine ⟨by rw [f3]; exact i1, by rw [f5]; exact i2, by rw [f2]; exact i3, new,
      by rw [f1]; exact ht, Or.inr ⟨by rw [a2]; exact hf, a1, ?_⟩⟩
    rw [f2, a3 _ (Nat.le_refl _), a4, ← hdata]
    simp [List.append_assoc]

theorem streamInv_receiveAll (b : Board) (t0 : List Effect) (hE : b.AT91C_US_ENDRX ≠ 0)
    (bytes : List Nat) :
    ∀ (s : State) (input : List Nat), StreamInv b t0 input s → noOverrun b s bytes = true →
      StreamInv b t0 (input ++ bytes) (pdcReceiveAll b s bytes) := by
  induction bytes with
  | nil =>
    intro s input h _
    simpa [pdcReceiveAll_nil] using h
  | cons x xs ih =>
    intro s input h hno
    simp only [noOverrun, Bool.and_eq_true, Bool.not_eq_true'] at hno
    have := ih _ _ (streamInv_receive b t0 input s x hE h hno.1) hno.2
    rw [pdcReceiveAll_cons]
    simpa [List.append_assoc] using this

/-- A hand-off of `size` bytes of the current slot, made while the hardware fills the other
slot, with those bytes and what the other slot holds being all that waits: afterwards the
hardware fills the current slot, the other one is pre-armed, and the stream invariant
holds. -/
theorem streamInv_handOff (b : Board) (t0 : List Effect) (input : List Nat) (size : Nat)
    (w s2 : State) (new' : List Effect)
    (hC : 0 < b.DATABUFFERSIZE)
    (hcfg : w.deviceState = b.USBD_STATE_CONFIGURED)
    (hlen : w.usartBuffers.length = 2 * b.DATABUFFERSIZE)
    (hcur : w.usartCurrentBuffer ≤ 1)
    (hA : Ahead b w)
    (ht : w.trace = t0 ++ new')
    (hdata : delivered b new' ++ (slotData b w w.usartCurrentBuffer size ++
      slotData b w (1 - w.usartCurrentBuffer) (b.DATABUFFERSIZE - w.US_RCR)) = input)
    (hh : handOff b size w = some s2) : StreamInv b t0 input s2 ∧ Tracking b s2 := by
  obtain ⟨⟨new1, ht1, hd1, -⟩, hc1, hb1, hs1, hregs⟩ := handOff_spec b size w s2 hh
  obtain ⟨a1, a2, a3, a4⟩ := hA
  have hC0 : b.DATABUFFERSIZE ≠ 0 := by omega
  rw [toggled_eq _ hcur] at hc1
  have hc : w.usartCurrentBuffer = 0 ∨ w.usartCurrentBuffer = 1 := by omega
  rcases hregs with ⟨r1, -⟩ | ⟨-, -, r3, r4, r5, r6, r7⟩ | ⟨r1, -⟩
  · omega
  · simp only [hC0, if_false] at r7
    have hT : Tracking b s2 := by
      refine ⟨?_, ?_, ?_, ?_, r6, ?_⟩
      · rw [r7]
        exact clearBits_land _ _
      · omega
      · omega
      · rw [r3, r4, a3, hc1]
      · rw [r5, hc1]
        rcases hc with hc | hc <;> simp [hc]
    refine ⟨⟨by rw [hs1]; exact hcfg, by rw [hb1]; exact hlen, by omega, new' ++ new1,
      by rw [ht1, ht, List.append_assoc], Or.inl ⟨hT, ?_⟩⟩, hT⟩
    rw [delivered_append, hd1, r4, hc1, ← hdata]
    simp [slotData, hb1]
  · omega

theorem tracking_of_same (b : Board) (s s' : State) (h : SameReception s s')
    (hT : Tracking b s) : Tracking b s' := by
  obtain ⟨h1, -, -, h4, h5, h6, h7, h8⟩ := h
  unfold Tracking at *
  rw [h1, h4, h5, h6, h7, h8]
  exact hT

/-- What a received byte does to the counters and the status depends on them only. -/
theorem pdcReceive_congr (b : Board) (s s' : State) (byte : Nat)
    (h1 : s'.US_RCR = s.US_RCR) (h2 : s'.US_RNCR = s.US_RNCR) (h3 : s'.US_CSR = s.US_CSR) :
    (pdcReceive b s' byte).US_RCR = (pdcReceive b s byte).US_RCR ∧
    (pdcReceive b s' byte).US_RNCR = (pdcReceive b s byte).US_RNCR ∧
    (pdcReceive b s' byte).US_CSR = (pdcReceive b s byte).US_CSR := by
  unfold pdcReceive pdcReload
  rw [h1]
  by_cases hz : s.US_RCR = 0
  · simp [hz, h1, h2, h3]
  · simp only [hz, if_false]
    by_cases hz1 : s.US_RCR - 1 = 0
    · by_cases hn : s.US_RNCR = 0 <;> simp [hz1, hn, h2, h3]
    · simp [hz1, h2, h3]

theorem noOverrun_congr (b : Board) (bytes : List Nat) :
    ∀ s s' : State, s'.US_RCR = s.US_RCR → s'.US_RNCR = s.US_RNCR → s'.US_CSR = s.US_CSR →
      noOverrun b s' bytes = noOverrun b s bytes := by
  induction bytes with
  | nil => intro s s' _ _ _; rfl
  | cons x xs ih =>
    intro s s' h1 h2 h3
    obtain ⟨g1, g2, g3⟩ := pdcReceive_congr b s s' x h1 h2 h3
    simp only [noOverrun, lastByte, h1, h2, ih _ _ g1 g2 g3]

/-- `ISR_Usart0_rx` on a run the hand-offs keep up with. -/
theorem streamInv_usart (b : Board) (t0 : List Effect) (input : List Nat) (s s1 : State)
    (during : List Nat) (hC : 0 < b.DATABUFFERSIZE) (hE : b.AT91C_US_ENDRX ≠ 0)
    (hinv : StreamInv b t0 input s) (hno : noOverrun b s during = true)
    (h : ISR_Usart0_rx b s during = some s1) :
    StreamInv b t0 (input ++ during) s1 ∧
    (s.US_CSR &&& b.AT91C_US_ENDRX ≠ 0 → Tracking b s1) ∧
    (s.US_CSR &&& b.AT91C_US_ENDRX = 0 → SameReception (pdcReceiveAll b s during) s1) := by
  obtain ⟨f1, f2, f3, -, f5⟩ := pdcReceiveAll_frame b during s
  rcases usart_rx_spec b s s1 during h with
    ⟨hor, hsame, htr⟩ | ⟨-, hflag, s2, hh, hsame, htr⟩
  · have hflag : s.US_CSR &&& b.AT91C_US_ENDRX = 0 := by
      rcases hor with hor | hor
      · exact absurd hinv.1 hor
      · exact hor
    rw [← f1] at htr
    exact ⟨streamInv_of_same b t0 _ _ s1 hsame htr
      (streamInv_receiveAll b t0 hE during s input hinv hno),
      fun hne => absurd hflag hne, fun _ => hsame⟩
  · obtain ⟨i1, i2, i3, new, ht, ⟨hT, -⟩ | ⟨-, hA, hdata⟩⟩ := hinv
    · exact absurd hT.1 hflag
    · obtain ⟨a1, -, a3, a4⟩ := ahead_receiveAll_data b during s i3 i2 hA hno
      have hres := streamInv_handOff b t0 (input ++ during) b.DATABUFFERSIZE
        ((pdcReceiveAll b s during).emit [Effect.TC_CCR b.AT91C_TC_CLKDIS]) s2
        (new ++ [Effect.TC_CCR b.AT91C_TC_CLKDIS]) hC
        (by show (pdcReceiveAll b s during).deviceState = _; rw [f3]; exact i1)
        (by show (pdcReceiveAll b s during).usartBuffers.length = _; rw [f5]; exact i2)
        (by show (pdcReceiveAll b s during).usartCurrentBuffer ≤ 1; rw [f2]; exact i3)
        a1 (by simp [State.emit, f1, ht])
        (by
          show delivered b _ ++
            (slotData b (pdcReceiveAll b s during) (pdcReceiveAll b s during).usartCurrentBuffer
                b.DATABUFFERSIZE ++
              slotData b (pdcReceiveAll b s during)
                (1 - (pdcReceiveAll b s during).usartCurrentBuffer)
                (b.DATABUFFERSIZE - (pdcReceiveAll b s during).US_RCR)) = _
          rw [f2, a3 _ (Nat.le_refl _), a4, ← hdata, delivered_append]
          simp [delivered, List.append_assoc])
        hh
      exact ⟨streamInv_of_same b t0 _ s2 s1 hsame htr hres.1,
        fun _ => tracking_of_same b s2 s1 hsame hres.2, fun he => absurd he hflag⟩

/-- `ISR_Timer0_rx` on a run the hand-offs keep up with. -/
theorem streamInv_timer (b : Board) (t0 : List Effect) (input : List Nat) (s s1 : State)
    (mid during : List Nat)
    (hC : 0 < b.DATABUFFERSIZE) (hC256 : b.DATABUFFERSIZE ≤ 256)
    (hE : b.AT91C_US_ENDRX ≠ 0) (hP : b.AT91C_TC_CPCS ≠ 0)
    (hinv : StreamInv b t0 input s)
    (hin : inTimeEvent b s (Event.timer mid during) = true)
    (h : ISR_Timer0_rx b { s with TC_SR := s.TC_SR ||| b.AT91C_TC_CPCS } mid during =
      some s1) :
    StreamInv b t0 (input ++ (mid ++ during)) s1 ∧
    (flushSize b s.US_RCR ≠ 0 → Tracking b s1) ∧
    (flushSize b s.US_RCR = 0 →
      SameReception
        (pdcReceiveAll b { s with TC_SR := s.TC_SR ||| b.AT91C_TC_CPCS } (mid ++ during))
        s1) := by
  have hinv' : StreamInv b t0 input { s with TC_SR := s.TC_SR ||| b.AT91C_TC_CPCS } := hinv
  have hflag : ({ s with TC_SR := s.TC_SR ||| b.AT91C_TC_CPCS } : State).TC_SR &&&
      b.AT91C_TC_CPCS ≠ 0 := by
    show (s.TC_SR ||| b.AT91C_TC_CPCS) &&& b.AT91C_TC_CPCS ≠ 0
    rw [lor_land_self]
    exact hP
  rcases timer_rx_spec b _ s1 mid during h with ⟨hor, hsame, htr⟩ | ⟨-, hsize, hh⟩
  · have hsize : flushSize b s.US_RCR = 0 := by
      rcases hor with hor | hor
      · exact absurd hor hflag
      · exact hor
    simp only [inTimeEvent, hsize, if_true] at hin
    have hno : noOverrun b { s with TC_SR := s.TC_SR ||| b.AT91C_TC_CPCS } (mid ++ during) =
        true := by
      rw [noOverrun_congr b (mid ++ during) s
        { s with TC_SR := s.TC_SR ||| b.AT91C_TC_CPCS } rfl rfl rfl]
      exact hin
    have f1 := (pdcReceiveAll_frame b (mid ++ during)
      { s with TC_SR := s.TC_SR ||| b.AT91C_TC_CPCS }).1
    rw [← f1] at htr
    exact ⟨streamInv_of_same b t0 _ _ s1 hsame htr
      (streamInv_receiveAll b t0 hE _ _ input hinv' hno),
      fun hne => absurd hsize hne, fun _ => hsame⟩
  · have hsize' : flushSize b s.US_RCR ≠ 0 := hsize
    simp only [inTimeEvent, hsize', if_false, Bool.and_eq_true, Bool.not_eq_true',
      List.isEmpty_iff] at hin
    obtain ⟨⟨hpend, hmid⟩, hno⟩ := hin
    subst hmid
    obtain ⟨i1, i2, i3, new, ht, ⟨hT, hdata⟩ | ⟨hf, -⟩⟩ := hinv
    · obtain ⟨h1, h2, h3, h4, h5, h6⟩ := hT
      have hC0 : b.DATABUFFERSIZE ≠ 0 := by omega
      have hsz : flushSize b s.US_RCR = b.DATABUFFERSIZE - s.US_RCR :=
        flushSize_eq b s.US_RCR h3 (by omega)
      simp only [pdcReceiveAll_nil] at hh
      rw [pdcReceiveAll_emit] at hh
      have hw0 : pdcReload { ({ s with TC_SR := s.TC_SR ||| b.AT91C_TC_CPCS } : State) with
          US_RCR := 0 } =
          { s with TC_SR := s.TC_SR ||| b.AT91C_TC_CPCS, US_RPR := s.US_RNPR,
                   US_RCR := s.US_RNCR, US_RNPR := 0, US_RNCR := 0 } := by
        simp [pdcReload, h5, hC0]
      have hw1 : pdcReload { s with US_RCR := 0 } =
          { s with US_RPR := s.US_RNPR, US_RCR := s.US_RNCR, US_RNPR := 0, US_RNCR := 0 } := by
        simp [pdcReload, h5, hC0]
      rw [hw0] at hh
      rw [hw1] at hno
      obtain ⟨w0, hw⟩ : ∃ w0 : State, w0 =
          { s with TC_SR := s.TC_SR ||| b.AT91C_TC_CPCS, US_RPR := s.US_RNPR,
                   US_RCR := s.US_RNCR, US_RNPR := 0, US_RNCR := 0 } := ⟨_, rfl⟩
      rw [← hw] at hh
      have q1 : w0.usartCurrentBuffer = s.usartCurrentBuffer := by rw [hw]
      have q2 : w0.usartBuffers = s.usartBuffers := by rw [hw]
      have q3 : w0.US_RCR = b.DATABUFFERSIZE := by rw [hw]; exact h5
      have q4 : w0.deviceState = s.deviceState := by rw [hw]
      have q5 : w0.trace = s.trace := by rw [hw]
      have hA0 : Ahead b w0 := by
        rw [hw]
        simp [Ahead, h5, h6, hC]
      have hno0 : noOverrun b w0 during = true := by
        rw [← hno]
        apply noOverrun_congr
        · rw [hw]
        · rw [hw]
        · rw [hw]
      obtain ⟨a1, -, a3, a4⟩ := ahead_receiveAll_data b during w0 (by rw [q1]; exact i3)
        (by rw [q2]; exact i2) hA0 hno0
      obtain ⟨f1, f2, f3, -, f5⟩ := pdcReceiveAll_frame b during w0
      have hres := streamInv_handOff b t0 (input ++ ([] ++ during)) (flushSize b s.US_RCR)
        ((pdcReceiveAll b w0 during).emit [Effect.US_RCR 0]) s1
        (new ++ [Effect.US_RCR 0]) hC
        (by show (pdcReceiveAll b w0 during).deviceState = _; rw [f3, q4]; exact i1)
        (by show (pdcReceiveAll b w0 during).usartBuffers.length = _; rw [f5, q2]; exact i2)
        (by show (pdcReceiveAll b w0 during).usartCurrentBuffer ≤ 1; rw [f2, q1]; exact i3)
        a1 (by simp [State.emit, f1, q5, ht])
        (by
          show delivered b _ ++
            (slotData b (pdcReceiveAll b w0 during) (pdcReceiveAll b w0 during).usartCurrentBuffer
                (flushSize b s.US_RCR) ++
              slotData b (pdcReceiveAll b w0 during)
                (1 - (pdcReceiveAll b w0 during).usartCurrentBuffer)
                (b.DATABUFFERSIZE - (pdcReceiveAll b w0 during).US_RCR)) = _
          rw [f2, a3 _ (by rw [hsz]; omega), a4, q3, ← hdata, delivered_append, hsz, q1]
          simp [delivered, slotData, q2])
        hh
      exact ⟨hres.1, fun _ => hres.2, fun he => absurd he hsize'⟩
    · simp [completionPending, hf] at hpend

theorem run_streamInv (b : Board) (hC : 0 < b.DATABUFFERSIZE) (hC256 : b.DATABUFFERSIZE ≤ 256)
    (hE : b.AT91C_US_ENDRX ≠ 0) (hP : b.AT91C_TC_CPCS ≠ 0) (t0 : List Effect)
    (evs : List Event) :
    ∀ s s' input, StreamInv b t0 input s → run b s evs = some s' → inTime b s evs = true →
      StreamInv b t0 (input ++ received evs) s' := by
  induction evs with
  | nil =>
    intro s s' input hinv h _
    simp only [run, Option.some.injEq] at h
    subst h
    simpa [received] using hinv
  | cons e es ih =>
    intro s s' input hinv h hp
    simp only [run] at h
    cases hs : step b s e with
    | none => simp [hs] at h
    | some s1 =>
      simp only [hs, Option.some_bind] at h
      simp only [inTime, hs, Bool.and_eq_true] at hp
      obtain ⟨hp1, hp2⟩ := hp
      cases e with
      | rx byte =>
        have hroom : lastByte s = false := by
          simpa [inTimeEvent, noOverrun] using hp1
        simp only [step, Option.some.injEq] at hs
        subst hs
        have := ih _ s' (input ++ [byte])
          (streamInv_receive b t0 input s byte hE hinv hroom) h hp2
        simpa [received, List.append_assoc] using this
      | usart during =>
        simp only [step] at hs
        have := ih s1 s' (input ++ during)
          (streamInv_usart b t0 input s s1 during hC hE hinv hp1 hs).1 h hp2
        simpa [received, List.append_assoc] using this
      | timer mid during =>
        simp only [step] at hs
        have := ih s1 s' (input ++ (mid ++ during))
          (streamInv_timer b t0 input s s1 mid during hC hC256 hE hP hinv hp1 hs).1 h hp2
        simpa [received, List.append_assoc] using this

theorem ISR_Timer0_rx_calls (b : Board) (s s' : State) (mid during : List Nat)
    (h : ISR_Timer0_rx b s mid during = some s') :
    ∃ new, s'.trace = s.trace ++ new ∧ new.any Effect.armsUsbReceive = false ∧
      new.any Effect.startsUartTransmit = false := by
  unfold ISR_Timer0_rx at h
  by_cases hflag : s.TC_SR &&& b.AT91C_TC_CPCS = 0
  · simp only [hflag, ne_eq, not_true_eq_false, if_false, Option.some.injEq] at h
    subst h
    rw [← pdcReceiveAll_append]
    exact ⟨[], by simp [(pdcReceiveAll_frame b (mid ++ during) s).1], rfl, rfl⟩
  · by_cases hsize : flushSize b s.US_RCR = 0
    · simp only [hflag, hsize, ne_eq, not_false_eq_true, if_true, Option.some.injEq] at h
      subst h
      rw [← pdcReceiveAll_append]
      exact ⟨[Effect.TC_CCR (b.AT91C_TC_CLKEN ||| b.AT91C_TC_SWTRG)],
        by simp [State.emit, (pdcReceiveAll_frame b (mid ++ during) s).1], rfl, rfl⟩
    · simp only [hflag, hsize, ne_eq, not_false_eq_true, if_true, if_false] at h
      obtain ⟨new, h1, h2, h3⟩ := handOff_calls b _ _ s' h
      rw [(flush_frame b s mid during).1] at h1
      refine ⟨Effect.US_RCR 0 :: new, by rw [h1]; simp, ?_, ?_⟩
      · simpa [Effect.armsUsbReceive] using h2
      · simpa [Effect.startsUartTransmit] using h3

/-- The calls of an `ISR_Usart0_rx` invocation that returns: none starts a UART
transmission, and none arms a USB receive unless the status read has the
transmit-buffer-empty flag. -/
theorem ISR_Usart0_rx_calls (b : Board) (s s' : State) (during : List Nat)
    (h : ISR_Usart0_rx b s during = some s') :
    ∃ new, s'.trace = s.trace ++ new ∧ new.any Effect.startsUartTransmit = false ∧
      (s.US_CSR &&& b.AT91C_US_TXBUFE = 0 → new.any Effect.armsUsbReceive = false) := by
  obtain ⟨f1, -, f3, -, -⟩ := pdcReceiveAll_frame b during s
  unfold ISR_Usart0_rx at h
  by_cases hcfg : (pdcReceiveAll b s during).deviceState = b.USBD_STATE_CONFIGURED
  · simp only [hcfg, ne_eq, not_true_eq_false, if_false] at h
    cases h1 : ISR_Usart0_endrx b s.US_CSR (pdcReceiveAll b s during) with
    | none => simp [h1] at h
    | some s1 =>
      simp only [h1, Option.some.injEq] at h
      subst h
      have hpre : ∃ pre, s1.trace = s.trace ++ pre ∧ pre.any Effect.armsUsbReceive = false ∧
          pre.any Effect.startsUartTransmit = false := by
        unfold ISR_Usart0_endrx at h1
        by_cases hflag : s.US_CSR &&& b.AT91C_US_ENDRX = 0
        · simp only [hflag, ne_eq, not_true_eq_false, if_false, Option.some.injEq] at h1
          subst h1
          exact ⟨[], by simp [f1], rfl, rfl⟩
        · simp only [hflag, ne_eq, not_false_eq_true, if_true] at h1
          obtain ⟨new, e1, e2, e3⟩ := handOff_calls b _ _ s1 h1
          refine ⟨Effect.TC_CCR b.AT91C_TC_CLKDIS :: new,
            by rw [e1]; simp [State.emit, f1], ?_, ?_⟩
          · simpa [Effect.armsUsbReceive] using e2
          · simpa [Effect.startsUartTransmit] using e3
      obtain ⟨pre, p1, p2, p3⟩ := hpre
      have ht := (usart_tail b s.US_CSR s1).1
      refine ⟨_, by rw [ht, p1, List.append_assoc], ?_, ?_⟩
      · rw [List.any_append, p3]
        by_cases h1 : s.US_CSR &&& b.AT91C_US_TXBUFE = 0 <;>
          by_cases h2 : s.US_CSR &&& b.AT91C_US_OVER = 0 <;>
          by_cases h3 : s.US_CSR &&& b.AT91C_US_FRAME = 0 <;>
          simp [h1, h2, h3, Effect.startsUartTransmit]
      · intro h1
        rw [List.any_append, p2]
        by_cases h2 : s.US_CSR &&& b.AT91C_US_OVER = 0 <;>
          by_cases h3 : s.US_CSR &&& b.AT91C_US_FRAME = 0 <;>
          simp [h1, h2, h3, Effect.armsUsbReceive]
  · simp only [hcfg, ne_eq, not_false_eq_true, if_true, Option.some.injEq] at h
    subst h
    exact ⟨[Effect.US_IDR 0xFFFFFFFF], by simp [State.emit, f1], rfl, fun _ => rfl⟩

/-- One event of the bridge keeps the single ownership of `usbBuffer`, provided that a
driver-loop iteration which runs the setup does so with no transmission in progress. -/
theorem step_singleOwner (b : Board) (l l1 : Bridge) (e : BridgeEvent)
    (h0 : l.singleOwner = true)
    (hq : e = BridgeEvent.driverLoop →
      ¬ l.core.deviceState < b.USBD_STATE_CONFIGURED ∨ l.uartSending = false)
    (h : l.step b e = some l1) : l1.singleOwner = true := by
  cases e with
  | irq ev =>
    simp only [Bridge.step, Option.map_eq_some'] at h
    obtain ⟨s', hs, rfl⟩ := h
    cases ev with
    | rx byte =>
      simp only [step, Option.some.injEq] at hs
      have ht : s'.trace = l.core.trace ++ [] := by
        rw [← hs, pdcReceive_trace]
        simp [Bridge.status]
      rw [after_append l s' [] ht]
      simpa [Bridge.singleOwner] using h0
    | usart during =>
      simp only [step] at hs
      obtain ⟨new, h1, h2, h3⟩ := ISR_Usart0_rx_calls b _ s' during hs
      rw [after_append l s' new h1]
      cases hsend : l.uartSending
      · simp [Bridge.singleOwner, h2]
      · have ha : l.usbArmed = false := by
          simpa [Bridge.singleOwner, hsend] using h0
        have := h3 (by simp [Bridge.status, hsend, clearBits_land])
        simp [Bridge.singleOwner, ha, this]
    | timer mid during =>
      simp only [step] at hs
      obtain ⟨new, h1, h2, h3⟩ := ISR_Timer0_rx_calls b _ s' mid during hs
      rw [after_append l s' new h1]
      simpa [Bridge.singleOwner, h2, h3] using h0
  | usbReceived status data remaining =>
    simp only [Bridge.step] at h
    cases ha : l.usbArmed
    · simp [ha] at h
    · simp only [ha, if_true, Option.map_eq_some'] at h
      obtain ⟨s', hs, rfl⟩ := h
      obtain ⟨new, h1, h2⟩ := UsbDataReceived_calls b _ s' _ _ _ hs
      rw [after_append { l with usbArmed := false } s' new h1]
      simp [Bridge.singleOwner, h2]
  | uartSent =>
    simp only [Bridge.step] at h
    cases hsend : l.uartSending
    · simp [hsend] at h
    · simp only [hsend, if_true, Option.some.injEq] at h
      subst h
      simp [Bridge.singleOwner]
  | linkState d =>
    simp only [Bridge.step, Option.some.injEq] at h
    subst h
    simpa [Bridge.singleOwner] using h0
  | notified n =>
    simp only [Bridge.step, Option.some.injEq] at h
    subst h
    simpa [Bridge.singleOwner] using h0
  | driverLoop =>
    simp only [Bridge.step, Option.map_eq_some'] at h
    obtain ⟨s', hs, rfl⟩ := h
    obtain ⟨new, h1, h2, h3⟩ := main_loop_calls b _ s' hs
    rw [after_append l s' new h1]
    rcases hq rfl with hd | hsend
    · simpa [Bridge.singleOwner, h2, h3, hd] using h0
    · simp [Bridge.singleOwner, h2, hsend]

/-- Along a run of the bridge in which the setup never runs during a transmission, the
single ownership of `usbBuffer` is kept. -/
theorem run_singleOwner (b : Board) (evs : List BridgeEvent) :
    ∀ l l1 : Bridge, l.singleOwner = true → setupWhileIdle b l evs = true →
      Bridge.run b l evs = some l1 → l1.singleOwner = true := by
  induction evs with
  | nil =>
    intro l l1 h0 _ h
    simp only [Bridge.run, Option.some.injEq] at h
    rw [← h]
    exact h0
  | cons e es ih =>
    intro l l1 h0 hq h
    cases hstep : l.step b e with
    | none => simp [Bridge.run, hstep] at h
    | some l2 =>
      simp only [Bridge.run, hstep, Option.some_bind] at h
      simp only [setupWhileIdle, hstep, Bool.and_eq_true] at hq
      refine ih l2 l1 (step_singleOwner b l l2 e h0 ?_ hstep) hq.2 h
      intro he
      subst he
      simpa using hq.1

/-- The events that leave the transmission flag alone: every event but the completion of
the USB receive (which may start a transmission) and the end of the transmission. -/
theorem step_uartSending (b : Board) (l l1 : Bridge) (e : BridgeEvent)
    (h : l.step b e = some l1) (hs : l.uartSending = false) (hs1 : l1.uartSending = true) :
    ∃ status data remaining, e = BridgeEvent.usbReceived status data remaining := by
  cases e with
  | irq ev =>
    exfalso
    simp only [Bridge.step, Option.map_eq_some'] at h
    obtain ⟨s', hs', rfl⟩ := h
    cases ev with
    | rx byte =>
      simp only [step, Option.some.injEq] at hs'
      have ht : s'.trace = l.core.trace ++ [] := by
        rw [← hs', pdcReceive_trace]
        simp [Bridge.status]
      rw [after_append l s' [] ht] at hs1
      simp [hs] at hs1
    | usart during =>
      simp only [step] at hs'
      obtain ⟨new, h1, h2, -⟩ := ISR_Usart0_rx_calls b _ s' during hs'
      rw [after_append l s' new h1] at hs1
      simp [hs, h2] at hs1
    | timer mid during =>
      simp only [step] at hs'
      obtain ⟨new, h1, -, h3⟩ := ISR_Timer0_rx_calls b _ s' mid during hs'
      rw [after_append l s' new h1] at hs1
      simp [hs, h3] at hs1
  | usbReceived status data remaining => exact ⟨status, data, remaining, rfl⟩
  | uartSent =>
    simp [Bridge.step, hs] at h
  | linkState d =>
    simp only [Bridge.step, Option.some.injEq] at h
    subst h
    simp [hs] at hs1
  | notified n =>
    simp only [Bridge.step, Option.some.injEq] at h
    subst h
    simp [hs] at hs1
  | driverLoop =>
    exfalso
    simp only [Bridge.step, Option.map_eq_some'] at h
    obtain ⟨s', hs', rfl⟩ := h
    obtain ⟨new, h1, h2, -⟩ := main_loop_calls b _ s' hs'
    rw [after_append l s' new h1] at hs1
    simp [hs, h2] at hs1

/-! ## The claims -/

/-- C1, as amended: start reception from a state with the link configured, no reception
armed and `usartBuffers` of `2 * DATABUFFERSIZE` bytes, with `0 < DATABUFFERSIZE ≤ 256`.
Bytes arrive between the handler runs and while a handler executes.  For every run that the
hand-offs keep up with (`inTime`: the bytes never overrun the armed buffers, a timer fire
that finds bytes to flush finds no completion pending, and no byte arrives between the read
of `US_RCR` and the store `US_RCR = 0` of a flush) and in which every hand-off is eventually
accepted (the run returns), the payloads handed to `CDCDSerialDriver_Write`, concatenated in
call order and followed by the bytes still waiting, are exactly the bytes received; with
nothing waiting the payloads alone are the input stream. -/
theorem C1_stream_integrity (b : Board) (s0 s : State) (evs : List Event)
    (hC : 0 < b.DATABUFFERSIZE) (hC256 : b.DATABUFFERSIZE ≤ 256)
    (hE : b.AT91C_US_ENDRX ≠ 0) (hP : b.AT91C_TC_CPCS ≠ 0)
    (hcfg : s0.deviceState = b.USBD_STATE_CONFIGURED)
    (hlen : s0.usartBuffers.length = 2 * b.DATABUFFERSIZE)
    (h0 : s0.US_RCR = 0) (h1 : s0.US_RNCR = 0)
    (hrun : run b (main_startReceiving b s0) evs = some s)
    (hin : inTime b (main_startReceiving b s0) evs = true) :
    ∃ new, s.trace = (main_startReceiving b s0).trace ++ new ∧
      delivered b new ++ pending b s = received evs ∧
      (pending b s = [] → delivered b new = received evs) := by
  obtain ⟨hT, hcur, hbuf, hdev, hfull⟩ := pdcInv_start b s0 hC h0 h1
  have hstart : StreamInv b (main_startReceiving b s0).trace [] (main_startReceiving b s0) := by
    refine ⟨by rw [hdev]; exact hcfg, by rw [hbuf]; exact hlen, by omega, [], by simp,
      Or.inl ⟨hT, ?_⟩⟩
    simp [delivered, slotData, hfull]
  have hfin := run_streamInv b hC hC256 hE hP _ evs _ s [] hstart hrun hin
  obtain ⟨-, -, -, new, ht, ⟨hT', hdata⟩ | ⟨hf, -, hdata⟩⟩ := hfin
  · have hp : pending b s =
        slotData b s s.usartCurrentBuffer (b.DATABUFFERSIZE - s.US_RCR) := by
      simp [pending, completionPending, hT'.1]
    refine ⟨new, ht, by rw [hp]; simpa using hdata, fun hnil => ?_⟩
    rw [hp] at hnil
    rw [hnil] at hdata
    simpa using hdata
  · have hp : pending b s = slotData b s s.usartCurrentBuffer b.DATABUFFERSIZE ++
        slotData b s (1 - s.usartCurrentBuffer) (b.DATABUFFERSIZE - s.US_RCR) := by
      simp [pending, completionPending, hf]
    refine ⟨new, ht, by rw [hp]; simpa using hdata, fun hnil => ?_⟩
    rw [hp] at hnil
    rw [hnil] at hdata
    simpa using hdata

set_option maxRecDepth 100000 in
/-- C1 as amended, on a concrete run: two bytes, a flush during which a third byte arrives,
a fourth byte, a run of `ISR_Usart0` during which a fifth arrives, a second flush. -/
theorem C1_stream_integrity_witness :
    ∃ s new, run at91sam7s_ek (started at91sam7s_ek 2)
        [Event.rx 7, Event.rx 8, Event.timer [] [9], Event.rx 10, Event.usart [11],
          Event.timer [] []] = some s ∧
      s.trace = (started at91sam7s_ek 2).trace ++ new ∧
      delivered at91sam7s_ek new ++ pending at91sam7s_ek s = [7, 8, 9, 10, 11] := by
  have hrun : run at91sam7s_ek (started at91sam7s_ek 2)
      [Event.rx 7, Event.rx 8, Event.timer [] [9], Event.rx 10, Event.usart [11],
        Event.timer [] []] =
      some ((run at91sam7s_ek (started at91sam7s_ek 2)
        [Event.rx 7, Event.rx 8, Event.timer [] [9], Event.rx 10, Event.usart [11],
          Event.timer [] []]).getD (boot at91sam7s_ek)) := by decide
  obtain ⟨new, h1, h2, -⟩ := C1_stream_integrity at91sam7s_ek
    { boot at91sam7s_ek with deviceState := at91sam7s_ek.USBD_STATE_CONFIGURED
                             writeStatus := List.replicate 2 at91sam7s_ek.USBD_STATUS_SUCCESS }
    _ _ (by decide) (by decide) (by decide) (by decide) (by decide) (by decide) (by decide)
    (by decide) hrun (by decide)
  exact ⟨_, new, hrun, h1, h2⟩

set_option maxRecDepth 1000000 in
/-- C1 as stated fails, in four ways.  (1) Bytes that wait in the filling slot have not been
handed off: after one received byte and no handler run, nothing has been delivered.  (2) A
timer fire that finds a completion pending and bytes in the next slot (run `lateService`)
hands off the wrong bytes: the handlers return with nothing waiting and only the bytes 1 and
65 handed off, out of the 66 received.  (3) A byte that arrives between the read of `US_RCR`
and the store `US_RCR = 0` of a flush (run `raceRun`) is never handed off: of the bytes
1, 2, 3, 4 the byte 2 is missing.  (4) Bytes that fill the only armed buffer while the
handler is in its retry loop (run `overrunRun`) are never handed off either: of 66 bytes
only the bytes 1 and 2 are delivered.  (5) After a second run of the setup, made with both
receptions still armed (`secondSetup`), the byte 2 arrives and the timer hands off the byte
1 again. -/
theorem C1_stream_integrity_counterexample :
    (∃ s, run at91sam7s_ek (started at91sam7s_ek 2) [Event.rx 1] = some s ∧
      delivered at91sam7s_ek (s.trace.drop (started at91sam7s_ek 2).trace.length) = [] ∧
      received [Event.rx 1] = [1]) ∧
    (∃ s, run at91sam7s_ek (started at91sam7s_ek 2) lateService = some s ∧
      delivered at91sam7s_ek (s.trace.drop (started at91sam7s_ek 2).trace.length) = [1, 65] ∧
      pending at91sam7s_ek s = [] ∧
      received lateService = List.range' 1 66) ∧
    (∃ s, run at91sam7s_ek (started at91sam7s_ek 2) raceRun = some s ∧
      delivered at91sam7s_ek (s.trace.drop (started at91sam7s_ek 2).trace.length) =
        [1, 3, 4] ∧
      pending at91sam7s_ek s = [] ∧
      received raceRun = [1, 2, 3, 4]) ∧
    (∃ s, run at91sam7s_ek (started at91sam7s_ek 2) overrunRun = some s ∧
      delivered at91sam7s_ek (s.trace.drop (started at91sam7s_ek 2).trace.length) = [1, 2] ∧
      pending at91sam7s_ek s = [] ∧
      received overrunRun = List.range' 1 66) ∧
    (∃ s, run at91sam7s_ek secondSetup [Event.rx 2, Event.timer [] []] = some s ∧
      delivered at91sam7s_ek (s.trace.drop secondSetup.trace.length) = [1] ∧
      received [Event.rx 2, Event.timer [] []] = [2]) := by
  refine ⟨?_, ?_, ?_, ?_, ?_⟩
  · exact ⟨_, rfl, by decide, by decide⟩
  · exact ⟨(run at91sam7s_ek (started at91sam7s_ek 2) lateService).getD (boot at91sam7s_ek),
      by decide, by decide, by decide, by decide⟩
  · exact ⟨(run at91sam7s_ek (started at91sam7s_ek 2) raceRun).getD (boot at91sam7s_ek),
      by decide, by decide, by decide, by decide⟩
  · exact ⟨(run at91sam7s_ek (started at91sam7s_ek 2) overrunRun).getD (boot at91sam7s_ek),
      by decide, by decide, by decide, by decide⟩
  · exact ⟨(run at91sam7s_ek secondSetup [Event.rx 2, Event.timer [] []]).getD
      (boot at91sam7s_ek), by decide, by decide, by decide⟩

/-- C2: a timer fire with the compare flag set and `0 < C - r < C` bytes pending (`C` the
capacity `DATABUFFERSIZE`, `r` the remaining count `US_RCR`) performs exactly: the store of
0 to `US_RCR`; the calls of `CDCDSerialDriver_Write` with the first `C - r` bytes of the
current slot, of which exactly one, the last, is accepted (no refused call when the write is
accepted at once); the re-arm of reception on that same slot with the full capacity `C`;
one switch of `usartCurrentBuffer`; the restart of the timer.  `C ≤ 256` because the size
is held in an `unsigned char`. -/
theorem C2_timer_partial_flush (b : Board) (s : State) (busy rest : List Nat)
    (hC : b.DATABUFFERSIZE ≤ 256)
    (hflag : s.TC_SR &&& b.AT91C_TC_CPCS ≠ 0)
    (hpos : 0 < b.DATABUFFERSIZE - s.US_RCR)
    (hlt : b.DATABUFFERSIZE - s.US_RCR < b.DATABUFFERSIZE)
    (hbusy : ∀ r ∈ busy, r ≠ b.USBD_STATUS_SUCCESS)
    (hw : s.writeStatus = busy ++ b.USBD_STATUS_SUCCESS :: rest) :
    ∃ s', ISR_Timer0 b s = some s' ∧
      s'.trace = s.trace ++ [Effect.US_RCR 0] ++
        busy.map (Effect.CDCDSerialDriver_Write s.usartCurrentBuffer
          (b.DATABUFFERSIZE - s.US_RCR)
          (slotData b s s.usartCurrentBuffer (b.DATABUFFERSIZE - s.US_RCR))) ++
        [Effect.CDCDSerialDriver_Write s.usartCurrentBuffer (b.DATABUFFERSIZE - s.US_RCR)
           (slotData b s s.usartCurrentBuffer (b.DATABUFFERSIZE - s.US_RCR))
           b.USBD_STATUS_SUCCESS,
         Effect.USART_ReadBuffer s.usartCurrentBuffer b.DATABUFFERSIZE,
         Effect.usartCurrentBuffer (toggled s.usartCurrentBuffer),
         Effect.TC_CCR (b.AT91C_TC_CLKEN ||| b.AT91C_TC_SWTRG)] ∧
      s'.usartCurrentBuffer = toggled s.usartCurrentBuffer ∧
      (s.usartCurrentBuffer ≤ 1 → s'.usartCurrentBuffer = 1 - s.usartCurrentBuffer) := by
  have hsize : flushSize b s.US_RCR = b.DATABUFFERSIZE - s.US_RCR :=
    flushSize_eq b s.US_RCR (by omega) (by omega)
  have hne : flushSize b s.US_RCR ≠ 0 := by omega
  obtain ⟨s', h1, h2, h3, -, -⟩ := ISR_Timer0_handOff b s busy rest hflag hne hbusy hw
  rw [hsize] at h2
  exact ⟨s', h1, h2, h3, fun hc => by rw [h3]; exact toggled_eq _ hc⟩

/-- C2 at the scenario of the spec: capacity 64, 37 bytes received, then a pause; the write
is accepted at once. -/
theorem C2_timer_partial_flush_witness :
    pause37.US_RCR = 27 ∧
    ∃ s', ISR_Timer0 at91sam7s_ek pause37 = some s' ∧
      s'.trace = pause37.trace ++
        [Effect.US_RCR 0, Effect.CDCDSerialDriver_Write 0 37 (List.range' 1 37) 0,
          Effect.USART_ReadBuffer 0 64, Effect.usartCurrentBuffer 1, Effect.TC_CCR 5] ∧
      s'.usartCurrentBuffer = 1 := by
  refine ⟨by decide, ?_⟩
  obtain ⟨s', h1, h2, h3, -⟩ := C2_timer_partial_flush at91sam7s_ek pause37 [] []
    (by decide) (by decide) (by decide) (by decide) (by decide) (by decide)
  exact ⟨s', h1, by rw [h2]; decide, by rw [h3]; decide⟩

/-- C3: with the remaining count equal to the capacity (zero bytes pending) `ISR_Timer0`
returns a state that differs from the one it started in by the trace only: the single store
restarting the timer when the compare flag is set, nothing otherwise.  No write call, no
re-arm, no store to `US_RCR`, `usartCurrentBuffer` unchanged. -/
theorem C3_timer_zero_pending (b : Board) (s : State)
    (hr : s.US_RCR = b.DATABUFFERSIZE) :
    ISR_Timer0 b s =
      some (s.emit (if s.TC_SR &&& b.AT91C_TC_CPCS ≠ 0 then
        [Effect.TC_CCR (b.AT91C_TC_CLKEN ||| b.AT91C_TC_SWTRG)] else [])) := by
  have hsize : flushSize b s.US_RCR = 0 := by
    unfold flushSize
    rw [hr]
    simp
  unfold ISR_Timer0
  by_cases hflag : s.TC_SR &&& b.AT91C_TC_CPCS = 0
  · simp [hflag, State.emit]
  · simp [hflag, hsize]

/-- C3 at a concrete state: reception started, no byte received, the timer fires. -/
theorem C3_timer_zero_pending_witness :
    ISR_Timer0 at91sam7s_ek { started at91sam7s_ek 0 with TC_SR := 16 } =
      some (State.emit { started at91sam7s_ek 0 with TC_SR := 16 } [Effect.TC_CCR 5]) :=
  C3_timer_zero_pending at91sam7s_ek { started at91sam7s_ek 0 with TC_SR := 16 } (by decide)

/-- C4: with the link configured and ENDRX set in the status word, `ISR_Usart0` performs, in
this order: the store disabling the timer clock; the calls of `CDCDSerialDriver_Write` on
the current slot, each with length `DATABUFFERSIZE`, until one is accepted; the re-arm of
reception on that slot with capacity `DATABUFFERSIZE`; one switch of `usartCurrentBuffer`;
the store restarting the timer.  What follows (`tail`) holds none of these actions.  The
value of `US_RCR` is not used. -/
theorem C4_usart_receive_complete (b : Board) (s : State) (busy rest : List Nat)
    (hcfg : s.deviceState = b.USBD_STATE_CONFIGURED)
    (hflag : s.US_CSR &&& b.AT91C_US_ENDRX ≠ 0)
    (hbusy : ∀ r ∈ busy, r ≠ b.USBD_STATUS_SUCCESS)
    (hw : s.writeStatus = busy ++ b.USBD_STATUS_SUCCESS :: rest) :
    ∃ s' tail, ISR_Usart0 b s = some s' ∧
      s'.trace = s.trace ++ [Effect.TC_CCR b.AT91C_TC_CLKDIS] ++
        busy.map (Effect.CDCDSerialDriver_Write s.usartCurrentBuffer b.DATABUFFERSIZE
          (slotData b s s.usartCurrentBuffer b.DATABUFFERSIZE)) ++
        [Effect.CDCDSerialDriver_Write s.usartCurrentBuffer b.DATABUFFERSIZE
            (slotData b s s.usartCurrentBuffer b.DATABUFFERSIZE) b.USBD_STATUS_SUCCESS,
          Effect.USART_ReadBuffer s.usartCurrentBuffer b.DATABUFFERSIZE,
          Effect.usartCurrentBuffer (toggled s.usartCurrentBuffer),
          Effect.TC_CCR (b.AT91C_TC_CLKEN ||| b.AT91C_TC_SWTRG)] ++ tail ∧
      (∀ e ∈ tail, (∀ v, e ≠ Effect.TC_CCR v) ∧ (∀ v, e ≠ Effect.US_RCR v) ∧
        (∀ slot size data st, e ≠ Effect.CDCDSerialDriver_Write slot size data st) ∧
        (∀ slot size, e ≠ Effect.USART_ReadBuffer slot size) ∧
        (∀ v, e ≠ Effect.usartCurrentBuffer v)) ∧
      s'.usartCurrentBuffer = toggled s.usartCurrentBuffer ∧
      (s.usartCurrentBuffer ≤ 1 → s'.usartCurrentBuffer = 1 - s.usartCurrentBuffer) := by
  obtain ⟨s', tail, h1, h2, h3, h4, h5, -⟩ := ISR_Usart0_handOff b s busy rest hcfg hflag hbusy hw
  exact ⟨s', tail, h1, h2, h3, h4, h5⟩

set_option maxRecDepth 100000 in
/-- C4 at the scenario of the spec: capacity 64, 64 bytes received without pause; the write
is refused twice before it is accepted. -/
theorem C4_usart_receive_complete_witness :
    ∃ s' tail, ISR_Usart0 at91sam7s_ek full64 = some s' ∧
      s'.trace = full64.trace ++
        [Effect.TC_CCR 2,
          Effect.CDCDSerialDriver_Write 0 64 (List.range' 1 64) 1,
          Effect.CDCDSerialDriver_Write 0 64 (List.range' 1 64) 1,
          Effect.CDCDSerialDriver_Write 0 64 (List.range' 1 64) 0,
          Effect.USART_ReadBuffer 0 64, Effect.usartCurrentBuffer 1, Effect.TC_CCR 5] ++
        tail ∧
      s'.usartCurrentBuffer = 1 := by
  obtain ⟨s', tail, h1, h2, -, h4, -⟩ := C4_usart_receive_complete at91sam7s_ek full64 [1, 1] []
    (by decide) (by decide) (by decide) (by decide)
  exact ⟨s', tail, h1, by rw [h2]; exact congrArg (fun l => l ++ tail) (by decide),
    by rw [h4]; decide⟩

/-- C5, as amended.  (1) After every run of the setup, whatever bytes arrive, between the
handlers or inside them, and whichever way the two handlers are interleaved, the slots of
the accepted `CDCDSerialDriver_Write` calls are 0, 1, 0, 1, ... in call order: the first is
slot 0 and each next one is `1 -` the previous one.  (2) When the setup found no reception
armed, then in every state so reached a hand-off by `ISR_Usart0` (link configured, ENDRX
set) and a hand-off by `ISR_Timer0` (non-zero flush size, after its store `US_RCR = 0`)
call `CDCDSerialDriver_Write` while the hardware is not receiving into the slot handed
off. -/
theorem C5_slots_alternate (b : Board) (s0 s : State) (evs : List Event)
    (hrun : run b (main_startReceiving b s0) evs = some s) :
    (∃ new, s.trace = (main_startReceiving b s0).trace ++ new ∧
      (∀ i, i < (handedSlots b new).length → (handedSlots b new)[i]? = some (i % 2)) ∧
      (∀ i x y, (handedSlots b new)[i]? = some x → (handedSlots b new)[i + 1]? = some y →
        y = 1 - x)) ∧
    (0 < b.DATABUFFERSIZE → s0.US_RCR = 0 → s0.US_RNCR = 0 →
      (∀ during, s.deviceState = b.USBD_STATE_CONFIGURED →
        s.US_CSR &&& b.AT91C_US_ENDRX ≠ 0 →
        receivingInto b (pdcReceiveAll b s during) s.usartCurrentBuffer = false) ∧
      (∀ mid during, flushSize b s.US_RCR ≠ 0 →
        receivingInto b
          (pdcReceiveAll b (pdcReload { pdcReceiveAll b s mid with US_RCR := 0 }) during)
          s.usartCurrentBuffer = false)) := by
  constructor
  · have hcur := main_startReceiving_index b s0
    obtain ⟨-, new, ht, hch⟩ := run_alternates b evs _ s (by omega) hrun
    rw [hcur] at hch
    have halt : ∀ i, i < (handedSlots b new).length →
        (handedSlots b new)[i]? = some (i % 2) := by
      intro i hi
      rw [chain_alternates _ 1 (by omega) hch i hi]
      congr 1
      omega
    refine ⟨new, ht, halt, ?_⟩
    intro i x y hx hy
    have hi1 : i + 1 < (handedSlots b new).length := by
      by_contra hcon
      rw [List.getElem?_eq_none (by omega)] at hy
      cases hy
    rw [halt i (by omega)] at hx
    rw [halt (i + 1) hi1] at hy
    cases hx
    cases hy
    omega
  · intro hC h0 h1
    obtain ⟨hT, hcur, -, -, -⟩ := pdcInv_start b s0 hC h0 h1
    have hstart : PdcInv b (main_startReceiving b s0) := ⟨by omega, Or.inl hT⟩
    have hinv := run_pdcInv b hC evs _ s hstart hrun
    constructor
    · intro during _ hflag
      have hA : Ahead b s ∨ Idle s := by
        rcases hinv.2 with hT | hA | hI
        · exact absurd hT.1 hflag
        · exact Or.inl hA
        · exact Or.inr hI
      have := not_receiving b (pdcReceiveAll b s during)
        (by rw [(pdcReceiveAll_frame b during s).2.1]; exact hinv.1)
        (aheadIdle_receiveAll b during s hA)
      rw [(pdcReceiveAll_frame b during s).2.1] at this
      exact this
    · intro mid during _
      have hinv1 := pdcInv_receiveAll b mid s hinv
      have hc1 := (pdcReceiveAll_frame b mid s).2.1
      have hc2 := (stop_frame (pdcReceiveAll b s mid)).2.1
      have hc3 := (pdcReceiveAll_frame b during
        (pdcReload { pdcReceiveAll b s mid with US_RCR := 0 })).2.1
      have := not_receiving b
        (pdcReceiveAll b (pdcReload { pdcReceiveAll b s mid with US_RCR := 0 }) during)
        (by rw [hc3, hc2, hc1]; exact hinv.1)
        (aheadIdle_receiveAll b during _ (ahead_after_stop b _ hC hinv1))
      rw [hc3, hc2, hc1] at this
      exact this

set_option maxRecDepth 100000 in
/-- C5 as amended, on a concrete run after the first setup: three partial flushes hand off
the slots 0, 1, 0. -/
theorem C5_slots_alternate_witness :
    ∃ s new, run at91sam7s_ek (started at91sam7s_ek 3)
        [Event.rx 1, Event.timer [] [], Event.rx 2, Event.usart [], Event.timer [] [],
          Event.rx 3, Event.timer [] []] = some s ∧
      s.trace = (started at91sam7s_ek 3).trace ++ new ∧
      handedSlots at91sam7s_ek new = [0, 1, 0] ∧
      (∀ i, i < (handedSlots at91sam7s_ek new).length →
        (handedSlots at91sam7s_ek new)[i]? = some (i % 2)) := by
  have hrun : run at91sam7s_ek (started at91sam7s_ek 3)
      [Event.rx 1, Event.timer [] [], Event.rx 2, Event.usart [], Event.timer [] [],
        Event.rx 3, Event.timer [] []] =
      some ((run at91sam7s_ek (started at91sam7s_ek 3)
        [Event.rx 1, Event.timer [] [], Event.rx 2, Event.usart [], Event.timer [] [],
          Event.rx 3, Event.timer [] []]).getD (boot at91sam7s_ek)) := by decide
  obtain ⟨⟨new, h1, h2, -⟩, -⟩ := C5_slots_alternate at91sam7s_ek
    { boot at91sam7s_ek with deviceState := at91sam7s_ek.USBD_STATE_CONFIGURED
                             writeStatus := List.replicate 3 at91sam7s_ek.USBD_STATUS_SUCCESS }
    _ _ hrun
  refine ⟨_, new, hrun, h1, ?_, h2⟩
  have h3 : new = List.drop (started at91sam7s_ek 3).trace.length
      ((run at91sam7s_ek (started at91sam7s_ek 3)
        [Event.rx 1, Event.timer [] [], Event.rx 2, Event.usart [], Event.timer [] [],
          Event.rx 3, Event.timer [] []]).getD (boot at91sam7s_ek)).trace := by
    rw [h1]
    simp [started]
  rw [h3]
  decide

set_option maxRecDepth 100000 in
/-- C5 as stated fails after a second run of the setup.  In `secondSetup` both
`USART_ReadBuffer` calls of the setup are refused, because both receptions are still armed,
and the index is back at 0 while the hardware fills slot 1.  After one more byte a timer
fire stores `US_RCR = 0`, the hardware moves on to slot 0, and the handler hands off slot 0,
with the byte 1 it already handed off before, while the hardware is receiving into it. -/
theorem C5_slots_alternate_counterexample :
    secondSetup.trace.drop afterFlush.trace.length =
      [Effect.usartCurrentBuffer 0, Effect.USART_ReadBuffer 0 64, Effect.USART_ReadBuffer 1 64,
        Effect.US_IER 104, Effect.TC_CCR 5, Effect.CDCDSerialDriver_Read 64] ∧
    ∃ s s', run at91sam7s_ek secondSetup [Event.rx 2] = some s ∧
      flushSize at91sam7s_ek s.US_RCR ≠ 0 ∧
      receivingInto at91sam7s_ek (pdcReload { s with US_RCR := 0 }) s.usartCurrentBuffer =
        true ∧
      run at91sam7s_ek secondSetup [Event.rx 2, Event.timer [] []] = some s' ∧
      s'.trace.drop secondSetup.trace.length =
        [Effect.US_RCR 0, Effect.CDCDSerialDriver_Write 0 1 [1] 0,
          Effect.USART_ReadBuffer 0 64, Effect.usartCurrentBuffer 1, Effect.TC_CCR 5] := by
  refine ⟨by decide, (run at91sam7s_ek secondSetup [Event.rx 2]).getD (boot at91sam7s_ek),
    (run at91sam7s_ek secondSetup [Event.rx 2, Event.timer [] []]).getD (boot at91sam7s_ek),
    by decide, by decide, by decide, by decide, by decide⟩

/-- C6: in every reachable state `usartCurrentBuffer` is 0 or 1.  A run of `ISR_Timer0` or
of `ISR_Usart0` from such a state either hands no buffer to `CDCDSerialDriver_Write` and
leaves the index as it was, or hands exactly the current slot once and leaves the index at
`1 - usartCurrentBuffer`, a different value.  The suspend and resume callbacks,
`UsbDataReceived`, `ISR_Timer0` with zero bytes pending and `ISR_Usart0` without the
receive-complete flag leave the index unchanged. -/
theorem C6_current_buffer_index (b : Board) (s : State) (hr : Reachable b s) :
    (s.usartCurrentBuffer = 0 ∨ s.usartCurrentBuffer = 1) ∧
    (∀ s', ISR_Timer0 b s = some s' → ∃ new, s'.trace = s.trace ++ new ∧
      ((handedSlots b new = [] ∧ s'.usartCurrentBuffer = s.usartCurrentBuffer) ∨
        (handedSlots b new = [s.usartCurrentBuffer] ∧
          s'.usartCurrentBuffer = 1 - s.usartCurrentBuffer ∧
          s'.usartCurrentBuffer ≠ s.usartCurrentBuffer))) ∧
    (∀ s', ISR_Usart0 b s = some s' → ∃ new, s'.trace = s.trace ++ new ∧
      ((handedSlots b new = [] ∧ s'.usartCurrentBuffer = s.usartCurrentBuffer) ∨
        (handedSlots b new = [s.usartCurrentBuffer] ∧
          s'.usartCurrentBuffer = 1 - s.usartCurrentBuffer ∧
          s'.usartCurrentBuffer ≠ s.usartCurrentBuffer))) ∧
    (USBDCallbacks_Suspended b s).usartCurrentBuffer = s.usartCurrentBuffer ∧
    (USBDCallbacks_Resumed b s).usartCurrentBuffer = s.usartCurrentBuffer ∧
    (∀ status received remaining s',
      UsbDataReceived b s status received remaining = some s' →
      s'.usartCurrentBuffer = s.usartCurrentBuffer) ∧
    (∀ s', s.US_RCR = b.DATABUFFERSIZE → ISR_Timer0 b s = some s' →
      s'.usartCurrentBuffer = s.usartCurrentBuffer) ∧
    (∀ s', s.US_CSR &&& b.AT91C_US_ENDRX = 0 → ISR_Usart0 b s = some s' →
      s'.usartCurrentBuffer = s.usartCurrentBuffer) := by
  have hle := reachable_index b s hr
  refine ⟨by omega, fun s' h => ?_, fun s' h => ?_, rfl, rfl,
    fun status received remaining s' h => UsbDataReceived_index b s s' status received remaining h,
    fun s' h0 h => ?_, fun s' h0 h => ?_⟩
  · obtain ⟨new, hn, ⟨h1, hc, -⟩ | ⟨h1, hc, -, -⟩⟩ := timer_cases b s s' h
    · exact ⟨new, hn, Or.inl ⟨h1, hc⟩⟩
    · rw [toggled_eq _ hle] at hc
      exact ⟨new, hn, Or.inr ⟨h1, hc, by omega⟩⟩
  · obtain ⟨new, hn, ⟨h1, hc, -⟩ | ⟨h1, hc, -, -⟩⟩ := usart_cases b s s' h
    · exact ⟨new, hn, Or.inl ⟨h1, hc⟩⟩
    · rw [toggled_eq _ hle] at hc
      exact ⟨new, hn, Or.inr ⟨h1, hc, by omega⟩⟩
  · obtain ⟨new, -, ⟨-, hc, -⟩ | ⟨-, -, -, hsz⟩⟩ := timer_cases b s s' h
    · exact hc
    · exfalso
      apply hsz
      unfold flushSize
      rw [h0]
      simp
  · obtain ⟨new, -, ⟨-, hc, -⟩ | ⟨-, -, -, hf⟩⟩ := usart_cases b s s' h
    · exact hc
    · exact absurd h0 hf

/-- C6 at the state reached from the scenario state (37 bytes pending) by the timer
handler, and at the state the suspend callback leaves behind. -/
theorem C6_current_buffer_index_witness :
    ((ISR_Timer0 at91sam7s_ek pause37).getD pause37).usartCurrentBuffer = 0 ∨
      ((ISR_Timer0 at91sam7s_ek pause37).getD pause37).usartCurrentBuffer = 1 :=
  (C6_current_buffer_index at91sam7s_ek ((ISR_Timer0 at91sam7s_ek pause37).getD pause37)
    (Reachable.timer pause37 _ (Reachable.start pause37 (by decide)) (by decide))).1

/-- C7: when `CDCDSerialDriver_Write` refuses `busy.length` times and then accepts, a
hand-off of `ISR_Timer0` and a hand-off of `ISR_Usart0` each make `busy.length + 1` write
calls, all on the same slot with the same length and data, and only after the accepted call
re-arm reception on that slot and switch `usartCurrentBuffer`; the script of statuses is
consumed up to the accepted one.  When no call is ever accepted the handler does not return:
nothing is re-armed and the index is not switched. -/
theorem C7_retry_until_accepted (b : Board) (s : State) :
    (∀ busy rest, (∀ r ∈ busy, r ≠ b.USBD_STATUS_SUCCESS) →
      s.writeStatus = busy ++ b.USBD_STATUS_SUCCESS :: rest →
      (s.TC_SR &&& b.AT91C_TC_CPCS ≠ 0 → flushSize b s.US_RCR ≠ 0 →
        ∃ s', ISR_Timer0 b s = some s' ∧
          s'.trace = s.trace ++ [Effect.US_RCR 0] ++
            busy.map (Effect.CDCDSerialDriver_Write s.usartCurrentBuffer
              (flushSize b s.US_RCR)
              (slotData b s s.usartCurrentBuffer (flushSize b s.US_RCR))) ++
            [Effect.CDCDSerialDriver_Write s.usartCurrentBuffer (flushSize b s.US_RCR)
                (slotData b s s.usartCurrentBuffer (flushSize b s.US_RCR))
                b.USBD_STATUS_SUCCESS,
              Effect.USART_ReadBuffer s.usartCurrentBuffer b.DATABUFFERSIZE,
              Effect.usartCurrentBuffer (toggled s.usartCurrentBuffer),
              Effect.TC_CCR (b.AT91C_TC_CLKEN ||| b.AT91C_TC_SWTRG)] ∧
          s'.writeStatus = rest) ∧
      (s.deviceState = b.USBD_STATE_CONFIGURED → s.US_CSR &&& b.AT91C_US_ENDRX ≠ 0 →
        ∃ s' tail, ISR_Usart0 b s = some s' ∧
          s'.trace = s.trace ++ [Effect.TC_CCR b.AT91C_TC_CLKDIS] ++
            busy.map (Effect.CDCDSerialDriver_Write s.usartCurrentBuffer b.DATABUFFERSIZE
              (slotData b s s.usartCurrentBuffer b.DATABUFFERSIZE)) ++
            [Effect.CDCDSerialDriver_Write s.usartCurrentBuffer b.DATABUFFERSIZE
                (slotData b s s.usartCurrentBuffer b.DATABUFFERSIZE) b.USBD_STATUS_SUCCESS,
              Effect.USART_ReadBuffer s.usartCurrentBuffer b.DATABUFFERSIZE,
              Effect.usartCurrentBuffer (toggled s.usartCurrentBuffer),
              Effect.TC_CCR (b.AT91C_TC_CLKEN ||| b.AT91C_TC_SWTRG)] ++ tail ∧
          (∀ e ∈ tail,
            (∀ slot size data st, e ≠ Effect.CDCDSerialDriver_Write slot size data st) ∧
            (∀ slot size, e ≠ Effect.USART_ReadBuffer slot size) ∧
            (∀ v, e ≠ Effect.usartCurrentBuffer v)) ∧
          s'.writeStatus = rest)) ∧
    ((∀ r ∈ s.writeStatus, r ≠ b.USBD_STATUS_SUCCESS) →
      (s.TC_SR &&& b.AT91C_TC_CPCS ≠ 0 → flushSize b s.US_RCR ≠ 0 →
        ISR_Timer0 b s = none) ∧
      (s.deviceState = b.USBD_STATE_CONFIGURED → s.US_CSR &&& b.AT91C_US_ENDRX ≠ 0 →
        ISR_Usart0 b s = none)) := by
  refine ⟨fun busy rest hbusy hw => ⟨fun hflag hsize => ?_, fun hcfg hflag => ?_⟩,
    fun hnone => ⟨fun hflag hsize => ?_, fun hcfg hflag => ?_⟩⟩
  · obtain ⟨s', h1, h2, -, h4, -⟩ := ISR_Timer0_handOff b s busy rest hflag hsize hbusy hw
    exact ⟨s', h1, h2, h4⟩
  · obtain ⟨s', tail, h1, h2, h3, -, -, h6⟩ :=
      ISR_Usart0_handOff b s busy rest hcfg hflag hbusy hw
    exact ⟨s', tail, h1, h2, fun e he => ⟨(h3 e he).2.2.1, (h3 e he).2.2.2.1, (h3 e he).2.2.2.2⟩,
      h6⟩
  · have hws : (pdcReload { s with US_RCR := 0 }).writeStatus = s.writeStatus := by
      unfold pdcReload
      split <;> rfl
    unfold ISR_Timer0 handOff
    simp only [hflag, hsize, ne_eq, not_false_eq_true, if_true, if_false, State.emit, hws]
    rw [writeRetry_none b _ _ _ _ hnone]
  · unfold ISR_Usart0 ISR_Usart0_endrx handOff
    simp only [hcfg, hflag, ne_eq, not_true_eq_false, not_false_eq_true, if_true, if_false,
      State.emit]
    rw [writeRetry_none b _ _ _ _ hnone]

set_option maxRecDepth 100000 in
/-- C7 at concrete states: two refusals then acceptance give three identical write calls
before the re-arm and the switch; with refusals only the handler does not return. -/
theorem C7_retry_until_accepted_witness :
    (∃ s' tail, ISR_Usart0 at91sam7s_ek full64 = some s' ∧
      s'.trace = full64.trace ++
        [Effect.TC_CCR 2,
          Effect.CDCDSerialDriver_Write 0 64 (List.range' 1 64) 1,
          Effect.CDCDSerialDriver_Write 0 64 (List.range' 1 64) 1,
          Effect.CDCDSerialDriver_Write 0 64 (List.range' 1 64) 0,
          Effect.USART_ReadBuffer 0 64, Effect.usartCurrentBuffer 1, Effect.TC_CCR 5] ++
        tail ∧
      s'.writeStatus = []) ∧
    ISR_Timer0 at91sam7s_ek { pause37 with writeStatus := [1, 1] } = none := by
  constructor
  · obtain ⟨s', tail, h1, h2, -, h4⟩ :=
      ((C7_retry_until_accepted at91sam7s_ek full64).1 [1, 1] [] (by decide) (by decide)).2
        (by decide) (by decide)
    exact ⟨s', tail, h1, by rw [h2]; exact congrArg (fun l => l ++ tail) (by decide), h4⟩
  · exact ((C7_retry_until_accepted at91sam7s_ek { pause37 with writeStatus := [1, 1] }).2
      (by decide)).1 (by decide) (by decide)

/-- C8: with the link configured (and the receive-complete block returning), `ISR_Usart0`
ends with exactly one `CDCDSerialDriver_SetSerialState` call, whose argument is the prior
serial state OR-ed with the OVERRUN bit when the overrun flag is set in the status word and
with the FRAMING bit when the framing flag is set: a bit of the prior state stays set, and
with neither flag the prior state is written back. -/
theorem C8_serial_state_errors (b : Board) (s : State)
    (hcfg : s.deviceState = b.USBD_STATE_CONFIGURED)
    (hterm : s.US_CSR &&& b.AT91C_US_ENDRX = 0 ∨ b.USBD_STATUS_SUCCESS ∈ s.writeStatus)
    (hs : s.serialState < 65536)
    (ho : b.CDCDSerialDriver_STATE_OVERRUN < 65536)
    (hf : b.CDCDSerialDriver_STATE_FRAMING < 65536) :
    ∃ s' pre, ISR_Usart0 b s = some s' ∧
      s'.trace = s.trace ++ pre ++ [Effect.CDCDSerialDriver_SetSerialState s'.serialState] ∧
      (∀ e ∈ pre, ∀ v, e ≠ Effect.CDCDSerialDriver_SetSerialState v) ∧
      s'.serialState =
        s.serialState |||
          (if s.US_CSR &&& b.AT91C_US_OVER ≠ 0 then b.CDCDSerialDriver_STATE_OVERRUN else 0) |||
          (if s.US_CSR &&& b.AT91C_US_FRAME ≠ 0 then b.CDCDSerialDriver_STATE_FRAMING else 0) ∧
      (∀ i, s.serialState.testBit i = true → s'.serialState.testBit i = true) ∧
      (s.US_CSR &&& b.AT91C_US_OVER = 0 → s.US_CSR &&& b.AT91C_US_FRAME = 0 →
        s'.serialState = s.serialState) := by
  obtain ⟨s1, pre, h1, ht, hss, -, hpre⟩ := endrx_run b s hterm
  obtain ⟨t1, t2, -, -, -⟩ := usart_tail b s.US_CSR s1
  have hval : (ISR_Usart0_errors b s.US_CSR (ISR_Usart0_txbufe b s.US_CSR s1)).serialState =
      s.serialState |||
        (if s.US_CSR &&& b.AT91C_US_OVER ≠ 0 then b.CDCDSerialDriver_STATE_OVERRUN else 0) |||
        (if s.US_CSR &&& b.AT91C_US_FRAME ≠ 0 then b.CDCDSerialDriver_STATE_FRAMING else 0) := by
    rw [t2, hss]
    have h0 : s.serialState % 65536 = s.serialState := Nat.mod_eq_of_lt hs
    have h1 : (s.serialState ||| b.CDCDSerialDriver_STATE_OVERRUN) % 65536 =
        s.serialState ||| b.CDCDSerialDriver_STATE_OVERRUN :=
      Nat.mod_eq_of_lt (lor_lt_65536 _ _ hs ho)
    have h2 : (s.serialState ||| b.CDCDSerialDriver_STATE_FRAMING) % 65536 =
        s.serialState ||| b.CDCDSerialDriver_STATE_FRAMING :=
      Nat.mod_eq_of_lt (lor_lt_65536 _ _ hs hf)
    have h3 : (s.serialState ||| b.CDCDSerialDriver_STATE_OVERRUN |||
        b.CDCDSerialDriver_STATE_FRAMING) % 65536 =
        s.serialState ||| b.CDCDSerialDriver_STATE_OVERRUN |||
          b.CDCDSerialDriver_STATE_FRAMING :=
      Nat.mod_eq_of_lt (lor_lt_65536 _ _ (lor_lt_65536 _ _ hs ho) hf)
    by_cases c1 : s.US_CSR &&& b.AT91C_US_OVER = 0 <;>
      by_cases c2 : s.US_CSR &&& b.AT91C_US_FRAME = 0 <;>
      simp [c1, c2, h0, h1, h2, h3]
  refine ⟨ISR_Usart0_errors b s.US_CSR (ISR_Usart0_txbufe b s.US_CSR s1),
    pre ++
      (if s.US_CSR &&& b.AT91C_US_TXBUFE ≠ 0 then
        [Effect.CDCDSerialDriver_Read b.DATABUFFERSIZE, Effect.US_IDR b.AT91C_US_TXBUFE]
       else []) ++
      (if s.US_CSR &&& b.AT91C_US_OVER ≠ 0 then [Effect.TRACE_WARNING Warning.overrun]
       else []) ++
      (if s.US_CSR &&& b.AT91C_US_FRAME ≠ 0 then [Effect.TRACE_WARNING Warning.framingError]
       else []), ?_, ?_, ?_, hval, ?_, ?_⟩
  · unfold ISR_Usart0
    simp only [hcfg, ne_eq, not_true_eq_false, if_false, h1]
  · rw [t1, ht]
    simp only [List.append_assoc]
  · intro e he
    simp only [List.mem_append] at he
    rcases he with ((he | he) | he) | he
    · exact (hpre e he).2.2.1
    · split at he <;> simp at he
      rcases he with rfl | rfl <;> simp
    · split at he <;> simp at he
      subst he
      simp
    · split at he <;> simp at he
      subst he
      simp
  · intro i hi
    rw [hval]
    simp [Nat.testBit_or, hi]
  · intro c1 c2
    rw [hval]
    simp [c1, c2]

/-- C8 at a concrete state: prior serial state 1, overrun and framing flags both set. -/
theorem C8_serial_state_errors_witness :
    ∃ s' pre, ISR_Usart0 at91sam7s_ek
        { started at91sam7s_ek 0 with US_CSR := 96, serialState := 1 } = some s' ∧
      s'.trace = (started at91sam7s_ek 0).trace ++ pre ++
        [Effect.CDCDSerialDriver_SetSerialState 81] ∧
      s'.serialState = 81 := by
  obtain ⟨s', pre, h1, h2, -, h4, -, -⟩ := C8_serial_state_errors at91sam7s_ek
    { started at91sam7s_ek 0 with US_CSR := 96, serialState := 1 }
    (by decide) (by decide) (by decide) (by decide) (by decide)
  have h5 : s'.serialState = 81 := by rw [h4]; decide
  exact ⟨s', pre, h1, by rw [h2, h5], h5⟩

/-- C9: `UsbDataReceived` writes `usbBuffer` to the UART and enables the
transmit-buffer-empty interrupt exactly when `status` is `USBD_STATUS_SUCCESS`.  On success
it calls `USART_WriteBuffer` with exactly `received` bytes until the call is accepted, then
stores TXBUFE to `US_IER`, and when `received = DATABUFFERSIZE` and `remaining > 0` only adds
a warning; if the UART never accepts it does not return.  On any other status it only
emits a warning.  In no case is `CDCDSerialDriver_Read` called. -/
theorem C9_usb_data_received (b : Board) (s : State) (status received remaining : Nat) :
    (status = b.USBD_STATUS_SUCCESS →
      (∀ busy r rest, (∀ x ∈ busy, x = 0) → r ≠ 0 → s.usartWriteStatus = busy ++ r :: rest →
        ∃ s', UsbDataReceived b s status received remaining = some s' ∧
          s'.trace = s.trace ++
            busy.map (Effect.USART_WriteBuffer received (s.usbBuffer.take received)) ++
            [Effect.USART_WriteBuffer received (s.usbBuffer.take received) r,
              Effect.US_IER b.AT91C_US_TXBUFE] ++
            (if received = b.DATABUFFERSIZE ∧ remaining > 0 then
              [Effect.TRACE_WARNING (Warning.bytesDiscarded remaining)] else []) ∧
          s'.US_IMR = s.US_IMR ||| b.AT91C_US_TXBUFE ∧
          s'.usartWriteStatus = rest) ∧
      ((∀ x ∈ s.usartWriteStatus, x = 0) →
        UsbDataReceived b s status received remaining = none)) ∧
    (status ≠ b.USBD_STATUS_SUCCESS →
      UsbDataReceived b s status received remaining =
        some (s.emit [Effect.TRACE_WARNING Warning.transferError])) ∧
    (∀ s', UsbDataReceived b s status received remaining = some s' →
      ∃ new, s'.trace = s.trace ++ new ∧
        (∀ n, Effect.CDCDSerialDriver_Read n ∉ new) ∧
        ((∃ size data r, r ≠ 0 ∧ Effect.USART_WriteBuffer size data r ∈ new) ↔
          status = b.USBD_STATUS_SUCCESS) ∧
        ((∃ v, Effect.US_IER v ∈ new) ↔ status = b.USBD_STATUS_SUCCESS)) := by
  refine ⟨fun hst => ⟨fun busy r rest hbusy hr hw => ?_, fun hnone => ?_⟩, fun hst => ?_,
    fun s' hs' => ?_⟩
  · have h := usartWriteRetry_accept received (s.usbBuffer.take received) busy r rest hbusy hr
    unfold UsbDataReceived
    rw [hw, h]
    by_cases hd : received = b.DATABUFFERSIZE ∧ remaining > 0
    · simp [hst, hd, State.emit]
    · simp [hst, hd, State.emit]
  · unfold UsbDataReceived
    rw [usartWriteRetry_none _ _ _ hnone]
    simp [hst]
  · unfold UsbDataReceived
    simp [hst]
  · by_cases hst : status = b.USBD_STATUS_SUCCESS
    · rcases first_nonzero s.usartWriteStatus with hnone | ⟨busy, r, rest, hbusy, hr, hw⟩
      · unfold UsbDataReceived at hs'
        rw [usartWriteRetry_none _ _ _ hnone] at hs'
        simp [hst] at hs'
      · have h := usartWriteRetry_accept received (s.usbBuffer.take received) busy r rest
          hbusy hr
        unfold UsbDataReceived at hs'
        rw [hw, h] at hs'
        simp only [hst, if_true] at hs'
        refine ⟨busy.map (Effect.USART_WriteBuffer received (s.usbBuffer.take received)) ++
            [Effect.USART_WriteBuffer received (s.usbBuffer.take received) r,
              Effect.US_IER b.AT91C_US_TXBUFE] ++
            (if received = b.DATABUFFERSIZE ∧ remaining > 0 then
              [Effect.TRACE_WARNING (Warning.bytesDiscarded remaining)] else []), ?_, ?_, ?_, ?_⟩
        · by_cases hd : received = b.DATABUFFERSIZE ∧ remaining > 0
          · simp [hd, State.emit] at hs'
            subst hs'
            simp [hd]
          · simp [hd, State.emit] at hs'
            subst hs'
            simp [hd]
        · intro n hn
          simp only [List.mem_append, List.mem_map, List.mem_cons, List.mem_singleton,
            List.not_mem_nil, or_false] at hn
          rcases hn with (⟨x, -, hx⟩ | hn | hn) | hn
          · cases hx
          · cases hn
          · cases hn
          · split at hn <;> simp at hn
        · simp only [hst, iff_true]
          exact ⟨received, s.usbBuffer.take received, r, hr, by simp⟩
        · simp only [hst, iff_true]
          exact ⟨b.AT91C_US_TXBUFE, by simp⟩
    · unfold UsbDataReceived at hs'
      simp [hst] at hs'
      subst hs'
      refine ⟨[Effect.TRACE_WARNING Warning.transferError], rfl, ?_, ?_, ?_⟩
      · simp
      · simp [hst]
      · simp [hst]

/-- C9 at concrete inputs: a full packet of 64 bytes with 3 more remaining, the UART busy
once; and a failed transfer. -/
theorem C9_usb_data_received_witness :
    (∃ s', UsbDataReceived at91sam7s_ek
        { started at91sam7s_ek 0 with usartWriteStatus := [0, 1] } 0 64 3 = some s' ∧
      s'.trace = (started at91sam7s_ek 0).trace ++
        [Effect.USART_WriteBuffer 64 (List.replicate 64 0) 0,
          Effect.USART_WriteBuffer 64 (List.replicate 64 0) 1,
          Effect.US_IER 2048,
          Effect.TRACE_WARNING (Warning.bytesDiscarded 3)]) ∧
    UsbDataReceived at91sam7s_ek (started at91sam7s_ek 0) 1 0 0 =
      some ((started at91sam7s_ek 0).emit [Effect.TRACE_WARNING Warning.transferError]) := by
  constructor
  · obtain ⟨s', h1, h2, -, -⟩ :=
      ((C9_usb_data_received at91sam7s_ek
        { started at91sam7s_ek 0 with usartWriteStatus := [0, 1] } 0 64 3).1 (by decide)).1
        [0] 1 [] (by decide) (by decide) (by decide)
    exact ⟨s', h1, by rw [h2]; decide⟩
  · exact (C9_usb_data_received at91sam7s_ek (started at91sam7s_ek 0) 1 0 0).2.1 (by decide)

/-- C10: with the link configured (and the receive-complete block returning), `ISR_Usart0`
run on a status word with TXBUFE set calls `CDCDSerialDriver_Read` exactly once, on
`usbBuffer` with capacity `DATABUFFERSIZE` and callback `UsbDataReceived`, and right after
it stores exactly the TXBUFE mask to `US_IDR`, so that only that interrupt source is cleared
in the mask; with TXBUFE clear it makes no `CDCDSerialDriver_Read` call and no store to
`US_IDR`, and the mask is unchanged. -/
theorem C10_usart_transmit_empty (b : Board) (s : State)
    (hcfg : s.deviceState = b.USBD_STATE_CONFIGURED)
    (hterm : s.US_CSR &&& b.AT91C_US_ENDRX = 0 ∨ b.USBD_STATUS_SUCCESS ∈ s.writeStatus) :
    ∃ s' pre post, ISR_Usart0 b s = some s' ∧
      s'.trace = s.trace ++ pre ++
        (if s.US_CSR &&& b.AT91C_US_TXBUFE ≠ 0 then
          [Effect.CDCDSerialDriver_Read b.DATABUFFERSIZE, Effect.US_IDR b.AT91C_US_TXBUFE]
         else []) ++ post ∧
      (∀ e ∈ pre ++ post, (∀ n, e ≠ Effect.CDCDSerialDriver_Read n) ∧
        (∀ v, e ≠ Effect.US_IDR v)) ∧
      s'.US_IMR = (if s.US_CSR &&& b.AT91C_US_TXBUFE ≠ 0 then
        clearBits s.US_IMR b.AT91C_US_TXBUFE else s.US_IMR) ∧
      (∀ i, s'.US_IMR.testBit i = (s.US_IMR.testBit i &&
        !(decide (s.US_CSR &&& b.AT91C_US_TXBUFE ≠ 0) && b.AT91C_US_TXBUFE.testBit i))) := by
  obtain ⟨s1, pre, h1, ht, -, himr, hpre⟩ := endrx_run b s hterm
  obtain ⟨t1, -, -, t4, -⟩ := usart_tail b s.US_CSR s1
  have hm : (ISR_Usart0_errors b s.US_CSR (ISR_Usart0_txbufe b s.US_CSR s1)).US_IMR =
      (if s.US_CSR &&& b.AT91C_US_TXBUFE ≠ 0 then
        clearBits s.US_IMR b.AT91C_US_TXBUFE else s.US_IMR) := by
    rw [t4, himr]
  refine ⟨ISR_Usart0_errors b s.US_CSR (ISR_Usart0_txbufe b s.US_CSR s1), pre,
    (if s.US_CSR &&& b.AT91C_US_OVER ≠ 0 then [Effect.TRACE_WARNING Warning.overrun]
       else []) ++
      (if s.US_CSR &&& b.AT91C_US_FRAME ≠ 0 then [Effect.TRACE_WARNING Warning.framingError]
       else []) ++
      [Effect.CDCDSerialDriver_SetSerialState
        (ISR_Usart0_errors b s.US_CSR (ISR_Usart0_txbufe b s.US_CSR s1)).serialState],
    ?_, ?_, ?_, hm, ?_⟩
  · unfold ISR_Usart0
    simp only [hcfg, ne_eq, not_true_eq_false, if_false, h1]
  · rw [t1, ht]
    simp only [List.append_assoc]
  · intro e he
    simp only [List.mem_append, List.mem_singleton] at he
    rcases he with he | (he | he) | he
    · exact ⟨(hpre e he).1, (hpre e he).2.1⟩
    · split at he <;> simp at he
      subst he
      simp
    · split at he <;> simp at he
      subst he
      simp
    · subst he
      simp
  · intro i
    rw [hm]
    by_cases c : s.US_CSR &&& b.AT91C_US_TXBUFE = 0
    · simp [c]
    · simp [c, clearBits_testBit]

/-- C10 at a concrete state: reception started, status word with only TXBUFE set. -/
theorem C10_usart_transmit_empty_witness :
    ∃ s' pre post, ISR_Usart0 at91sam7s_ek { started at91sam7s_ek 0 with US_CSR := 2048 } =
        some s' ∧
      s'.trace = (started at91sam7s_ek 0).trace ++ pre ++
        [Effect.CDCDSerialDriver_Read 64, Effect.US_IDR 2048] ++ post ∧
      s'.US_IMR = 104 := by
  obtain ⟨s', pre, post, h1, h2, -, h4, -⟩ := C10_usart_transmit_empty at91sam7s_ek
    { started at91sam7s_ek 0 with US_CSR := 2048 } (by decide) (by decide)
  exact ⟨s', pre, post, h1, by rw [h2]; rfl, by rw [h4]; decide⟩

/-- C11: whatever `USBState` was before, after a non-empty sequence of suspend / resume
notifications it holds only the last one (`STATE_SUSPEND` or `STATE_RESUME`).  The power part
of the next driver-loop iteration then performs exactly one transition, `LowPowerMode` if the
last notification was a suspend and `NormalPowerMode` if it was a resume, and stores
`STATE_IDLE`; with `USBState` idle it does nothing.  An iteration of the driver loop has no
power action outside its power part, which runs on the request the iteration found: it ends
with `LowPowerMode` and idle for a suspend request, with `NormalPowerMode` and idle for a
resume request, and with neither when idle.  An iteration started with the link configured
is that power part alone. -/
theorem C11_power_requests (b : Board) (s : State) :
    (∀ ns, (notify b s (ns ++ [Notification.suspended])).USBState = STATE_SUSPEND ∧
      main_power (notify b s (ns ++ [Notification.suspended])) =
        ({ notify b s (ns ++ [Notification.suspended]) with USBState := STATE_IDLE }).emit
          [Effect.LowPowerMode, Effect.USBState STATE_IDLE]) ∧
    (∀ ns, (notify b s (ns ++ [Notification.resumed])).USBState = STATE_RESUME ∧
      main_power (notify b s (ns ++ [Notification.resumed])) =
        ({ notify b s (ns ++ [Notification.resumed]) with USBState := STATE_IDLE }).emit
          [Effect.NormalPowerMode, Effect.USBState STATE_IDLE]) ∧
    (s.USBState = STATE_IDLE → main_power s = s) ∧
    (∀ s', main_loop b s = some s' →
      ∃ s0 pre, s' = main_power s0 ∧ s0.USBState = s.USBState ∧ s0.trace = s.trace ++ pre ∧
        (∀ e ∈ pre, e ≠ Effect.LowPowerMode ∧ e ≠ Effect.NormalPowerMode ∧
          ∀ v, e ≠ Effect.USBState v) ∧
        (s.USBState = STATE_SUSPEND → s'.USBState = STATE_IDLE ∧
          s'.trace = s0.trace ++ [Effect.LowPowerMode, Effect.USBState STATE_IDLE]) ∧
        (s.USBState = STATE_RESUME → s'.USBState = STATE_IDLE ∧
          s'.trace = s0.trace ++ [Effect.NormalPowerMode, Effect.USBState STATE_IDLE]) ∧
        (s.USBState = STATE_IDLE → s' = s0)) ∧
    (¬ s.deviceState < b.USBD_STATE_CONFIGURED → main_loop b s = some (main_power s)) := by
  have hpower : ∀ s0 s' : State, s' = main_power s0 → s0.USBState = s.USBState →
      (s.USBState = STATE_SUSPEND → s'.USBState = STATE_IDLE ∧
        s'.trace = s0.trace ++ [Effect.LowPowerMode, Effect.USBState STATE_IDLE]) ∧
      (s.USBState = STATE_RESUME → s'.USBState = STATE_IDLE ∧
        s'.trace = s0.trace ++ [Effect.NormalPowerMode, Effect.USBState STATE_IDLE]) ∧
      (s.USBState = STATE_IDLE → s' = s0) := by
    intro s0 s' h1 h2
    refine ⟨fun h => ?_, fun h => ?_, fun h => ?_⟩
    · rw [h1, (main_power_spec s0).1 (h2.trans h)]
      exact ⟨rfl, rfl⟩
    · rw [h1, (main_power_spec s0).2.1 (h2.trans h)]
      exact ⟨rfl, rfl⟩
    · rw [h1]
      apply (main_power_spec s0).2.2 <;> rw [h2, h] <;> decide
  refine ⟨fun ns => ?_, fun ns => ?_, fun h => ?_, fun s' h => ?_, fun h => ?_⟩
  · have hu : (notify b s (ns ++ [Notification.suspended])).USBState = STATE_SUSPEND := by
      rw [notify_append]
      rfl
    exact ⟨hu, (main_power_spec _).1 hu⟩
  · have hu : (notify b s (ns ++ [Notification.resumed])).USBState = STATE_RESUME := by
      rw [notify_append]
      rfl
    exact ⟨hu, (main_power_spec _).2.1 hu⟩
  · apply (main_power_spec s).2.2 <;> rw [h] <;> decide
  · obtain ⟨s0, h1, h2, ⟨-, h3⟩ | ⟨-, h3, -, -⟩⟩ := main_loop_cases b s s' h
    · exact ⟨s0, [], h1, h2, by rw [h3]; simp, by simp, hpower s0 s' h1 h2⟩
    · refine ⟨s0, _, h1, h2, h3, ?_, hpower s0 s' h1 h2⟩
      intro e he
      simp only [List.mem_cons, List.mem_singleton, List.not_mem_nil, or_false] at he
      rcases he with rfl | rfl | rfl | rfl | rfl | rfl | rfl <;> simp
  · exact (main_loop_spec b s).1 h

/-- C11 at the scenario of the spec: a suspend notification followed by a resume
notification before the drain runs `NormalPowerMode` only. -/
theorem C11_power_requests_witness :
    main_loop at91sam7s_ek
        (notify at91sam7s_ek (started at91sam7s_ek 0)
          [Notification.suspended, Notification.resumed]) =
      some (({ notify at91sam7s_ek (started at91sam7s_ek 0)
          [Notification.suspended, Notification.resumed] with USBState := STATE_IDLE }).emit
        [Effect.NormalPowerMode, Effect.USBState STATE_IDLE]) := by
  have h := C11_power_requests at91sam7s_ek (started at91sam7s_ek 0)
  have h2 := (h.2.1 [Notification.suspended]).2
  have h5 := (C11_power_requests at91sam7s_ek
    (notify at91sam7s_ek (started at91sam7s_ek 0)
      [Notification.suspended, Notification.resumed])).2.2.2.2 (by decide)
  rw [h5]
  exact congrArg some h2

/-- C12: an iteration of the driver loop that starts with `USBD_GetState()` at least
`USBD_STATE_CONFIGURED` is its power part alone: no `USART_ReadBuffer`, no
`CDCDSerialDriver_Read`, no store to `TC_CCR`, no store to `usartCurrentBuffer`.  An
iteration that starts below returns once a poll of the wait sees the device configured, and
has then run the setup exactly once, in this order: `USBD_Connect`, `usartCurrentBuffer = 0`,
reception armed on `usartBuffers[0]` then on `usartBuffers[1]`, each with capacity
`DATABUFFERSIZE`, the receive-complete, framing and overrun interrupts enabled, the timer
started, one USB receive of capacity `DATABUFFERSIZE` armed on `usbBuffer`; the power part
follows.  If no poll ever sees the device configured the iteration does not return. -/
theorem C12_setup_once (b : Board) (s : State) :
    (¬ s.deviceState < b.USBD_STATE_CONFIGURED →
      ∃ s' pw, main_loop b s = some s' ∧ s'.trace = s.trace ++ pw ∧
        s'.usartCurrentBuffer = s.usartCurrentBuffer ∧
        ∀ e ∈ pw, (∀ slot size, e ≠ Effect.USART_ReadBuffer slot size) ∧
          (∀ n, e ≠ Effect.CDCDSerialDriver_Read n) ∧ (∀ v, e ≠ Effect.TC_CCR v) ∧
          (∀ v, e ≠ Effect.usartCurrentBuffer v) ∧ (∀ v, e ≠ Effect.US_IER v)) ∧
    (s.deviceState < b.USBD_STATE_CONFIGURED →
      (∀ skipped d polls, (∀ x ∈ skipped, x < b.USBD_STATE_CONFIGURED) →
        ¬ d < b.USBD_STATE_CONFIGURED → s.devicePolls = skipped ++ d :: polls →
        ∃ s' pw, main_loop b s = some s' ∧
          s'.trace = s.trace ++
            [Effect.USBD_Connect, Effect.usartCurrentBuffer 0,
              Effect.USART_ReadBuffer 0 b.DATABUFFERSIZE,
              Effect.USART_ReadBuffer 1 b.DATABUFFERSIZE,
              Effect.US_IER (b.AT91C_US_ENDRX ||| b.AT91C_US_FRAME ||| b.AT91C_US_OVER),
              Effect.TC_CCR (b.AT91C_TC_CLKEN ||| b.AT91C_TC_SWTRG),
              Effect.CDCDSerialDriver_Read b.DATABUFFERSIZE] ++ pw ∧
          s'.usartCurrentBuffer = 0 ∧ s'.deviceState = d ∧
          ∀ e ∈ pw, (∀ slot size, e ≠ Effect.USART_ReadBuffer slot size) ∧
            (∀ n, e ≠ Effect.CDCDSerialDriver_Read n) ∧ (∀ v, e ≠ Effect.TC_CCR v) ∧
            (∀ v, e ≠ Effect.usartCurrentBuffer v) ∧ (∀ v, e ≠ Effect.US_IER v)) ∧
      ((∀ x ∈ s.devicePolls, x < b.USBD_STATE_CONFIGURED) → main_loop b s = none)) := by
  have hpw : ∀ s0 : State, ∃ pw, (main_power s0).trace = s0.trace ++ pw ∧
      (main_power s0).usartCurrentBuffer = s0.usartCurrentBuffer ∧
      (main_power s0).deviceState = s0.deviceState ∧
      ∀ e ∈ pw, (∀ slot size, e ≠ Effect.USART_ReadBuffer slot size) ∧
        (∀ n, e ≠ Effect.CDCDSerialDriver_Read n) ∧ (∀ v, e ≠ Effect.TC_CCR v) ∧
        (∀ v, e ≠ Effect.usartCurrentBuffer v) ∧ (∀ v, e ≠ Effect.US_IER v) := by
    intro s0
    by_cases h1 : s0.USBState = STATE_SUSPEND
    · rw [(main_power_spec s0).1 h1]
      refine ⟨[Effect.LowPowerMode, Effect.USBState STATE_IDLE], rfl, rfl, rfl, ?_⟩
      intro e he
      simp only [List.mem_cons, List.mem_singleton, List.not_mem_nil, or_false] at he
      rcases he with rfl | rfl <;> simp
    · by_cases h2 : s0.USBState = STATE_RESUME
      · rw [(main_power_spec s0).2.1 h2]
        refine ⟨[Effect.NormalPowerMode, Effect.USBState STATE_IDLE], rfl, rfl, rfl, ?_⟩
        intro e he
        simp only [List.mem_cons, List.mem_singleton, List.not_mem_nil, or_false] at he
        rcases he with rfl | rfl <;> simp
      · rw [(main_power_spec s0).2.2 h1 h2]
        exact ⟨[], by simp, rfl, rfl, by simp⟩
  refine ⟨fun h => ?_, fun h => ⟨fun skipped d polls hs hd hp => ?_, fun hall => ?_⟩⟩
  · obtain ⟨pw, h1, h2, -, h4⟩ := hpw s
    exact ⟨_, pw, (main_loop_spec b s).1 h, h1, h2, h4⟩
  · obtain ⟨s0, h1, h2, -, h4, h5⟩ := ((main_loop_spec b s).2 h).1 skipped d polls hs hd hp
    obtain ⟨pw, p1, p2, p3, p4⟩ := hpw s0
    exact ⟨_, pw, h1, by rw [p1, h2], by rw [p2, h4], by rw [p3, h5], p4⟩
  · exact ((main_loop_spec b s).2 h).2 hall

/-- C12 at concrete states: configured already, and configured at the third poll. -/
theorem C12_setup_once_witness :
    main_loop at91sam7s_ek (started at91sam7s_ek 0) = some (started at91sam7s_ek 0) ∧
    ∃ s' pw, main_loop at91sam7s_ek { boot at91sam7s_ek with devicePolls := [0, 4, 5] } =
        some s' ∧
      s'.trace = [Effect.USBD_Connect, Effect.usartCurrentBuffer 0,
        Effect.USART_ReadBuffer 0 64, Effect.USART_ReadBuffer 1 64, Effect.US_IER 104,
        Effect.TC_CCR 5, Effect.CDCDSerialDriver_Read 64] ++ pw ∧
      s'.usartCurrentBuffer = 0 := by
  constructor
  · obtain ⟨s', pw, h1, -, -, -⟩ :=
      (C12_setup_once at91sam7s_ek (started at91sam7s_ek 0)).1 (by decide)
    rw [h1]
    have : main_loop at91sam7s_ek (started at91sam7s_ek 0) = some (started at91sam7s_ek 0) := by
      decide
    rw [this] at h1
    exact h1.symm
  · obtain ⟨s', pw, h1, h2, h3, -, -⟩ :=
      ((C12_setup_once at91sam7s_ek { boot at91sam7s_ek with devicePolls := [0, 4, 5] }).2
        (by decide)).1 [0, 4] 5 [] (by decide) (by decide) (by decide)
    exact ⟨s', pw, h1, by rw [h2]; rfl, h3⟩

/-- C13, the code where it departs from the claim: `ISR_Timer0` never looks at
`USBD_GetState()`.  With the link not configured, the compare flag set, a non-zero flush
size and a write that gets accepted, it hands the current slot to `CDCDSerialDriver_Write`
and switches `usartCurrentBuffer`, as it does with the link configured; `ISR_Usart0` in the
same state only stores `0xFFFFFFFF` to `US_IDR`. -/
theorem C13_timer_unconfigured (b : Board) (s : State) (busy rest : List Nat)
    (hcfg : s.deviceState ≠ b.USBD_STATE_CONFIGURED)
    (hflag : s.TC_SR &&& b.AT91C_TC_CPCS ≠ 0)
    (hsize : flushSize b s.US_RCR ≠ 0)
    (hbusy : ∀ r ∈ busy, r ≠ b.USBD_STATUS_SUCCESS)
    (hw : s.writeStatus = busy ++ b.USBD_STATUS_SUCCESS :: rest) :
    (∃ s', ISR_Timer0 b s = some s' ∧
      Effect.CDCDSerialDriver_Write s.usartCurrentBuffer (flushSize b s.US_RCR)
        (slotData b s s.usartCurrentBuffer (flushSize b s.US_RCR)) b.USBD_STATUS_SUCCESS ∈
        s'.trace.drop s.trace.length ∧
      s'.usartCurrentBuffer = toggled s.usartCurrentBuffer) ∧
    ISR_Usart0 b s = some (({ s with US_IMR := clearBits s.US_IMR 0xFFFFFFFF }).emit
      [Effect.US_IDR 0xFFFFFFFF]) := by
  refine ⟨?_, ISR_Usart0_unconfigured b s hcfg⟩
  obtain ⟨s', h1, h2, h3, -, -⟩ := ISR_Timer0_handOff b s busy rest hflag hsize hbusy hw
  refine ⟨s', h1, ?_, h3⟩
  rw [h2]
  simp

/-- C13 at the failing input: bus suspended after the start of reception, 37 bytes pending,
timer fire.  The handler hands the 37 bytes of slot 0 to `CDCDSerialDriver_Write` and
switches the index to 1. -/
theorem C13_timer_unconfigured_witness :
    suspended37.deviceState ≠ at91sam7s_ek.USBD_STATE_CONFIGURED ∧
    ∃ s', ISR_Timer0 at91sam7s_ek suspended37 = some s' ∧
      Effect.CDCDSerialDriver_Write 0 37 (List.range' 1 37) 0 ∈
        s'.trace.drop suspended37.trace.length ∧
      s'.usartCurrentBuffer = 1 := by
  refine ⟨by decide, ?_⟩
  obtain ⟨⟨s', h1, h2, h3⟩, -⟩ := C13_timer_unconfigured at91sam7s_ek suspended37 [] []
    (by decide) (by decide) (by decide) (by decide) (by decide)
  exact ⟨s', h1, h2, by rw [h3]; decide⟩

/-- C15, as amended.  In the model of the two holders of `usbBuffer`: (1) along every run in
which the driver loop does not run its setup during a UART transmission, from a state with
at most one holder, every state reached has at most one holder; (2) an `ISR_Usart0`
invocation that calls `CDCDSerialDriver_Read` does so with no transmission in progress;
(3) a transmission is started only by the completion of the armed USB receive, that is by
`UsbDataReceived`, and the receive is then no longer armed; (4) the setup of the driver loop
arms the USB receive without looking at the transmitter, which it leaves as it is. -/
theorem C15_usb_buffer_owner (b : Board) :
    (∀ (l l1 : Bridge) (evs : List BridgeEvent), l.singleOwner = true →
      setupWhileIdle b l evs = true → Bridge.run b l evs = some l1 → l1.singleOwner = true) ∧
    (∀ (l l1 : Bridge) (during : List Nat),
      l.step b (BridgeEvent.irq (Event.usart during)) = some l1 →
      (l1.core.trace.drop l.core.trace.length).any Effect.armsUsbReceive = true →
      l.uartSending = false ∧ l1.uartSending = false) ∧
    (∀ (l l1 : Bridge) (e : BridgeEvent), l.step b e = some l1 → l.uartSending = false →
      l1.uartSending = true →
      l.usbArmed = true ∧ l1.usbArmed = false ∧
        ∃ status data remaining, e = BridgeEvent.usbReceived status data remaining) ∧
    (∀ l l1 : Bridge, l.core.deviceState < b.USBD_STATE_CONFIGURED →
      l.step b BridgeEvent.driverLoop = some l1 →
      l1.usbArmed = true ∧ l1.uartSending = l.uartSending) := by
  refine ⟨fun l l1 evs => run_singleOwner b evs l l1, ?_, ?_, ?_⟩
  · intro l l1 during h hread
    simp only [Bridge.step, step, Option.map_eq_some'] at h
    obtain ⟨s', hs, rfl⟩ := h
    obtain ⟨new, h1, h2, h3⟩ := ISR_Usart0_rx_calls b _ s' during hs
    have hnew : (l.after s').core.trace.drop l.core.trace.length = new := by
      rw [after_append l s' new h1]
      have h1' : s'.trace = l.core.trace ++ new := h1
      simp [h1']
    rw [hnew] at hread
    rw [after_append l s' new h1]
    cases hsend : l.uartSending
    · simp [h2]
    · have := h3 (by simp [Bridge.status, hsend, clearBits_land])
      rw [this] at hread
      cases hread
  · intro l l1 e h hs hs1
    obtain ⟨status, data, remaining, rfl⟩ := step_uartSending b l l1 e h hs hs1
    refine ⟨?_, ?_, status, data, remaining, rfl⟩
    · cases ha : l.usbArmed
      · simp [Bridge.step, ha] at h
      · rfl
    · simp only [Bridge.step] at h
      cases ha : l.usbArmed
      · simp [ha] at h
      · simp only [ha, if_true, Option.map_eq_some'] at h
        obtain ⟨s', hs', rfl⟩ := h
        obtain ⟨new, h1, h2⟩ := UsbDataReceived_calls b _ s' _ _ _ hs'
        rw [after_append { l with usbArmed := false } s' new h1]
        simp [h2]
  · intro l l1 hd h
    simp only [Bridge.step, Option.map_eq_some'] at h
    obtain ⟨s', hs, rfl⟩ := h
    obtain ⟨new, h1, h2, h3⟩ := main_loop_calls b _ s' hs
    rw [after_append l s' new h1]
    simp [h2, h3, hd]

set_option maxRecDepth 100000 in
/-- C15 as amended, on a run: setup, two bytes from the host, the UART sends them, the
transmit-buffer-empty interrupt arms the next receive.  The USB receive path holds the
buffer at the end, the UART does not. -/
theorem C15_usb_buffer_owner_witness :
    bootBridge.singleOwner = true ∧ setupWhileIdle at91sam7s_ek bootBridge pingPong = true ∧
    ∃ l1, Bridge.run at91sam7s_ek bootBridge pingPong = some l1 ∧
      l1.usbArmed = true ∧ l1.uartSending = false ∧ l1.singleOwner = true := by
  have hrun : Bridge.run at91sam7s_ek bootBridge pingPong =
      some ((Bridge.run at91sam7s_ek bootBridge pingPong).getD bootBridge) := by decide
  exact ⟨by decide, by decide, _, hrun, by decide, by decide,
    (C15_usb_buffer_owner at91sam7s_ek).1 bootBridge _ pingPong (by decide) (by decide) hrun⟩

set_option maxRecDepth 100000 in
/-- C15 as stated fails in the model: in the run `setupDuringSend` the driver loop runs its
setup again while the UART still sends `usbBuffer`, and the state reached has a USB receive
armed on `usbBuffer` and a UART transmission of it in progress. -/
theorem C15_usb_buffer_owner_counterexample :
    bootBridge.usbArmed = false ∧ bootBridge.uartSending = false ∧
    ∃ l1, Bridge.run at91sam7s_ek bootBridge setupDuringSend = some l1 ∧
      l1.usbArmed = true ∧ l1.uartSending = true := by
  refine ⟨rfl, rfl, (Bridge.run at91sam7s_ek bootBridge setupDuringSend).getD bootBridge,
    by decide, by decide, by decide⟩

/-- C16: for a peripheral id below 32 and any value of the status register,
`PMC_EnablePeripheral` stores exactly `1 << id` to the enable register when the status bit
of the peripheral is clear and stores nothing when it is set; `PMC_DisablePeripheral` stores
exactly `1 << id` to the disable register when the bit is set and nothing when it is clear.
With the status register following the stores, `PMC_IsPeriphEnabled` is non-zero after the
enable and zero after the disable, and the status bit of every other peripheral is
unchanged. -/
theorem C16_peripheral_clock (p : Pmc) (id : Nat) (hid : id < 32) :
    (p.PMC_PCSR.testBit id = false →
      PMC_EnablePeripheral p id = some (p.store (PmcEffect.PMC_PCER (1 <<< id)))) ∧
    (p.PMC_PCSR.testBit id = true →
      PMC_EnablePeripheral p id = some { p with trace := p.trace ++ [PmcEffect.TRACE_INFO] }) ∧
    (p.PMC_PCSR.testBit id = true →
      PMC_DisablePeripheral p id = some (p.store (PmcEffect.PMC_PCDR (1 <<< id)))) ∧
    (p.PMC_PCSR.testBit id = false →
      PMC_DisablePeripheral p id = some { p with trace := p.trace ++ [PmcEffect.TRACE_INFO] }) ∧
    (∃ p', PMC_EnablePeripheral p id = some p' ∧ PMC_IsPeriphEnabled p' id ≠ 0 ∧
      ∀ j, j ≠ id → p'.PMC_PCSR.testBit j = p.PMC_PCSR.testBit j) ∧
    (∃ p', PMC_DisablePeripheral p id = some p' ∧ PMC_IsPeriphEnabled p' id = 0 ∧
      ∀ j, j ≠ id → p'.PMC_PCSR.testBit j = p.PMC_PCSR.testBit j) := by
  have hb := idBit_eq id hid
  have hs : (1 : Nat) <<< id = 2 ^ id := Nat.one_shiftLeft id
  have hz : ∀ x : Nat, x &&& 2 ^ id = 0 ↔ x.testBit id = false := by
    intro x
    constructor
    · intro h
      have := congrArg (fun n => n.testBit id) h
      simpa [Nat.testBit_and, Nat.testBit_two_pow_self] using this
    · intro h
      apply Nat.eq_of_testBit_eq
      intro j
      rw [Nat.testBit_and, Nat.testBit_two_pow]
      by_cases hj : id = j
      · subst hj
        simp [h]
      · simp [hj]
  have hen0 : p.PMC_PCSR.testBit id = false →
      PMC_EnablePeripheral p id = some (p.store (PmcEffect.PMC_PCER (1 <<< id))) := by
    intro h
    have hne : ¬ (p.PMC_PCSR &&& 2 ^ id = 2 ^ id) := by
      rw [land_two_pow]
      simp [h]
    unfold PMC_EnablePeripheral
    simp [hid, hb, hs, hne]
  have hen1 : p.PMC_PCSR.testBit id = true →
      PMC_EnablePeripheral p id =
        some { p with trace := p.trace ++ [PmcEffect.TRACE_INFO] } := by
    intro h
    have he : p.PMC_PCSR &&& 2 ^ id = 2 ^ id := (land_two_pow _ _).2 h
    unfold PMC_EnablePeripheral
    simp [hid, hb, he, Pmc.store]
  have hdis1 : p.PMC_PCSR.testBit id = true →
      PMC_DisablePeripheral p id = some (p.store (PmcEffect.PMC_PCDR (1 <<< id))) := by
    intro h
    have he : p.PMC_PCSR &&& 2 ^ id = 2 ^ id := (land_two_pow _ _).2 h
    unfold PMC_DisablePeripheral
    simp [hid, hb, hs, he]
  have hdis0 : p.PMC_PCSR.testBit id = false →
      PMC_DisablePeripheral p id =
        some { p with trace := p.trace ++ [PmcEffect.TRACE_INFO] } := by
    intro h
    have hne : ¬ (p.PMC_PCSR &&& 2 ^ id = 2 ^ id) := by
      rw [land_two_pow]
      simp [h]
    unfold PMC_DisablePeripheral
    simp [hid, hb, hne, Pmc.store]
  refine ⟨hen0, hen1, hdis1, hdis0, ?_, ?_⟩
  · cases h : p.PMC_PCSR.testBit id
    · refine ⟨_, hen0 h, ?_, ?_⟩
      · unfold PMC_IsPeriphEnabled
        rw [hb, hs]
        intro h0
        have := (hz _).1 h0
        simp [Pmc.store, Nat.testBit_or, Nat.testBit_two_pow_self] at this
      · intro j hj
        simp [Pmc.store, hs, Nat.testBit_or, Nat.testBit_two_pow, Ne.symm hj]
    · refine ⟨_, hen1 h, ?_, fun j _ => rfl⟩
      unfold PMC_IsPeriphEnabled
      rw [hb]
      intro h0
      have := (hz _).1 h0
      simp [h] at this
  · cases h : p.PMC_PCSR.testBit id
    · refine ⟨_, hdis0 h, ?_, fun j _ => rfl⟩
      unfold PMC_IsPeriphEnabled
      rw [hb]
      exact (hz _).2 h
    · refine ⟨_, hdis1 h, ?_, ?_⟩
      · unfold PMC_IsPeriphEnabled
        rw [hb, hs]
        apply (hz _).2
        simp [Pmc.store, clearBits_testBit, Nat.testBit_two_pow_self]
      · intro j hj
        simp [Pmc.store, hs, clearBits_testBit, Nat.testBit_two_pow, Ne.symm hj]

/-- C16 for the USART0 clock (peripheral 6) with only the system bits of the status
register set: the enable stores 64 to `PMC_PCER`, and the disable that follows stores 64 to
`PMC_PCDR`. -/
theorem C16_peripheral_clock_witness :
    (6 : Nat) < 32 ∧
    PMC_EnablePeripheral { PMC_PCSR := 3, trace := [] } 6 =
      some { PMC_PCSR := 67, trace := [PmcEffect.PMC_PCER 64] } ∧
    PMC_DisablePeripheral { PMC_PCSR := 67, trace := [PmcEffect.PMC_PCER 64] } 6 =
      some { PMC_PCSR := 3, trace := [PmcEffect.PMC_PCER 64, PmcEffect.PMC_PCDR 64] } := by
  refine ⟨by decide, ?_, ?_⟩
  · rw [(C16_peripheral_clock { PMC_PCSR := 3, trace := [] } 6 (by decide)).1 (by decide)]
    decide
  · rw [(C16_peripheral_clock { PMC_PCSR := 67, trace := [PmcEffect.PMC_PCER 64] } 6
      (by decide)).2.2.1 (by decide)]
    decide

/-- C17: with a capacity of at most 255 the 8-bit flush size is `DATABUFFERSIZE - US_RCR`
for every remaining count up to the capacity, and is at most the capacity.  Every
`CDCDSerialDriver_Write` call of an `ISR_Timer0` invocation then passes the current slot
with a length between 1 and the capacity, and the bytes passed are the first bytes of that
slot: they lie inside `usartBuffers[usartCurrentBuffer]`. -/
theorem C17_flush_length (b : Board) (hC : b.DATABUFFERSIZE ≤ 255) :
    (∀ r, r ≤ b.DATABUFFERSIZE →
      flushSize b r = b.DATABUFFERSIZE - r ∧ flushSize b r ≤ b.DATABUFFERSIZE) ∧
    (∀ s s', s.US_RCR ≤ b.DATABUFFERSIZE → ISR_Timer0 b s = some s' →
      ∀ slot size data st,
        Effect.CDCDSerialDriver_Write slot size data st ∈ s'.trace.drop s.trace.length →
        slot = s.usartCurrentBuffer ∧ size = b.DATABUFFERSIZE - s.US_RCR ∧
        1 ≤ size ∧ size ≤ b.DATABUFFERSIZE ∧ data = slotData b s slot size ∧
        slotOffset b slot + size ≤ slotOffset b (slot + 1) ∧
        (s.usartCurrentBuffer ≤ 1 → s.usartBuffers.length = 2 * b.DATABUFFERSIZE →
          data.length = size)) := by
  have hfs : ∀ r, r ≤ b.DATABUFFERSIZE → flushSize b r = b.DATABUFFERSIZE - r := by
    intro r hr
    unfold flushSize
    omega
  refine ⟨fun r hr => ⟨hfs r hr, by rw [hfs r hr]; omega⟩, ?_⟩
  intro s s' hr h slot size data st hmem
  obtain ⟨h1, h2, h3, h4⟩ := ISR_Timer0_writes b s s' h slot size data st hmem
  rw [hfs _ hr] at h2
  have hoff : slotOffset b (slot + 1) = slotOffset b slot + b.DATABUFFERSIZE := by
    unfold slotOffset
    ring
  refine ⟨h1, h2, by omega, by omega, h4, by omega, ?_⟩
  intro hcur hlen
  rw [h4]
  unfold slotData slotOffset
  rw [List.length_take, List.length_drop, hlen, h1]
  have : s.usartCurrentBuffer * b.DATABUFFERSIZE ≤ b.DATABUFFERSIZE := by
    calc s.usartCurrentBuffer * b.DATABUFFERSIZE ≤ 1 * b.DATABUFFERSIZE :=
          Nat.mul_le_mul_right _ hcur
      _ = b.DATABUFFERSIZE := by simp
  omega

set_option maxRecDepth 100000 in
/-- C17 on the board after 37 received bytes: the flush size for a remaining count of 27 is
37, and the timer hands off 37 bytes of slot 0. -/
theorem C17_flush_length_witness :
    at91sam7s_ek.DATABUFFERSIZE ≤ 255 ∧
    flushSize at91sam7s_ek 27 = 37 ∧
    ∃ s', ISR_Timer0 at91sam7s_ek pause37 = some s' ∧
      Effect.CDCDSerialDriver_Write 0 37 (List.range' 1 37) 0 ∈
        s'.trace.drop pause37.trace.length ∧
      (List.range' 1 37).length = 37 := by
  have h := C17_flush_length at91sam7s_ek (by decide)
  refine ⟨by decide, ?_, (ISR_Timer0 at91sam7s_ek pause37).getD pause37, by decide, ?_, ?_⟩
  · rw [(h.1 27 (by decide)).1]
    rfl
  · decide
  · have hm : Effect.CDCDSerialDriver_Write 0 37 (List.range' 1 37) 0 ∈
        (((ISR_Timer0 at91sam7s_ek pause37).getD pause37).trace.drop pause37.trace.length) := by
      decide
    exact (h.2 pause37 ((ISR_Timer0 at91sam7s_ek pause37).getD pause37) (by decide) (by decide)
      0 37 (List.range' 1 37) 0 hm).2.2.2.2.2.2 (by decide) (by decide)

/-- C18, the code at the failing input: `USBState` is `STATE_SUSPEND` when the driver loop
reaches its power part and `USBDCallbacks_Resumed` runs while `LowPowerMode()` executes.
The store `USBState = STATE_IDLE` that follows `LowPowerMode()` overwrites the
`STATE_RESUME` just recorded: the iteration ends with `USBState` idle and without
`NormalPowerMode` having been invoked. -/
theorem C18_resume_lost (b : Board) (s : State) (h : s.USBState = STATE_SUSPEND) :
    (main_power_during (USBDCallbacks_Resumed b) s).USBState = STATE_IDLE ∧
    (main_power_during (USBDCallbacks_Resumed b) s).trace = s.trace ++
      [Effect.LowPowerMode,
        Effect.LED_Configure b.USBD_LEDPOWER, Effect.LED_Set b.USBD_LEDPOWER,
        Effect.LED_Configure b.USBD_LEDUSB, Effect.LED_Clear b.USBD_LEDUSB,
        Effect.USBState STATE_RESUME,
        Effect.USBState STATE_IDLE] ∧
    Effect.NormalPowerMode ∉ (main_power_during (USBDCallbacks_Resumed b) s).trace.drop
      s.trace.length := by
  have hne2 : STATE_IDLE ≠ STATE_RESUME := by decide
  have ht : (main_power_during (USBDCallbacks_Resumed b) s).trace = s.trace ++
      [Effect.LowPowerMode,
        Effect.LED_Configure b.USBD_LEDPOWER, Effect.LED_Set b.USBD_LEDPOWER,
        Effect.LED_Configure b.USBD_LEDUSB, Effect.LED_Clear b.USBD_LEDUSB,
        Effect.USBState STATE_RESUME,
        Effect.USBState STATE_IDLE] := by
    simp [main_power_during, USBDCallbacks_Resumed, State.emit, h, hne2]
  refine ⟨?_, ht, ?_⟩
  · simp [main_power_during, USBDCallbacks_Resumed, State.emit, h, hne2]
  · rw [ht]
    simp

/-- C18 at a concrete state. -/
theorem C18_resume_lost_witness :
    (main_power_during (USBDCallbacks_Resumed at91sam7s_ek)
      { started at91sam7s_ek 0 with USBState := STATE_SUSPEND }).USBState = STATE_IDLE ∧
    Effect.NormalPowerMode ∉
      (main_power_during (USBDCallbacks_Resumed at91sam7s_ek)
        { started at91sam7s_ek 0 with USBState := STATE_SUSPEND }).trace :=
  ⟨(C18_resume_lost at91sam7s_ek { started at91sam7s_ek 0 with USBState := STATE_SUSPEND }
      rfl).1, by decide⟩

end CdcSerial
